import Mathlib

/-!
# Cart manager of the Aevera storefront (`website/script.js`)

A shallow embedding of the cart state management of `script.js`: the global
variables `cartItems` and `cartCount`, the three `localStorage` keys the cart
code touches, and the functions `initCart`, `executeAddToCart`,
`placeOrderAndClearCart`, `updateCartItemQuantity` and `removeFromCart`.

Modelling conventions:

* JavaScript values are the type `JSVal`.  In the first part numbers are
  exact finite decimals (`Dec`) plus `NaN`: arithmetic is exact and
  `String(n)` is positional, which is what the program computes as long as
  its numbers stay exact doubles printed positionally (integers below
  `2 ^ 53` in magnitude); statements that depend on it carry that bound.
* The part with names in `Ieee` follows `parseInt`, `String`, the three
  mutators of the cart and the item count of `displayCartItems` in double
  precision: integers are rounded to the nearest double, ties to even, a
  number beyond the range is an infinity, and `String` uses exponent
  notation from `1e21` on and below `1e-6`.  The statements about the count
  and the quantities along sequences of calls are made there.
* The `try` block of `initCart` is a function that returns an `Except`; its
  `catch` clause is the branch taken on an error.
* A cart line is a record of the fields the code reads or writes; a field
  that is absent holds `undefined`.
* A `localStorage` value is modelled by the outcome of `JSON.parse` on it.
* DOM updates (badge, list, notification banner) carry no state of their
  own and are left out; `alert` and `console.error` are recorded in logs.
-/

namespace Aevera

/-! ## Numbers and values -/

/-- A finite decimal number `mant / 10 ^ exp`. -/
structure Dec where
  mant : Int
  exp : Nat
  deriving DecidableEq, Repr

/-- Strip trailing zeros of the fraction, at most `fuel` of them. -/
def Dec.strip : Nat → Int → Nat → Dec
  | 0, m, e => ⟨m, e⟩
  | fuel + 1, m, e =>
    match e with
    | 0 => ⟨m, 0⟩
    | e' + 1 => if m % 10 = 0 then Dec.strip fuel (m / 10) e' else ⟨m, e' + 1⟩

/-- Canonical form: no trailing zero in the fraction. -/
def Dec.normalize (d : Dec) : Dec := Dec.strip d.exp d.mant d.exp

/-- The integer `n` as a number. -/
def Dec.ofInt (n : Int) : Dec := ⟨n, 0⟩

/-- Sum of two numbers. -/
def Dec.add (a b : Dec) : Dec :=
  Dec.normalize ⟨a.mant * 10 ^ (b.exp - a.exp) + b.mant * 10 ^ (a.exp - b.exp), max a.exp b.exp⟩

/-- Product of two numbers. -/
def Dec.mul (a b : Dec) : Dec :=
  Dec.normalize ⟨a.mant * b.mant, a.exp + b.exp⟩

/-- A JavaScript value.  `obj ref text` is a reference to an object or an
array: `ref` is its identity and `text` what `String(...)` gives for it
(`[object Object]` for a plain object, the joined elements for an array). -/
inductive JSVal where
  | undefined
  | null
  | bool (b : Bool)
  | num (d : Dec)
  | nan
  | str (s : String)
  | obj (ref : Nat) (text : String)
  deriving DecidableEq, Repr

/-- A number that may be `NaN` (`none`). -/
abbrev Num := Option Dec

/-- The value of a number. -/
def JSVal.ofNum : Num → JSVal
  | some d => .num d
  | none => .nan

/-- The integer `n` as a value. -/
def JSVal.int (n : Int) : JSVal := .num (Dec.ofInt n)

/-- JavaScript truthiness (`ToBoolean`). -/
def JSVal.truthy : JSVal → Bool
  | .undefined => false
  | .null => false
  | .bool b => b
  | .num d => d.mant != 0
  | .nan => false
  | .str s => s != ""
  | .obj _ _ => true

/-- Strict equality `a === b`: numbers are equal when they have the same
canonical form, objects when they are the same reference, and `NaN` is equal
to nothing. -/
def JSVal.strictEq : JSVal → JSVal → Bool
  | .undefined, .undefined => true
  | .null, .null => true
  | .bool a, .bool b => a == b
  | .num a, .num b => a.normalize == b.normalize
  | .str a, .str b => a == b
  | .obj r _, .obj r' _ => r == r'
  | _, _ => false

/-- The test `typeof v === 'undefined'`. -/
def JSVal.isUndefined : JSVal → Bool
  | .undefined => true
  | _ => false

/-- The test `v === null`. -/
def JSVal.isNull : JSVal → Bool
  | .null => true
  | _ => false

/-! ## Text of numbers, `String(...)` -/

/-- The decimal digit character of `d < 10`. -/
def digitChar (d : Nat) : Char := Char.ofNat (48 + d)

/-- Decimal digits of `n`, most significant first, pushed in front of `acc`;
`fuel` bounds the number of digits. -/
def natDigitsAux : Nat → Nat → List Char → List Char
  | 0, _, acc => acc
  | fuel + 1, n, acc =>
    if n < 10 then digitChar n :: acc
    else natDigitsAux fuel (n / 10) (digitChar (n % 10) :: acc)

/-- Decimal text of a natural number. -/
def natDigits (n : Nat) : List Char := natDigitsAux (n + 1) n []

/-- Exactly `k` decimal digits of `n` (its `k` lowest ones), in front of `acc`. -/
def fracDigits : Nat → Nat → List Char → List Char
  | 0, _, acc => acc
  | k + 1, n, acc => fracDigits k (n / 10) (digitChar (n % 10) :: acc)

/-- Decimal text of an integer. -/
def intText (n : Int) : List Char :=
  if n < 0 then '-' :: natDigits n.natAbs else natDigits n.natAbs

/-- Decimal text of a number in positional notation. -/
def Dec.text (d : Dec) : List Char :=
  let d := d.normalize
  if d.exp = 0 then intText d.mant
  else
    let a := d.mant.natAbs
    let body := natDigits (a / 10 ^ d.exp) ++ '.' :: fracDigits d.exp (a % 10 ^ d.exp) []
    if d.mant < 0 then '-' :: body else body

/-- The conversion `String(v)`. -/
def JSVal.toStr : JSVal → String
  | .undefined => "undefined"
  | .null => "null"
  | .bool true => "true"
  | .bool false => "false"
  | .num d => String.mk d.text
  | .nan => "NaN"
  | .str s => s
  | .obj _ text => text

/-! ## `trim`, `parseInt`, `parseFloat` -/

/-- White space and line terminators, the characters `trim`, `parseInt` and
`parseFloat` skip. -/
def isJSSpace (c : Char) : Bool :=
  let n := c.toNat
  n == 0x09 || n == 0x0A || n == 0x0B || n == 0x0C || n == 0x0D || n == 0x20 ||
  n == 0xA0 || n == 0x1680 || (0x2000 ≤ n && n ≤ 0x200A) || n == 0x2028 ||
  n == 0x2029 || n == 0x202F || n == 0x205F || n == 0x3000 || n == 0xFEFF

/-- The method `trim` on a list of characters. -/
def trimChars (cs : List Char) : List Char :=
  ((cs.dropWhile isJSSpace).reverse.dropWhile isJSSpace).reverse

/-- The method `String.prototype.trim`. -/
def jsTrim (s : String) : String := String.mk (trimChars s.toList)

/-- Value of `c` as a digit of the given radix (10 or 16). -/
def digitVal (radix : Nat) (c : Char) : Option Nat :=
  let n := c.toNat
  if 48 ≤ n ∧ n ≤ 57 then some (n - 48)
  else if radix = 16 ∧ 97 ≤ n ∧ n ≤ 102 then some (n - 87)
  else if radix = 16 ∧ 65 ≤ n ∧ n ≤ 70 then some (n - 55)
  else none

/-- The longest prefix of digits: its value (starting from `acc`), how many
digits it has, and the rest of the text. -/
def readDigits (radix : Nat) : List Char → Nat → Nat → Nat × Nat × List Char
  | [], acc, k => (acc, k, [])
  | c :: cs, acc, k =>
    match digitVal radix c with
    | some d => readDigits radix cs (acc * radix + d) (k + 1)
    | none => (acc, k, c :: cs)

/-- An optional sign in front of the text. -/
def readSign : List Char → Bool × List Char
  | '-' :: cs => (true, cs)
  | '+' :: cs => (false, cs)
  | cs => (false, cs)

/-- The radix of the text after the sign: 16 after a `0x` or `0X` prefix,
which is dropped, and 10 otherwise. -/
def readRadix : List Char → Nat × List Char
  | '0' :: 'x' :: r => (16, r)
  | '0' :: 'X' :: r => (16, r)
  | s => (10, s)

/-- The function `parseInt` on text (no radix argument): leading white space,
an optional sign, an optional `0x` prefix, then the longest run of digits.
`none` is `NaN`. -/
def parseIntChars (cs : List Char) : Option Int :=
  let (neg, s) := readSign (cs.dropWhile isJSSpace)
  let (radix, s) := readRadix s
  let (v, k, _) := readDigits radix s 0 0
  if k = 0 then none else some (if neg then -(v : Int) else (v : Int))

/-- The call `parseInt(v)`: `String(v)` parsed as an integer. -/
def parseInt (v : JSVal) : Option Int := parseIntChars v.toStr.toList

/-- The exponent part `e±ddd` of a decimal literal, when it is complete. -/
def readExponent : List Char → Int
  | c :: cs =>
    if c = 'e' ∨ c = 'E' then
      let (neg, s) := readSign cs
      let (v, k, _) := readDigits 10 s 0 0
      if k = 0 then 0 else if neg then -(v : Int) else (v : Int)
    else 0
  | [] => 0

/-- The function `parseFloat` on text: leading white space, an optional
sign, digits with an optional fraction and exponent.  `none` is `NaN`. -/
def parseFloatChars (cs : List Char) : Num :=
  let (neg, s) := readSign (cs.dropWhile isJSSpace)
  let (ip, ik, rest) := readDigits 10 s 0 0
  let (m, fk, rest) :=
    match rest with
    | '.' :: r =>
      let (fp, fk, rest') := readDigits 10 r ip 0
      if ik = 0 ∧ fk = 0 then (ip, 0, rest) else (fp, fk, rest')
    | _ => (ip, 0, rest)
  if ik = 0 ∧ fk = 0 then none
  else
    let e := readExponent rest
    let sm : Int := if neg then -(m : Int) else (m : Int)
    let d : Dec :=
      if 0 ≤ e then ⟨sm * 10 ^ e.toNat, fk⟩ else ⟨sm, fk + (-e).toNat⟩
    some d.normalize

/-- The call `parseFloat(v)`: `String(v)` parsed as a decimal number. -/
def parseFloat (v : JSVal) : Num := parseFloatChars v.toStr.toList

/-- The method `replace(pat, '')` with a string pattern: the first
occurrence of `pat` is deleted. -/
def removeFirst (pat : List Char) : List Char → List Char
  | [] => []
  | c :: cs => if pat.isPrefixOf (c :: cs) then (c :: cs).drop pat.length else c :: removeFirst pat cs

/-! ## Cart lines, orders and storage -/

/-- One entry of `cartItems`.  `id` is the identifier the legacy `addToCart`
writes; `executeAddToCart` writes `cart_item_id`. -/
structure Line where
  cart_item_id : JSVal
  productId : JSVal
  name : JSVal
  price : JSVal
  image : JSVal
  quantity : JSVal
  color : JSVal
  size : JSVal
  id : JSVal
  deriving DecidableEq, Repr

/-- The assignment `item.quantity = q` of a number. -/
def Line.setQuantity (l : Line) (q : Int) : Line := { l with quantity := .int q }

/-- What `JSON.stringify` writes for a field: `NaN` becomes `null`, an absent
(`undefined`) field stays absent. -/
def jsonField : JSVal → JSVal
  | .nan => .null
  | v => v

/-- A line as `JSON.stringify` followed by `JSON.parse` returns it. -/
def Line.toJSON (l : Line) : Line :=
  { cart_item_id := jsonField l.cart_item_id, productId := jsonField l.productId,
    name := jsonField l.name, price := jsonField l.price, image := jsonField l.image,
    quantity := jsonField l.quantity, color := jsonField l.color, size := jsonField l.size,
    id := jsonField l.id }

/-- An element of a parsed JSON array: a plain object, read as a line; a
plain object whose `quantity` is an object that cannot be converted to a
string, such as `{"toString": 1}` whose own property hides the inherited
method (`l` holds its other fields, `l.quantity` is not read); or anything
else (null, boolean, number, string, array). -/
inductive Entry where
  | other (v : JSVal)
  | object (l : Line)
  | unconvertible (l : Line)
  deriving DecidableEq, Repr

/-- Truthiness of an array element. -/
def Entry.truthy : Entry → Bool
  | .other v => v.truthy
  | .object _ => true
  | .unconvertible _ => true

/-- Reading a property of a truthy array element: a primitive or an array has
none of the line properties. -/
def Entry.field (f : Line → JSVal) : Entry → JSVal
  | .other _ => .undefined
  | .object l => f l
  | .unconvertible l => f l

/-- The line of an object element whose fields can all be converted. -/
def Entry.line? : Entry → Option Line
  | .other _ => none
  | .object l => some l
  | .unconvertible _ => none

/-- An order record created by `placeOrderAndClearCart`. -/
structure Order where
  orderId : String
  orderDate : String
  items : List Line
  totalAmount : JSVal
  paymentMethod : String
  status : String
  deriving DecidableEq, Repr

/-- An order as written by `JSON.stringify`. -/
def Order.toJSON (o : Order) : Order :=
  { o with items := o.items.map Line.toJSON, totalAmount := jsonField o.totalAmount }

/-- An element of the parsed `userOrders` array. -/
inductive OrderEntry where
  | other (v : JSVal)
  | order (o : Order)
  deriving DecidableEq, Repr

/-- The text held under a storage key, by what `JSON.parse` makes of it:
the empty string, a non-empty text that is not JSON, the JSON text of a value
that is not an array, or the JSON text of an array. -/
inductive Stored (α : Type) where
  | empty
  | invalid
  | value (v : JSVal)
  | array (xs : List α)
  deriving DecidableEq, Repr

/-- The `localStorage` keys of the cart; `none` is an absent key. -/
structure Storage where
  cartItems : Option (Stored Entry)
  cartCount : Option String
  userOrders : Option (Stored OrderEntry)
  deriving DecidableEq, Repr

/-- The program state: the two globals, storage, and the logs of `alert`,
`console.error` and uncaught exceptions. -/
structure State where
  cartItems : List Line
  cartCount : Int
  storage : Storage
  alerts : List String
  errors : List String
  uncaught : List String
  deriving DecidableEq, Repr

/-- The state of a fresh page over the given storage: `cartItems = []`,
`cartCount = 0`. -/
def State.init (st : Storage) : State :=
  { cartItems := [], cartCount := 0, storage := st, alerts := [], errors := [], uncaught := [] }

/-- The empty cart over empty storage. -/
def State.empty : State := State.init ⟨none, none, none⟩

/-- The callback of the `reduce` calls that recompute `cartCount`. -/
def addQuantity (total : Int) (currentItem : Line) : Int :=
  total + (match parseInt currentItem.quantity with
    | none => 0
    | some q => if q < 0 then 0 else q)

/-- The recomputed count `cartItems.reduce(..., 0)`. -/
def countOf (items : List Line) : Int := items.foldl addQuantity 0

/-- The statement pair `localStorage.setItem('cartItems', JSON.stringify(cartItems))`
and `localStorage.setItem('cartCount', cartCount.toString())`. -/
def persistCart (st : Storage) (items : List Line) (count : Int) : Storage :=
  { st with cartItems := some (.array (items.map fun l => Entry.object l.toJSON)),
            cartCount := some (String.mk (intText count)) }

/-- The end of each mutator: the two globals are assigned and persisted. -/
def State.commit (s : State) (cartItems : List Line) (cartCount : Int) : State :=
  { s with cartItems := cartItems, cartCount := cartCount,
           storage := persistCart s.storage cartItems cartCount }

/-! ## `initCart` -/

/-- The callback of the `filter` call of `initCart`; `none` when
`parseInt(item.quantity)` raises a `TypeError`, which happens when the
tests before it pass and the quantity cannot be converted to a string. -/
def initCartKeep (item : Entry) : Option Bool :=
  match item with
  | .unconvertible l =>
    if !l.productId.isUndefined && !l.name.isUndefined && !l.price.isUndefined then none
    else some false
  | _ =>
    some (item.truthy && !(item.field Line.productId).isUndefined &&
      !(item.field Line.name).isUndefined &&
      !(item.field Line.price).isUndefined &&
      !(item.field Line.quantity).isUndefined && (parseInt (item.field Line.quantity)).isSome)

/-- The call `parsedItems.filter(...)`: the entries the callback keeps, in
order; `none` when the callback raises on some entry. -/
def filterEntries : List Entry → Option (List Entry)
  | [] => some []
  | item :: rest =>
    match initCartKeep item with
    | none => none
    | some keep =>
      match filterEntries rest with
      | none => none
      | some kept => some (if keep then item :: kept else kept)

/-- The outcome of the `try` block of `initCart` on the text stored under
`cartItems`: the lines loaded, or the exception the `catch` clause receives.
A value that is not an array loads nothing and has the key removed (`true`). -/
def loadCartItems (stored : Stored Entry) : Except String (List Line × Bool) :=
  match stored with
  | .empty => .ok ([], false)
  | .invalid => .error "SyntaxError: JSON.parse"
  | .value _ => .ok ([], true)
  | .array parsedItems =>
    match filterEntries parsedItems with
    | some kept => .ok (kept.filterMap Entry.line?, false)
    | none => .error "TypeError: Cannot convert object to primitive value"

/-- Steps 1 to 3 of `initCart`: load and validate `cartItems` (the `try`
block runs when the stored text is not empty, and the `catch` clause reports
to `console.error` and removes the key), recompute `cartCount`, persist the
count. -/
def initCart (s : State) : State :=
  let loaded : List Line × Storage × List String :=
    match s.storage.cartItems with
    | none => ([], s.storage, [])
    | some .empty => ([], s.storage, [])
    | some stored =>
      match loadCartItems stored with
      | .ok (tempCartItems, false) => (tempCartItems, s.storage, [])
      | .ok (tempCartItems, true) => (tempCartItems, { s.storage with cartItems := none }, [])
      | .error _ =>
        ([], { s.storage with cartItems := none },
          ["initCart: Error parsing cartItems from localStorage. Resetting cart."])
  let cartItems := loaded.1
  let cartCount := countOf cartItems
  { s with cartItems := cartItems, cartCount := cartCount,
           storage := { loaded.2.1 with cartCount := some (String.mk (intText cartCount)) },
           errors := s.errors ++ loaded.2.2 }

/-! ## The product catalog -/

/-- A catalog record, as far as the cart reads it (`image` and `description`
only feed the page markup). -/
structure ProductInfo where
  name : JSVal
  price : JSVal
  deriving DecidableEq, Repr

/-- The own properties of the object `products`. -/
def products : List (String × ProductInfo) :=
  [ ("top1", ⟨.str "BOXY FIT OVERSHIRT", .str "2400.00"⟩),
    ("top2", ⟨.str "PAINT SPLATTER JACKET", .str "6000.00"⟩),
    ("top3", ⟨.str "TOPSTITCHED DENIM JACKET", .str "6000.00"⟩),
    ("top4", ⟨.str "TEXTURED JACQUARD T-SHIRT", .str "1490.00"⟩),
    ("top5", ⟨.str "BASIC HEAVY WEIGHT T-SHIRT", .str "1990.00"⟩),
    ("top6", ⟨.str "Basic Line T-Shirt", .str "1990.00"⟩),
    ("bottom1", ⟨.str "Wide Straight Jeans", .str "1990.00"⟩),
    ("bottom2", ⟨.str "Geard Pants", .str "1990.00"⟩),
    ("bottom3", ⟨.str "Sweat Wide Pants", .str "1990.00"⟩),
    ("bottom4", ⟨.str "OVERSIZED FIT DENIM BERMUDA SHORTS", .str "790.00"⟩),
    ("bottom5", ⟨.str "Denim Work Shorts", .str "1290.00"⟩),
    ("bottom6", ⟨.str "Geard Shorts", .str "1290.00"⟩),
    ("shoe1", ⟨.str "Suede Combination Sneakers", .str "1490.00"⟩),
    ("shoe2", ⟨.str "Slide Sandals", .str "1490.00"⟩),
    ("accessory1", ⟨.str "Metal Oval Sunglasses", .str "990.00"⟩),
    ("accessory2", ⟨.str "Double Bridge Sunglasses", .str "990.00"⟩),
    ("accessory3", ⟨.str "Crown Panto Sunglasses", .str "990.00"⟩),
    ("accessory4", ⟨.str "Boston Combination Sunglasses", .str "990.00"⟩),
    ("accessory5", ⟨.str "Adjustable UV Protection Wide Brim Hat", .str "1490.00"⟩),
    ("accessory6", ⟨.str "UV Protection Cap Twill", .str "990.00"⟩),
    ("bag1", ⟨.str "Multi Pocket Shoulder Bag", .str "1490.00"⟩),
    ("bag2", ⟨.str "Crossbody Bag", .str "990.00"⟩),
    ("bag3", ⟨.str "Soft Puffy Shoulder Bag", .str "1490.00"⟩) ]

/-- The property names every object inherits from `Object.prototype`; reading
one of them on `products` gives a function or object without a `price`. -/
def inheritedKeys : List String :=
  [ "constructor", "hasOwnProperty", "isPrototypeOf", "propertyIsEnumerable",
    "toLocaleString", "toString", "valueOf", "__proto__", "__defineGetter__",
    "__defineSetter__", "__lookupGetter__", "__lookupSetter__" ]

/-- The property read `products[key]`; `none` is `undefined`. -/
def productsAt (key : JSVal) : Option ProductInfo :=
  match products.lookup key.toStr with
  | some p => some p
  | none => if key.toStr ∈ inheritedKeys then some ⟨.undefined, .undefined⟩ else none

/-! ## Arithmetic with `NaN` -/

/-- The sum `a + b` of two numbers. -/
def Num.add : Num → Num → Num
  | some a, some b => some (a.add b)
  | _, _ => none

/-- The product `a * b` of two numbers. -/
def Num.mul : Num → Num → Num
  | some a, some b => some (a.mul b)
  | _, _ => none

/-- The result of `parseInt` as a number. -/
def Num.ofParsed : Option Int → Num
  | some n => some (Dec.ofInt n)
  | none => none

/-! ## `executeAddToCart` -/

/-- The callback of `findIndex` in `executeAddToCart`. -/
def sameItem (productId normalizedColor size : JSVal) (item : Line) : Bool :=
  item.productId.strictEq productId && item.color.strictEq normalizedColor &&
  item.size.strictEq size

/-- The expression `parseFloat(String(price).replace('$', '').replace('PHP', '').trim())`. -/
def cleanPrice (price : JSVal) : Num :=
  parseFloatChars (trimChars (removeFirst "PHP".toList (removeFirst "$".toList price.toStr.toList)))

/-- The validated quantity: `parseInt(quantity)`, or 1 when that is `NaN` or
not positive. -/
def validQuantity (quantity : JSVal) : Int :=
  match parseInt quantity with
  | none => 1
  | some q => if q ≤ 0 then 1 else q

/-- The sanitized quantity of an existing line: `parseInt`, or 0 when that is
`NaN` or negative. -/
def sanitizedQuantity (quantity : JSVal) : Int :=
  match parseInt quantity with
  | none => 0
  | some q => if q < 0 then 0 else q

/-- The expression `color ? color.trim() : ''`; `none` is the `TypeError` of
calling `trim` on a truthy value that is not a string. -/
def normalizeColor (color : JSVal) : Option String :=
  if color.truthy then
    match color with
    | .str c => some (jsTrim c)
    | _ => none
  else some ""

/-- The guard of `executeAddToCart`: `!productId`, or `productName` or `price`
undefined or null. -/
def missingData (productId productName price : JSVal) : Bool :=
  !productId.truthy || productName.isUndefined || productName.isNull ||
    price.isUndefined || price.isNull

/-- The line `executeAddToCart` pushes when no line matches. -/
def newLine (productId productName price productImage quantity size : JSVal)
    (normalizedColor : String) (now : Int) : Line :=
  { cart_item_id := .int now, productId := productId, name := productName,
    price := JSVal.ofNum (cleanPrice price), image := productImage,
    quantity := .int (validQuantity quantity), color := .str normalizedColor,
    size := size, id := .undefined }

/-- The function `executeAddToCart`; `now` is the value of `Date.now()`. -/
def executeAddToCart (s : State)
    (productId productName price productImage quantity color size : JSVal) (now : Int) : State :=
  if missingData productId productName price then
    { s with errors := s.errors ++
        ["executeAddToCart: Attempted to add item with missing critical data."] }
  else
    match normalizeColor color with
    | none => { s with uncaught := s.uncaught ++ ["TypeError: color.trim is not a function"] }
    | some normalizedColor =>
      let cartItems :=
        match s.cartItems.findIdx? (sameItem productId (.str normalizedColor) size) with
        | some existingItemIndex =>
          match s.cartItems[existingItemIndex]? with
          | some existing =>
            s.cartItems.set existingItemIndex
              (existing.setQuantity (sanitizedQuantity existing.quantity + validQuantity quantity))
          | none => s.cartItems
        | none =>
          s.cartItems ++
            [newLine productId productName price productImage quantity size normalizedColor now]
      s.commit cartItems (countOf cartItems)

/-! ## `placeOrderAndClearCart` -/

/-- The callback of the `reduce` that computes `totalAmount`. -/
def addLineAmount (total : Num) (item : Line) : Num :=
  let price : JSVal :=
    match productsAt item.productId with
    | some product => product.price
    | none => item.price
  Num.add total (Num.mul (parseFloat price) (Num.ofParsed (parseInt item.quantity)))

/-- The method `toUpperCase` (ASCII letters). -/
def toUpperCase (s : String) : String := String.mk (s.toList.map Char.toUpper)

/-- The function `placeOrderAndClearCart`.  `selectedPayment` is the value of
the checked payment input if there is one, `now` and `isoDate` are the values
of `Date.now()` and `new Date().toISOString()`. -/
def placeOrderAndClearCart (s : State) (selectedPayment : Option String) (now : Int)
    (isoDate : String) : State :=
  if s.cartItems.length = 0 then
    { s with alerts := s.alerts ++
        ["Your cart is empty. Please add items before placing an order."] }
  else
    let paymentMethod :=
      match selectedPayment with
      | some v => toUpperCase v
      | none => "GCASH"
    let newOrder : Order :=
      { orderId := "AEV-" ++ String.mk (intText now), orderDate := isoDate,
        items := s.cartItems,
        totalAmount := JSVal.ofNum (s.cartItems.foldl addLineAmount (some (Dec.ofInt 0))),
        paymentMethod := paymentMethod, status := "Processing" }
    let parsed : Except String (List OrderEntry) :=
      match s.storage.userOrders with
      | none => .ok []
      | some .empty => .ok []
      | some .invalid => .error "SyntaxError: JSON.parse"
      | some (.value _) => .error "TypeError: orders.push is not a function"
      | some (.array xs) => .ok xs
    match parsed with
    | .error e => { s with uncaught := s.uncaught ++ [e] }
    | .ok orders =>
      let storage1 : Storage :=
        { s.storage with userOrders := some (.array (orders ++ [OrderEntry.order newOrder.toJSON])) }
      { s with cartItems := [], cartCount := 0,
               storage := persistCart storage1 [] 0,
               alerts := s.alerts ++
                 ["Order placed successfully! Thank you for your purchase.\nOrder ID: " ++
                   newOrder.orderId ++ "\nPayment Method: " ++ paymentMethod] }

/-! ## `updateCartItemQuantity` and `removeFromCart` -/

/-- The callback of `findIndex` in `updateCartItemQuantity` and
`removeFromCart`: `String(item.cart_item_id) === String(cartItemId)`. -/
def hasId (cartItemId : JSVal) (item : Line) : Bool :=
  item.cart_item_id.toStr == cartItemId.toStr

/-- The quantity `updateCartItemQuantity` computes from the sanitized one:
`currentQuantity++` for `'increase'`, `Math.max(0, currentQuantity - 1)` for
`'decrease'`, unchanged for any other action. -/
def updatedQuantity (action : JSVal) (sanitized : Int) : Int :=
  if action.strictEq (.str "increase") then sanitized + 1
  else if action.strictEq (.str "decrease") then max 0 (sanitized - 1)
  else sanitized

/-- The function `updateCartItemQuantity`. -/
def updateCartItemQuantity (s : State) (cartItemId action : JSVal) : State :=
  match s.cartItems.findIdx? (hasId cartItemId) with
  | none => s
  | some itemIndex =>
    match s.cartItems[itemIndex]? with
    | none => s
    | some item =>
      let currentQuantity := updatedQuantity action (sanitizedQuantity item.quantity)
      let cartItems :=
        if currentQuantity = 0 then s.cartItems.eraseIdx itemIndex
        else s.cartItems.set itemIndex (item.setQuantity currentQuantity)
      s.commit cartItems (countOf cartItems)

/-- The count `removeFromCart` leaves: `cartCount` less the removed quantity
when that parses as a positive integer, less 1 otherwise, and not below 0. -/
def decrementedCount (cartCount : Int) (quantity : JSVal) : Int :=
  max 0 (match parseInt quantity with
    | some removedQuantity =>
      if removedQuantity > 0 then cartCount - removedQuantity else cartCount - 1
    | none => cartCount - 1)

/-- The function `removeFromCart`. -/
def removeFromCart (s : State) (cartItemId : JSVal) : State :=
  match s.cartItems.findIdx? (hasId cartItemId) with
  | none => s
  | some itemIndex =>
    match s.cartItems[itemIndex]? with
    | none => s
    | some removedItem =>
      let cartItems := s.cartItems.eraseIdx itemIndex
      s.commit cartItems (decrementedCount s.cartCount removedItem.quantity)

/-! ## Sequences of cart operations -/

/-- A call of one of the three cart mutators, with its arguments. -/
inductive Op where
  | add (productId productName price productImage quantity color size : JSVal) (now : Int)
  | update (cartItemId action : JSVal)
  | remove (cartItemId : JSVal)
  deriving DecidableEq, Repr

/-- The state after one call. -/
def step (s : State) : Op → State
  | .add productId productName price productImage quantity color size now =>
    executeAddToCart s productId productName price productImage quantity color size now
  | .update cartItemId action => updateCartItemQuantity s cartItemId action
  | .remove cartItemId => removeFromCart s cartItemId

/-- The state after a sequence of calls. -/
def run (s : State) (ops : List Op) : State := ops.foldl step s

/-- The sum over the lines of the quantity, a quantity that does not parse
as an integer or is negative counting 0. -/
def quantitySum (items : List Line) : Int := (items.map fun l => sanitizedQuantity l.quantity).sum

/-! ## Definitions used by the statements -/

/-- Text made of decimal digits only. -/
def AllDigits (cs : List Char) : Prop := ∀ c ∈ cs, ∃ d, d < 10 ∧ c = digitChar d

/-- The number a list of digits denotes, continuing from `acc`. -/
def digitsValue (acc : Nat) (cs : List Char) : Nat :=
  cs.foldl (fun a c => a * 10 + (c.toNat - 48)) acc

/-- Every line holds a number that is a positive integer as its quantity. -/
def PosQty (items : List Line) : Prop :=
  ∀ l ∈ items, ∃ q : Int, 1 ≤ q ∧ l.quantity = .int q

/-- The cart of a state built by the three mutators: positive quantities
and a count equal to their sum. -/
def CartOK (s : State) : Prop :=
  PosQty s.cartItems ∧ s.cartCount = quantitySum s.cartItems

/-- Two lines are the same logical item: `productId`, `color` and `size` are
pairwise `===`. -/
def sameLogicalItem (a b : Line) : Bool :=
  a.productId.strictEq b.productId && a.color.strictEq b.color && a.size.strictEq b.size

/-- No line is the same logical item as a later one. -/
def NoDuplicate (items : List Line) : Prop :=
  items.Pairwise fun a b => sameLogicalItem a b = false

/-- A persisted cart of two well-formed lines, the second with quantity 0. -/
def zeroLineStore : Storage :=
  { cartItems := some (.array
      [ .object { cart_item_id := .int 1, productId := .str "top1",
                  name := .str "BOXY FIT OVERSHIRT", price := .int 2400, image := .str "a.jpg",
                  quantity := .int 2, color := .str "", size := .str "M", id := .undefined },
        .object { cart_item_id := .int 2, productId := .str "bag2",
                  name := .str "Crossbody Bag", price := .int 990, image := .str "b.jpg",
                  quantity := .int 0, color := .str "", size := .str "", id := .undefined } ]),
    cartCount := some "2", userOrders := none }

/-- The state after adding two of `top1` in black, size M, to the empty cart. -/
def twoOfTop1 : State :=
  executeAddToCart State.empty (.str "top1") (.str "BOXY FIT OVERSHIRT") (.str "2400.00")
    (.str "a.jpg") (.str "2") (.str "rgb(0, 0, 0)") (.str "M") 1000

/-- Two calls: add one `top1` (at time 1000), add one `bag2` (at time 2000). -/
def oneEachOps : List Op :=
  [ .add (.str "top1") (.str "BOXY FIT OVERSHIRT") (.str "2400.00") (.str "a.jpg")
      (.str "1") (.str "rgb(0, 0, 0)") (.str "M") 1000,
    .add (.str "bag2") (.str "Crossbody Bag") (.str "990.00") (.str "b.jpg")
      (.int 1) (.str "") (.str "") 2000 ]

/-- The cart after adding one `top1` (id 1000) and one `bag2` (id 2000). -/
def oneEach : State := run State.empty oneEachOps

/-- An entry the load keeps, in the words of the specification: it is not
null and has `productId`, `name`, `price` and `quantity` present, the
quantity parsable as an integer. -/
def Entry.wellFormed : Entry → Bool
  | .other _ => false
  | .object l =>
    l.productId != .undefined && l.name != .undefined && l.price != .undefined &&
      l.quantity != .undefined && (parseInt l.quantity).isSome
  | .unconvertible _ => false

/-- Loading this entry raises: it has `productId`, `name` and `price` present
and a `quantity` that cannot be converted to a string. -/
def Entry.raises : Entry → Bool
  | .unconvertible l =>
    l.productId != .undefined && l.name != .undefined && l.price != .undefined
  | _ => false

/-- The well-formed lines of the list stored under `cartItems`, in order;
none when the key holds no array. -/
def storedValidLines (st : Storage) : List Line :=
  match st.cartItems with
  | some (.array entries) => (entries.filter Entry.wellFormed).filterMap Entry.line?
  | _ => []

/-- The sum of valid non-negative quantities over everything stored under
`cartItems`: every object entry counts with its sanitized quantity. -/
def storedQuantitySum (st : Storage) : Int :=
  match st.cartItems with
  | some (.array entries) =>
    (entries.map fun e =>
      match e with
      | .object l => sanitizedQuantity l.quantity
      | _ => 0).sum
  | _ => 0

/-- A well-formed persisted line: three of `top1`. -/
def goodLine : Line :=
  { cart_item_id := .int 1000, productId := .str "top1", name := .str "BOXY FIT OVERSHIRT",
    price := .int 2400, image := .str "a.jpg", quantity := .int 3,
    color := .str "rgb(0, 0, 0)", size := .str "M", id := .undefined }

/-- A persisted line without `price`. -/
def noPriceLine : Line :=
  { cart_item_id := .int 2000, productId := .str "bag2", name := .str "Crossbody Bag",
    price := .undefined, image := .str "b.jpg", quantity := .int 2,
    color := .str "", size := .str "", id := .undefined }

/-- Storage with one well-formed line, one line without `price`, and a stale
count. -/
def mixedStore : Storage :=
  { cartItems := some (.array [.object goodLine, .object noPriceLine]),
    cartCount := some "5", userOrders := none }

/-- A persisted entry with `productId`, `name` and `price` whose `quantity`
is the object `{"toString": 1}`. -/
def jammedEntry : Entry :=
  .unconvertible
    { cart_item_id := .int 2000, productId := .str "bag2", name := .str "Crossbody Bag",
      price := .int 990, image := .str "b.jpg", quantity := .obj 1 "",
      color := .str "", size := .str "", id := .undefined }

/-- Storage with one well-formed line followed by that entry. -/
def jammedStore : Storage :=
  { cartItems := some (.array [.object goodLine, jammedEntry]),
    cartCount := some "5", userOrders := none }

/-- The message `initCart` writes with `console.error` when its `catch`
clause runs. -/
def initCartError : String :=
  "initCart: Error parsing cartItems from localStorage. Resetting cart."

/-- Storage whose `cartItems` key holds the empty string. -/
def emptyTextStore : Storage := { cartItems := some .empty, cartCount := none, userOrders := none }

/-- Storage whose `cartItems` key holds text that is not JSON. -/
def brokenStore : Storage := { cartItems := some .invalid, cartCount := some "7", userOrders := none }

/-- A persisted line with a quantity but neither `name` nor `price`. -/
def bareLine : Line :=
  { cart_item_id := .int 1, productId := .str "top1", name := .undefined, price := .undefined,
    image := .undefined, quantity := .int 2, color := .str "", size := .str "M",
    id := .undefined }

/-- Storage whose only line lacks `name` and `price`. -/
def bareStore : Storage :=
  { cartItems := some (.array [.object bareLine]), cartCount := some "2", userOrders := none }

/-! ## Definitions used by the statements on checkout -/

/-- The payment method `placeOrderAndClearCart` records. -/
def paymentOf (selectedPayment : Option String) : String :=
  match selectedPayment with
  | some v => toUpperCase v
  | none => "GCASH"

/-- The order record `placeOrderAndClearCart` builds from the cart. -/
def checkoutOrder (s : State) (selectedPayment : Option String) (now : Int)
    (isoDate : String) : Order :=
  { orderId := "AEV-" ++ String.mk (intText now), orderDate := isoDate,
    items := s.cartItems,
    totalAmount := JSVal.ofNum (s.cartItems.foldl addLineAmount (some (Dec.ofInt 0))),
    paymentMethod := paymentOf selectedPayment, status := "Processing" }

/-- The price of a line in the words of the specification: the catalog
price of its `productId` when the catalog has that `productId`, the line's
own price otherwise. -/
def specPrice (l : Line) : JSVal :=
  match products.lookup l.productId.toStr with
  | some product => product.price
  | none => l.price

/-- The amount of a line in the words of the specification: price times
quantity. -/
def specLineAmount (l : Line) : Num :=
  Num.mul (parseFloat (specPrice l)) (Num.ofParsed (parseInt l.quantity))

/-- The total in the words of the specification: the sum of the line
amounts. -/
def specTotal (items : List Line) : Num :=
  items.foldl (fun total l => Num.add total (specLineAmount l)) (some (Dec.ofInt 0))

/-- A persisted line whose `productId` is the name of a property every
object inherits. -/
def constructorLine : Line :=
  { cart_item_id := .int 1, productId := .str "constructor", name := .str "Custom item",
    price := .int 100, image := .str "c.jpg", quantity := .int 1,
    color := .str "", size := .str "", id := .undefined }

/-- Storage holding that one line. -/
def constructorStore : Storage :=
  { cartItems := some (.array [.object constructorLine]), cartCount := some "1",
    userOrders := none }

/-- The order list `placeOrderAndClearCart` reads is `prev`: the stored
array, or nothing when the key is absent or holds the empty string. -/
def ReadsOrders (st : Storage) (prev : List OrderEntry) : Prop :=
  st.userOrders = some (.array prev) ∨
    ((st.userOrders = none ∨ st.userOrders = some .empty) ∧ prev = [])

/-! ## Definitions used by the statements on removal and update -/

/-- The decrement in the words of the specification: the sanitized quantity
of the removed line (its parsed quantity, a negative one counting 0), and 1
only when the quantity does not parse. -/
def claimedDecrement (quantity : JSVal) : Int :=
  match parseInt quantity with
  | none => 1
  | some q => if q < 0 then 0 else q

/-- The count after a removal in the words of the specification. -/
def claimedCount (cartCount : Int) (quantity : JSVal) : Int :=
  max 0 (cartCount - claimedDecrement quantity)

/-- The cart after adding three of `top1` (id 1000) and one `bag2` (id 2000). -/
def threeAndOne : State :=
  run State.empty
    [ .add (.str "top1") (.str "BOXY FIT OVERSHIRT") (.str "2400.00") (.str "a.jpg")
        (.str "3") (.str "rgb(0, 0, 0)") (.str "M") 1000,
      .add (.str "bag2") (.str "Crossbody Bag") (.str "990.00") (.str "b.jpg")
        (.int 1) (.str "") (.str "") 2000 ]

/-- The `top1` line of `threeAndOne`. -/
def top1Line : Line :=
  newLine (.str "top1") (.str "BOXY FIT OVERSHIRT") (.str "2400.00") (.str "a.jpg")
    (.str "3") (.str "M") "rgb(0, 0, 0)" 1000

/-- The `bag2` line of `threeAndOne`. -/
def bag2Line : Line :=
  newLine (.str "bag2") (.str "Crossbody Bag") (.str "990.00") (.str "b.jpg")
    (.int 1) (.str "") "" 2000

/-! ## Definitions used by the statements on line identifiers and quantities -/

/-- The identifiers of the lines, in order. -/
def lineIds (items : List Line) : List JSVal := items.map Line.cart_item_id

/-- The clock readings of the `executeAddToCart` calls of a sequence. -/
def addTimes : List Op → List Int
  | [] => []
  | .add _ _ _ _ _ _ _ now :: ops => now :: addTimes ops
  | _ :: ops => addTimes ops

/-- Two adds of different products that read the same clock value. -/
def sameClockOps : List Op :=
  [ .add (.str "top1") (.str "BOXY FIT OVERSHIRT") (.str "2400.00") (.str "a.jpg")
      (.str "1") (.str "rgb(0, 0, 0)") (.str "M") 1000,
    .add (.str "bag2") (.str "Crossbody Bag") (.str "990.00") (.str "b.jpg")
      (.int 1) (.str "") (.str "") 1000 ]

/-- Storage holds the lines of the cart, as `JSON.stringify` writes them. -/
def Persisted (s : State) : Prop :=
  s.storage.cartItems = some (.array (s.cartItems.map fun l => Entry.object l.toJSON))

/-! ## `displayCartItems`: the figures published to the summary -/

/-- The malformed-item check at the head of the `forEach` callback of
`displayCartItems` (a line of `cartItems` is an object, so `!item` is false). -/
def displaySkips (item : Line) : Bool :=
  item.productId.isUndefined || item.name.isUndefined || item.name.isNull ||
    item.price.isUndefined || item.price.isNull || item.quantity.isUndefined

/-- A character the replacement `replace(/[^0-9.-]+/g, '')` keeps. -/
def isPriceChar (c : Char) : Bool := c.isDigit || c == '.' || c == '-'

/-- The guard on `itemPrice`: `NaN` and negative prices become 0. -/
def guardedPrice : Num → Num
  | none => some (Dec.ofInt 0)
  | some d => if d.mant < 0 then some (Dec.ofInt 0) else some d

/-- The price `displayCartItems` uses for a line: read from
`products[item.productId]` when that is truthy and from the line otherwise,
stripped of every character other than digits, `.` and `-`, parsed and
guarded. -/
def displayItemPrice (item : Line) : Num :=
  let price : JSVal :=
    match productsAt item.productId with
    | some productInfo => productInfo.price
    | none => item.price
  guardedPrice (parseFloatChars (price.toStr.toList.filter isPriceChar))

/-- The callback of the `forEach` of `displayCartItems`, on the pair
`(totalItemsCount, totalAmount)`. -/
def displayItem (acc : Int × Num) (item : Line) : Int × Num :=
  if displaySkips item then acc
  else
    match parseInt item.quantity with
    | none => acc
    | some itemQuantity =>
      if itemQuantity ≤ 0 then acc
      else
        (acc.1 + itemQuantity,
          Num.add acc.2 (Num.mul (displayItemPrice item) (some (Dec.ofInt itemQuantity))))

/-- The pair `(totalItems, totalAmount)` that `displayCartItems` passes to
`updateCartSummaryDetails` on the cart page. -/
def displayCartItems (cartItems : List Line) : Int × Num :=
  if cartItems.length = 0 then (0, some (Dec.ofInt 0))
  else cartItems.foldl displayItem (0, some (Dec.ofInt 0))

/-! ## Definitions used by the statements on the summary -/

/-- A line the summary counts, in the words of the specification:
`productId`, `name`, `price` and `quantity` present, name and price not
null, and a positive parsed quantity. -/
def specCounted (l : Line) : Bool :=
  l.productId != .undefined && l.name != .undefined && l.name != .null &&
    l.price != .undefined && l.price != .null && l.quantity != .undefined &&
    (match parseInt l.quantity with
      | some q => decide (0 < q)
      | none => false)

/-- The item count in the words of the specification: the sum of the
quantities of the counted lines. -/
def specDisplayCount (items : List Line) : Int :=
  ((items.filter specCounted).map fun l => sanitizedQuantity l.quantity).sum

/-- The total in the words of the claim: the sum of price times quantity
over the counted lines, the price being the catalog's or the line's own. -/
def claimedDisplayTotal (items : List Line) : Num :=
  (items.filter specCounted).foldl (fun total l => Num.add total (specLineAmount l))
    (some (Dec.ofInt 0))

/-- The price of a line as the summary reads it: the catalog's or the
line's own, stripped, parsed, and 0 when that is `NaN` or negative. -/
def specDisplayPrice (l : Line) : Num :=
  guardedPrice (parseFloatChars ((specPrice l).toStr.toList.filter isPriceChar))

/-- The total of the summary: the sum of guarded price times quantity over
the counted lines. -/
def specDisplayTotal (items : List Line) : Num :=
  (items.filter specCounted).foldl
    (fun total l => Num.add total (Num.mul (specDisplayPrice l) (Num.ofParsed (parseInt l.quantity))))
    (some (Dec.ofInt 0))

/-- The cart after adding two of an item outside the catalog with the
price text `-5`. -/
def negativePriceCart : State :=
  executeAddToCart State.empty (.str "custom1") (.str "Custom item") (.str "-5")
    (.str "c.jpg") (.int 2) (.str "") (.str "") 1000

/-- The cart after adding one item outside the catalog with the price text
`free`. -/
def freePriceCart : State :=
  executeAddToCart State.empty (.str "custom1") (.str "Custom item") (.str "free")
    (.str "c.jpg") (.int 1) (.str "") (.str "") 1000

/-- No line is skipped by the malformed-item check of `displayCartItems`. -/
def Shown (items : List Line) : Prop := ∀ l ∈ items, displaySkips l = false

/-- The `top1` line as it is stored after an add with an unparsable price:
the price `NaN` is written as `null`. -/
def nullPriceLine : Line :=
  { cart_item_id := .int 1000, productId := .str "top1", name := .str "BOXY FIT OVERSHIRT",
    price := .null, image := .str "a.jpg", quantity := .int 2,
    color := .str "rgb(0, 0, 0)", size := .str "M", id := .undefined }

/-- Storage holding that line. -/
def nullPriceStore : Storage :=
  { cartItems := some (.array [.object nullPriceLine]), cartCount := some "2",
    userOrders := none }

/-! ## Definitions used by the round trip through storage -/

/-- A line with the shape `executeAddToCart` gives it: `productId`, `name`
and `price` present and a positive integer quantity. -/
def BuiltLine (l : Line) : Prop :=
  l.productId ≠ .undefined ∧ l.name ≠ .undefined ∧ l.price ≠ .undefined ∧
    ∃ q : Int, 1 ≤ q ∧ l.quantity = .int q

/-- A value that JSON writes and reads back as it is: not `NaN`, which is
written as `null`, and not an object, which is read back as a new one. An
absent field stays absent. -/
def JSVal.jsonExact : JSVal → Bool
  | .nan => false
  | .obj _ _ => false
  | _ => true

/-- Every field of the line is written and read back as it is. -/
def Line.jsonExact (l : Line) : Bool :=
  l.cart_item_id.jsonExact && l.productId.jsonExact && l.name.jsonExact &&
    l.price.jsonExact && l.image.jsonExact && l.quantity.jsonExact &&
    l.color.jsonExact && l.size.jsonExact && l.id.jsonExact

/-- The state of a fresh page over the storage a cart was serialized to,
after `initCart`. -/
def reload (s : State) : State :=
  initCart (State.init (persistCart s.storage s.cartItems s.cartCount))

/-! ## The legacy `addToCart` -/

/-- The expression `document.getElementById('quantity')?.textContent || '1'`;
`textContent` is `none` when the page has no quantity element. -/
def pageQuantityText (textContent : Option String) : String :=
  match textContent with
  | some t => if t = "" then "1" else t
  | none => "1"

/-- The item the legacy `addToCart` pushes. -/
def legacyItem (productName : JSVal) (price : String) (textContent : Option String)
    (now : Int) : Line :=
  { cart_item_id := .undefined, productId := .undefined, name := productName,
    price := JSVal.ofNum (parseFloatChars (removeFirst "$".toList price.toList)),
    image := .undefined,
    quantity := JSVal.ofNum (Num.ofParsed (parseIntChars (pageQuantityText textContent).toList)),
    color := .undefined, size := .undefined, id := .int now }

/-- The function `addToCart(productName, price)`; `textContent` is the text
of the page's quantity element and `now` the value of `Date.now()`. Calling
`replace` on a price that is not a string raises a `TypeError`. -/
def addToCart (s : State) (productName price : JSVal) (textContent : Option String)
    (now : Int) : State :=
  match price with
  | .str p =>
    s.commit (s.cartItems ++ [legacyItem productName p textContent now]) (s.cartCount + 1)
  | _ => { s with uncaught := s.uncaught ++ ["TypeError: price.replace is not a function"] }

/-! ## Definitions used by the statements on prices -/

/-- The text of a decimal numeral with integer digits `ip` and fraction
digits `fp` (no point when there is no fraction). -/
def numeralText (ip fp : List Char) : List Char :=
  if fp = [] then ip else ip ++ '.' :: fp

/-- The numeric value of that numeral. -/
def numeralValue (ip fp : List Char) : Dec :=
  Dec.normalize ⟨(digitsValue 0 (ip ++ fp) : Int), fp.length⟩

/-- The text `base` with the characters `sym` put in at some place, or
`base` itself. -/
def WithSymbol (sym base t : List Char) : Prop :=
  t = base ∨ ∃ x y, x ++ y = base ∧ t = x ++ sym ++ y

/-! ## `isValidEmail` and the form handlers -/

/-- The character class `[^\s@]`. -/
def isEmailChar (c : Char) : Bool := !isJSSpace c && c != '@'

/-- One or more characters of the class `p`, then `k` on the rest: the
quantifier `+`, longest run first. -/
def plusThen (p : Char → Bool) (k : List Char → Bool) : List Char → Bool
  | [] => false
  | c :: cs => p c && (plusThen p k cs || k cs)

/-- The literal character `c`, then `k` on the rest. -/
def litThen (c : Char) (k : List Char → Bool) : List Char → Bool
  | [] => false
  | x :: xs => x == c && k xs

/-- The anchor `$`. -/
def atEnd : List Char → Bool
  | [] => true
  | _ :: _ => false

/-- The test of the regular expression `/^[^\s@]+@[^\s@]+\.[^\s@]+$/`. -/
def emailRegexTest (cs : List Char) : Bool :=
  plusThen isEmailChar
    (litThen '@' (plusThen isEmailChar (litThen '.' (plusThen isEmailChar atEnd)))) cs

/-- The function `isValidEmail`. -/
def isValidEmail (email : String) : Bool := emailRegexTest email.toList

/-- An element of a stored array of submissions: a submission, or anything
else. -/
inductive LogEntry (α : Type) where
  | other (v : JSVal)
  | item (x : α)
  deriving DecidableEq, Repr

/-- How a form handler ends: rejected with validation errors, stopped by an
exception, or done, with the array it wrote to storage. -/
inductive Submission (α : Type) where
  | rejected (errors : List String)
  | raised (what : String)
  | stored (log : List (LogEntry α))
  deriving DecidableEq, Repr

/-- The statement group `JSON.parse(localStorage.getItem(key) || '[]')`,
`push`, `setItem` of the form handlers. -/
def appendToLog {α : Type} (stored : Option (Stored (LogEntry α))) (x : α) : Submission α :=
  match stored with
  | none => .stored [.item x]
  | some .empty => .stored [.item x]
  | some .invalid => .raised "SyntaxError: JSON.parse"
  | some (.value _) => .raised "TypeError: push is not a function"
  | some (.array xs) => .stored (xs ++ [.item x])

/-- A record of `contactMessages`. -/
structure ContactMessage where
  name : String
  email : String
  message : String
  timestamp : String
  deriving DecidableEq, Repr

/-- The error list `validateContactForm` builds from the trimmed fields. -/
def contactErrors (name email message : String) : List String :=
  (if name = "" then ["Name is required"] else []) ++
  (if email = "" then ["Email is required"] else []) ++
  (if message = "" then ["Message is required"] else []) ++
  (if email ≠ "" ∧ emailRegexTest email.toList = false then
    ["Please enter a valid email address"] else [])

/-- The function `validateContactForm`, on the values of the three fields,
the value stored under `contactMessages` and the value of
`new Date().toISOString()`. -/
def validateContactForm (stored : Option (Stored (LogEntry ContactMessage)))
    (nameValue emailValue messageValue isoDate : String) : Submission ContactMessage :=
  let name := jsTrim nameValue
  let email := jsTrim emailValue
  let message := jsTrim messageValue
  let errors := contactErrors name email message
  if errors.length > 0 then .rejected errors
  else appendToLog stored
    { name := name, email := email, message := message, timestamp := isoDate }

/-- A record of `productReviews`, as `JSON.stringify` writes it. -/
structure Review where
  username : String
  review : String
  rating : JSVal
  date : String
  deriving DecidableEq, Repr

/-- The function `submitReview`, on the values of the two text fields, the
value of the checked rating input if there is one, the value stored under
`productReviews` and the value of `new Date().toISOString()`. -/
def submitReview (stored : Option (Stored (LogEntry Review)))
    (usernameValue reviewValue : String) (rating : Option String) (isoDate : String) :
    Submission Review :=
  let username := jsTrim usernameValue
  let reviewText := jsTrim reviewValue
  let errors :=
    (if username = "" then ["Name is required"] else []) ++
    (if reviewText = "" then ["Review text is required"] else []) ++
    (if rating = none ∨ rating = some "" then ["Please select a rating"] else [])
  if errors.length > 0 then .rejected errors
  else appendToLog stored
    { username := username, review := reviewText,
      rating := jsonField (JSVal.ofNum (Num.ofParsed (parseIntChars (rating.getD "").toList))),
      date := isoDate }

/-- The fields of a submitted form, `Object.fromEntries(formData.entries())`. -/
abbrev FormData := List (String × String)

/-- What the key `form_<formId>` holds, by what `JSON.parse` makes of it: one
object of fields, an array of such objects, or anything else. -/
inductive FormValue where
  | object (data : FormData)
  | array (entries : List FormData)
  | other
  deriving DecidableEq, Repr

/-- The function `handleFormSubmit`, on the form found for `formId` (its
fields, `none` when there is no such element) and the value stored under
`form_<formId>`; the result is the value stored afterwards. -/
def handleFormSubmit (form : Option FormData) (stored : Option FormValue) : Option FormValue :=
  match form with
  | none => stored
  | some data => some (.object data)

/-- The submissions held under `form_<formId>`, oldest first. -/
def formEntries : Option FormValue → List FormData
  | some (.object data) => [data]
  | some (.array entries) => entries
  | _ => []

/-- The shape of an address in the words of the claim: no white space,
exactly one `@` with at least one character before it, and after the `@` a
`.` that is neither the first nor the last character. -/
def EmailShape (s : List Char) : Prop :=
  (∀ c ∈ s, isJSSpace c = false) ∧ s.count '@' = 1 ∧
    ∃ a d, s = a ++ '@' :: d ∧ a ≠ [] ∧ ∃ b c, d = b ++ '.' :: c ∧ b ≠ [] ∧ c ≠ []

/-- The validation errors a form handler showed. -/
def Submission.errors {α : Type} : Submission α → List String
  | .rejected errors => errors
  | _ => []

/-! ## `colorToDisplay` -/

/-- The object literal `colorMap` of `colorToDisplay`. -/
def colorMap : List (String × String) :=
  [ ("black", "Black"), ("rgb(0, 0, 0)", "Black"), ("#000000", "Black"),
    ("rgb(0,0,0)", "Black"),
    ("white", "White"), ("rgb(255, 255, 255)", "White"), ("#ffffff", "White"),
    ("#fff", "White"), ("rgb(255,255,255)", "White"),
    ("rgb(253, 255, 250)", "Off-White"), ("rgb(253,255,250)", "Off-White"),
    ("#fdfffa", "Off-White"), ("rgb(250, 249, 246)", "Cream"),
    ("rgb(255, 253, 208)", "Ivory"), ("rgb(245, 245, 220)", "Beige"),
    ("#eef1e8", "Light Gray"), ("rgb(238, 241, 232)", "Light Gray"),
    ("#0799d3", "Blue"), ("rgb(7, 153, 211)", "Blue"),
    ("rgb(255, 255, 0)", "Yellow"), ("#ffff00", "Yellow"), ("yellow", "Yellow"),
    ("rgb(255, 192, 203)", "Pink"), ("#ffc0cb", "Pink"), ("pink", "Pink"),
    ("rgb(128, 0, 128)", "Purple"), ("#800080", "Purple"), ("purple", "Purple"),
    ("rgb(255, 165, 0)", "Orange"), ("#ffa500", "Orange"), ("orange", "Orange"),
    ("rgb(0, 255, 255)", "Cyan"), ("rgb(255, 0, 255)", "Magenta"),
    ("rgb(75, 0, 130)", "Indigo"), ("rgb(238, 130, 238)", "Violet") ]

/-- The member of `Object.prototype` a plain object inherits under `key`: a
function, or the prototype itself for `__proto__`. -/
def inheritedMember (key : String) : JSVal :=
  if key = "__proto__" then .obj 0 "[object Object]"
  else .obj (inheritedKeys.indexOf key + 1)
    ("function " ++ (if key = "constructor" then "Object" else key) ++
      "() \x7b [native code] \x7d")

/-- The property read `colorMap[key]`. -/
def colorMapAt (key : String) : JSVal :=
  match colorMap.lookup key with
  | some name => .str name
  | none => if key ∈ inheritedKeys then inheritedMember key else .undefined

/-- The method `toLowerCase`, on the letters `A` to `Z`; other characters are
left as they are. -/
def toLowerCase (s : String) : String := String.mk (s.toList.map Char.toLower)

/-- The expression `colorValue.toString().toLowerCase().trim()`. -/
def normalizedColor (colorValue : JSVal) : String := jsTrim (toLowerCase colorValue.toStr)

/-- The first alternative that matches. -/
def firstOf {α : Type} (a b : Option α) : Option α :=
  match a with
  | some x => some x
  | none => b

/-- The literal characters `lit`, letters in either case (flag `i`), then `k`
on the rest. -/
def rxLit {α : Type} (lit : List Char) (k : List Char → Option α) (cs : List Char) :
    Option α :=
  match lit, cs with
  | [], cs => k cs
  | _ :: _, [] => none
  | l :: ls, c :: cs => if c.toLower = l then rxLit ls k cs else none

/-- The group `(\d+)`: one or more digits after those of `acc`, the longest
run first, then `k` on the digits read and the rest. -/
def rxDigits {α : Type} (k : List Char → List Char → Option α) :
    List Char → List Char → Option α
  | _, [] => none
  | acc, c :: cs =>
    if c.isDigit then firstOf (rxDigits k (acc ++ [c]) cs) (k (acc ++ [c]) cs) else none

/-- The pattern `,?`: a comma if there is one, else nothing. -/
def rxOptComma {α : Type} (k : List Char → Option α) (cs : List Char) : Option α :=
  match cs with
  | ',' :: rest => firstOf (k rest) (k (',' :: rest))
  | _ => k cs

/-- The pattern `\s*`: white space, the longest run first. -/
def rxSpaces {α : Type} (k : List Char → Option α) : List Char → Option α
  | [] => k []
  | c :: cs => if isJSSpace c then firstOf (rxSpaces k cs) (k (c :: cs)) else k (c :: cs)

/-- A match of `/rgb\((\d+),?\s*(\d+),?\s*(\d+)\)/i` that starts at the head of
`cs`: the three groups. -/
def rgbMatchAt (cs : List Char) : Option (List Char × List Char × List Char) :=
  rxLit ['r', 'g', 'b', '('] (fun cs1 =>
    rxDigits (fun r cs2 =>
      rxOptComma (rxSpaces (fun cs3 =>
        rxDigits (fun g cs4 =>
          rxOptComma (rxSpaces (fun cs5 =>
            rxDigits (fun b cs6 =>
              rxLit [')'] (fun _ => some (r, g, b)) cs6) [] cs5)) cs4) [] cs3)) cs2) [] cs1) cs

/-- The call `normalizedColor.match(/rgb\((\d+),?\s*(\d+),?\s*(\d+)\)/i)`: the
groups of the leftmost match, `none` is `null`. -/
def rgbMatch : List Char → Option (List Char × List Char × List Char)
  | [] => rgbMatchAt []
  | c :: cs => firstOf (rgbMatchAt (c :: cs)) (rgbMatch cs)

/-- The template `rgb(r<sep>g<sep>b)`. -/
def rgbFormat (sep r g b : List Char) : List Char :=
  ['r', 'g', 'b', '('] ++ r ++ sep ++ g ++ sep ++ b ++ [')']

/-- The loop over `formats`: the first of the two formats that is a truthy
member of `colorMap`. -/
def rgbLookup (m : List Char × List Char × List Char) : Option JSVal :=
  if (colorMapAt (String.mk (rgbFormat [',', ' '] m.1 m.2.1 m.2.2))).truthy then
    some (colorMapAt (String.mk (rgbFormat [',', ' '] m.1 m.2.1 m.2.2)))
  else if (colorMapAt (String.mk (rgbFormat [','] m.1 m.2.1 m.2.2))).truthy then
    some (colorMapAt (String.mk (rgbFormat [','] m.1 m.2.1 m.2.2)))
  else none

/-- The function `colorToDisplay`. -/
def colorToDisplay (colorValue : JSVal) : JSVal :=
  if !colorValue.truthy then .str ""
  else
    let normalized := normalizedColor colorValue
    if (colorMapAt normalized).truthy then colorMapAt normalized
    else
      let fromRgb : Option JSVal :=
        if "rgb(".toList.isPrefixOf normalized.toList then
          match rgbMatch normalized.toList with
          | some m => rgbLookup m
          | none => none
        else none
      match fromRgb with
      | some name => name
      | none =>
        let fromHex : Option JSVal :=
          if "#".toList.isPrefixOf normalized.toList
              ∧ (colorMapAt (toLowerCase normalized)).truthy then
            some (colorMapAt (toLowerCase normalized))
          else none
        match fromHex with
        | some name => name
        | none =>
          if "rgb(".toList.isPrefixOf normalized.toList then .str "Custom Color"
          else if "#".toList.isPrefixOf normalized.toList then .str "Custom Color"
          else colorValue

/-- The unspaced text with a blank put after every comma. -/
def respace : List Char → List Char
  | [] => []
  | c :: cs => if c = ',' then ',' :: ' ' :: respace cs else c :: respace cs

/-! ## The cart in double precision

The definitions above add and subtract quantities as exact integers, which
is what the program does as long as every number stays below `2 ^ 53`. The
program holds every number as an IEEE double: an integer beyond `2 ^ 53` is
rounded to the nearest double, a number beyond the range of doubles is
`Infinity`, and `String` writes a number from `1e21` on and below `1e-6` in
exponent notation. The definitions of this part, with names in `Ieee`, follow
`parseInt`, `String`, the three mutators of the cart and the item count of
`displayCartItems` in that arithmetic. -/

/-- An integer-valued number as the program holds it: `NaN`, a finite
integer, or an infinity. -/
inductive JSInt where
  | nan
  | fin (n : Int)
  | inf (negative : Bool)
  deriving DecidableEq, Repr

/-- The exponent of the spacing of the doubles around `n`: the least `e`,
from `e` on, with `n / 2 ^ e < 2 ^ 53`; `fuel` bounds the search. -/
def ulpExponent : Nat → Nat → Nat → Nat
  | 0, _, e => e
  | fuel + 1, n, e => if n / 2 ^ e < 2 ^ 53 then e else ulpExponent fuel n (e + 1)

/-- The multiple of `2 ^ e` nearest to `n`, the even one of two that are
equally near. -/
def roundToMultiple (n e : Nat) : Nat :=
  let q := n / 2 ^ e
  let r := n % 2 ^ e
  if 2 ^ e < 2 * r ∨ (2 * r = 2 ^ e ∧ q % 2 = 1) then (q + 1) * 2 ^ e else q * 2 ^ e

/-- The double nearest to the natural number `n`, for `n` in the range of
doubles. -/
def roundNat (n : Nat) : Nat := roundToMultiple n (ulpExponent 1024 n 0)

/-- The least natural number that rounds to `Infinity`, half a spacing above
the largest double: `2 ^ 1024 - 2 ^ 970`, written out. -/
def overflowThreshold : Nat :=
  179769313486231580793728971405303415079934132710037826936173778980444968292764750946649017977587207096330286416692887910946555547851940402630657488671505820681908902000708383676273854845817711531764475730270069855571366959622842914819860834936475292719074168444365510704342711559699508093042880177904174497792

/-- The number the program holds for the mathematical integer `z`: the
nearest double, ties to even, and an infinity beyond the range. -/
def JSInt.ofInt (z : Int) : JSInt :=
  if overflowThreshold ≤ z.natAbs then .inf (decide (z < 0))
  else .fin (if z < 0 then -(roundNat z.natAbs : Int) else (roundNat z.natAbs : Int))

/-- The sum `a + b`. -/
def JSInt.add : JSInt → JSInt → JSInt
  | .fin a, .fin b => JSInt.ofInt (a + b)
  | .inf a, .inf b => if a = b then .inf a else .nan
  | .inf a, .fin _ => .inf a
  | .fin _, .inf b => .inf b
  | _, _ => .nan

/-- The difference `a - b`. -/
def JSInt.sub : JSInt → JSInt → JSInt
  | .fin a, .fin b => JSInt.ofInt (a - b)
  | .inf a, .inf b => if a = b then .nan else .inf a
  | .inf a, .fin _ => .inf a
  | .fin _, .inf b => .inf (!b)
  | _, _ => .nan

/-- The test `isNaN(x)`. -/
def JSInt.isNaN : JSInt → Bool
  | .nan => true
  | _ => false

/-- The test `x < 0`. -/
def JSInt.isNegative : JSInt → Bool
  | .nan => false
  | .fin n => decide (n < 0)
  | .inf negative => negative

/-- The test `x <= 0`. -/
def JSInt.isNotPositive : JSInt → Bool
  | .nan => false
  | .fin n => decide (n ≤ 0)
  | .inf negative => negative

/-- The test `x > 0`. -/
def JSInt.isPositive : JSInt → Bool
  | .nan => false
  | .fin n => decide (0 < n)
  | .inf negative => !negative

/-- The call `Math.max(0, x)`. -/
def JSInt.maxZero : JSInt → JSInt
  | .nan => .nan
  | .fin n => .fin (max 0 n)
  | .inf true => .fin 0
  | .inf false => .inf false

/-- The digits of `s` without its trailing zeros; `fuel` bounds their number. -/
def stripZeros : Nat → Nat → Nat
  | 0, s => s
  | fuel + 1, s => if s ≠ 0 ∧ s % 10 = 0 then stripZeros fuel (s / 10) else s

/-- The text of the number whose shortest digits are `digits` with the
decimal point after the first `n` of them, as `Number.prototype.toString`
lays it out: positional for `-6 < n ≤ 21`, in exponent notation otherwise. -/
def layoutNumber (digits : List Char) (n : Int) : List Char :=
  let k : Int := digits.length
  if k ≤ n ∧ n ≤ 21 then digits ++ List.replicate (n - k).toNat '0'
  else if 0 < n ∧ n ≤ 21 then digits.take n.toNat ++ '.' :: digits.drop n.toNat
  else if -6 < n ∧ n ≤ 0 then '0' :: '.' :: (List.replicate (-n).toNat '0' ++ digits)
  else
    let e := n - 1
    let exponent := 'e' :: (if e < 0 then '-' else '+') :: natDigits e.natAbs
    match digits with
    | [] => exponent
    | [c] => c :: exponent
    | c :: cs => c :: '.' :: (cs ++ exponent)

/-- The search for the shortest decimal that denotes the double `m` (an
integer of `len` digits): with `k` digits, the two multiples of
`10 ^ (len - k)` around `m` are tried, and the nearer one that rounds to `m`
is taken; otherwise the search goes on with `k + 1` digits. The result is
the decimal found. -/
def shortestDecimal : Nat → Nat → Nat → Nat → Nat
  | 0, m, _, _ => m
  | fuel + 1, m, len, k =>
    let p := 10 ^ (len - k)
    let low := m / p * p
    let high := (m / p + 1) * p
    let lowFits := decide (low < overflowThreshold) && roundNat low == m
    let highFits := decide (high < overflowThreshold) && roundNat high == m
    if lowFits && highFits then
      (if m - low < high - m then low
       else if high - m < m - low then high
       else if (m / p) % 2 = 0 then low else high)
    else if lowFits then low
    else if highFits then high
    else shortestDecimal fuel m len (k + 1)

/-- The text `String` gives for a number, faithful for the integers that are
doubles and for the decimals that are the shortest digits of a double. -/
def Ieee.numberText (d : Dec) : List Char :=
  let d := d.normalize
  let a := d.mant.natAbs
  let body : List Char :=
    if d.exp = 0 then
      if a < 2 ^ 53 then natDigits a
      else
        let m := roundNat a
        let c := shortestDecimal 17 m (natDigits m).length 1
        layoutNumber (natDigits (stripZeros (natDigits c).length c)) (natDigits c).length
    else layoutNumber (natDigits a) ((natDigits a).length - d.exp)
  if d.mant < 0 then '-' :: body else body

/-- The conversion `String(v)`. -/
def Ieee.toStr : JSVal → String
  | .num d => String.mk (Ieee.numberText d)
  | v => v.toStr

/-- The call `parseInt(v)`: the digits of `String(v)` as an integer, held as
a double; `NaN` without digits. -/
def Ieee.parseInt (v : JSVal) : JSInt :=
  match parseIntChars (Ieee.toStr v).toList with
  | none => .nan
  | some z => JSInt.ofInt z

/-- The quantity of a line: a value, or an infinity. -/
inductive Ieee.Quantity where
  | val (v : JSVal)
  | inf (negative : Bool)
  deriving DecidableEq, Repr

/-- The number as the quantity of a line. -/
def JSInt.toQuantity : JSInt → Ieee.Quantity
  | .nan => .val .nan
  | .fin n => .val (.int n)
  | .inf negative => .inf negative

/-- The text `x.toString()` of a number. -/
def JSInt.text : JSInt → String
  | .nan => "NaN"
  | .fin n => String.mk (Ieee.numberText (Dec.ofInt n))
  | .inf false => "Infinity"
  | .inf true => "-Infinity"

/-- The call `parseInt(item.quantity)`. -/
def Ieee.parseQuantity : Ieee.Quantity → JSInt
  | .val v => Ieee.parseInt v
  | .inf _ => .nan

/-- What `JSON.stringify` followed by `JSON.parse` makes of a quantity: `NaN`
and the infinities become `null`. -/
def Ieee.Quantity.toJSON : Ieee.Quantity → JSVal
  | .val v => jsonField v
  | .inf _ => .null

/-- One entry of `cartItems`, as `executeAddToCart` builds it. -/
structure Ieee.Line where
  cart_item_id : JSVal
  productId : JSVal
  name : JSVal
  price : JSVal
  image : JSVal
  quantity : Ieee.Quantity
  color : JSVal
  size : JSVal
  deriving DecidableEq, Repr

/-- A line as `JSON.stringify` followed by `JSON.parse` returns it. -/
def Ieee.Line.toJSON (l : Ieee.Line) : Aevera.Line :=
  { cart_item_id := jsonField l.cart_item_id, productId := jsonField l.productId,
    name := jsonField l.name, price := jsonField l.price, image := jsonField l.image,
    quantity := l.quantity.toJSON, color := jsonField l.color, size := jsonField l.size,
    id := .undefined }

/-- The program state: the two globals, storage, and the logs of `alert`,
`console.error` and uncaught exceptions. -/
structure Ieee.State where
  cartItems : List Ieee.Line
  cartCount : JSInt
  storage : Storage
  alerts : List String
  errors : List String
  uncaught : List String
  deriving DecidableEq, Repr

/-- The empty cart over empty storage. -/
def Ieee.State.empty : Ieee.State :=
  { cartItems := [], cartCount := .fin 0, storage := ⟨none, none, none⟩, alerts := [],
    errors := [], uncaught := [] }

/-- The sanitized quantity of a line: `parseInt`, or 0 when that is `NaN` or
negative. -/
def Ieee.sanitizedQuantity (quantity : Ieee.Quantity) : JSInt :=
  let q := Ieee.parseQuantity quantity
  if q.isNaN || q.isNegative then .fin 0 else q

/-- The callback of the `reduce` calls that recompute `cartCount`. -/
def Ieee.addQuantity (total : JSInt) (currentItem : Ieee.Line) : JSInt :=
  total.add (Ieee.sanitizedQuantity currentItem.quantity)

/-- The recomputed count `cartItems.reduce(..., 0)`. -/
def Ieee.countOf (items : List Ieee.Line) : JSInt := items.foldl Ieee.addQuantity (.fin 0)

/-- The end of each mutator: the two globals are assigned and persisted. -/
def Ieee.State.commit (s : Ieee.State) (cartItems : List Ieee.Line) (cartCount : JSInt) :
    Ieee.State :=
  { s with cartItems := cartItems, cartCount := cartCount,
           storage := { s.storage with
             cartItems := some (.array (cartItems.map fun l => Entry.object l.toJSON)),
             cartCount := some cartCount.text } }

/-- The validated quantity: `parseInt(quantity)`, or 1 when that is `NaN` or
not positive. -/
def Ieee.validQuantity (quantity : JSVal) : JSInt :=
  let q := Ieee.parseInt quantity
  if q.isNaN || q.isNotPositive then .fin 1 else q

/-- The callback of `findIndex` in `executeAddToCart`. -/
def Ieee.sameItem (productId normalizedColor size : JSVal) (item : Ieee.Line) : Bool :=
  item.productId.strictEq productId && item.color.strictEq normalizedColor &&
  item.size.strictEq size

/-- The line `executeAddToCart` pushes when no line matches. -/
def Ieee.newLine (productId productName price productImage quantity size : JSVal)
    (normalizedColor : String) (now : Int) : Ieee.Line :=
  { cart_item_id := .int now, productId := productId, name := productName,
    price := JSVal.ofNum (cleanPrice price), image := productImage,
    quantity := (Ieee.validQuantity quantity).toQuantity, color := .str normalizedColor,
    size := size }

/-- The function `executeAddToCart`; `now` is the value of `Date.now()`. -/
def Ieee.executeAddToCart (s : Ieee.State)
    (productId productName price productImage quantity color size : JSVal) (now : Int) :
    Ieee.State :=
  if missingData productId productName price then
    { s with errors := s.errors ++
        ["executeAddToCart: Attempted to add item with missing critical data."] }
  else
    match normalizeColor color with
    | none => { s with uncaught := s.uncaught ++ ["TypeError: color.trim is not a function"] }
    | some normalizedColor =>
      let cartItems :=
        match s.cartItems.findIdx? (Ieee.sameItem productId (.str normalizedColor) size) with
        | some existingItemIndex =>
          match s.cartItems[existingItemIndex]? with
          | some existing =>
            s.cartItems.set existingItemIndex
              { existing with quantity :=
                  ((Ieee.sanitizedQuantity existing.quantity).add
                    (Ieee.validQuantity quantity)).toQuantity }
          | none => s.cartItems
        | none =>
          s.cartItems ++
            [Ieee.newLine productId productName price productImage quantity size
              normalizedColor now]
      s.commit cartItems (Ieee.countOf cartItems)

/-- The callback of `findIndex` in `updateCartItemQuantity` and
`removeFromCart`: `String(item.cart_item_id) === String(cartItemId)`. -/
def Ieee.hasId (cartItemId : JSVal) (item : Ieee.Line) : Bool :=
  Ieee.toStr item.cart_item_id == Ieee.toStr cartItemId

/-- The quantity `updateCartItemQuantity` computes from the sanitized one:
`currentQuantity++` for `'increase'`, `Math.max(0, currentQuantity - 1)` for
`'decrease'`, unchanged for any other action. -/
def Ieee.updatedQuantity (action : JSVal) (sanitized : JSInt) : JSInt :=
  if action.strictEq (.str "increase") then sanitized.add (.fin 1)
  else if action.strictEq (.str "decrease") then (sanitized.sub (.fin 1)).maxZero
  else sanitized

/-- The function `updateCartItemQuantity`. -/
def Ieee.updateCartItemQuantity (s : Ieee.State) (cartItemId action : JSVal) : Ieee.State :=
  match s.cartItems.findIdx? (Ieee.hasId cartItemId) with
  | none => s
  | some itemIndex =>
    match s.cartItems[itemIndex]? with
    | none => s
    | some item =>
      let currentQuantity := Ieee.updatedQuantity action (Ieee.sanitizedQuantity item.quantity)
      let cartItems :=
        if currentQuantity = .fin 0 then s.cartItems.eraseIdx itemIndex
        else s.cartItems.set itemIndex { item with quantity := currentQuantity.toQuantity }
      s.commit cartItems (Ieee.countOf cartItems)

/-- The count `removeFromCart` leaves: `cartCount` less the removed quantity
when that is a number above 0, less 1 otherwise, and `Math.max(0, ...)` of
the result. -/
def Ieee.decrementedCount (cartCount : JSInt) (quantity : Ieee.Quantity) : JSInt :=
  let removedQuantity := Ieee.parseQuantity quantity
  (if !removedQuantity.isNaN && removedQuantity.isPositive then cartCount.sub removedQuantity
   else cartCount.sub (.fin 1)).maxZero

/-- The function `removeFromCart`. -/
def Ieee.removeFromCart (s : Ieee.State) (cartItemId : JSVal) : Ieee.State :=
  match s.cartItems.findIdx? (Ieee.hasId cartItemId) with
  | none => s
  | some itemIndex =>
    match s.cartItems[itemIndex]? with
    | none => s
    | some removedItem =>
      let cartItems := s.cartItems.eraseIdx itemIndex
      s.commit cartItems (Ieee.decrementedCount s.cartCount removedItem.quantity)

/-- The state after one call. -/
def Ieee.step (s : Ieee.State) : Op → Ieee.State
  | .add productId productName price productImage quantity color size now =>
    Ieee.executeAddToCart s productId productName price productImage quantity color size now
  | .update cartItemId action => Ieee.updateCartItemQuantity s cartItemId action
  | .remove cartItemId => Ieee.removeFromCart s cartItemId

/-- The state after a sequence of calls. -/
def Ieee.run (s : Ieee.State) (ops : List Op) : Ieee.State := ops.foldl Ieee.step s

/-- The malformed-item check at the head of the `forEach` callback of
`displayCartItems`. -/
def Ieee.displaySkips (item : Ieee.Line) : Bool :=
  item.productId.isUndefined || item.name.isUndefined || item.name.isNull ||
    item.price.isUndefined || item.price.isNull || item.quantity == .val .undefined

/-- The item count in the callback of the `forEach` of `displayCartItems`:
a line that is not skipped adds its parsed quantity when that is a number
above 0. -/
def Ieee.displayItem (totalItemsCount : JSInt) (item : Ieee.Line) : JSInt :=
  if Ieee.displaySkips item then totalItemsCount
  else
    let itemQuantity := Ieee.parseQuantity item.quantity
    if itemQuantity.isNaN || itemQuantity.isNotPositive then totalItemsCount
    else totalItemsCount.add itemQuantity

/-- The item count `displayCartItems` passes to `updateCartSummaryDetails`. -/
def Ieee.displayCount (cartItems : List Ieee.Line) : JSInt :=
  if cartItems.length = 0 then .fin 0 else cartItems.foldl Ieee.displayItem (.fin 0)

/-! ## Definitions used by the statements in double precision -/

/-- What a line counts for in the sum of the quantities: its parsed quantity
when that is a finite number, and 0 when it does not parse, is negative or is
infinite. -/
def Ieee.amount (l : Ieee.Line) : Int :=
  match Ieee.sanitizedQuantity l.quantity with
  | .fin n => n
  | _ => 0

/-- The sum over the lines of the quantity, as a sum of integers. -/
def Ieee.quantitySum (items : List Ieee.Line) : Int := (items.map Ieee.amount).sum

/-- Every line holds a positive integer below `2 ^ 53` as its quantity. -/
def Ieee.PosQty (items : List Ieee.Line) : Prop :=
  ∀ l ∈ items, ∃ q : Int, 1 ≤ q ∧ q < 2 ^ 53 ∧ l.quantity = .val (.int q)

/-- What a call can add to the sum of the quantities: its validated quantity
for an `executeAddToCart` (counted as `2 ^ 53` when that is infinite), 1 for an
`updateCartItemQuantity`, nothing for a `removeFromCart`. -/
def Ieee.opWeight : Op → Int
  | .add _ _ _ _ quantity _ _ _ =>
    match Ieee.validQuantity quantity with
    | .fin v => v
    | _ => 2 ^ 53
  | .update _ _ => 1
  | .remove _ => 0

/-- The most a sequence of calls can add to the sum of the quantities. -/
def Ieee.budget (ops : List Op) : Int := (ops.map Ieee.opWeight).sum

/-- No line is skipped by the malformed-item check of `displayCartItems`. -/
def Ieee.Shown (items : List Ieee.Line) : Prop := ∀ l ∈ items, Ieee.displaySkips l = false

/-- The lines hold positive integer quantities whose sum leaves `room` below
`2 ^ 53`. -/
def Ieee.Within (items : List Ieee.Line) (room : Int) : Prop :=
  Ieee.PosQty items ∧ Ieee.quantitySum items + room < 2 ^ 53

/-- The `cartItems` storage key holds the lines in memory, as
`JSON.stringify` writes them. -/
def Ieee.Persisted (s : Ieee.State) : Prop :=
  s.storage.cartItems = some (.array (s.cartItems.map fun l => Entry.object l.toJSON))

/-- Three calls: add `top1` with the quantity text `9007199254740992`, which
is `2 ^ 53` (at time 1000), add one `bag2` (at time 2000), remove the first
line. -/
def roundingOps : List Op :=
  [ .add (.str "top1") (.str "BOXY FIT OVERSHIRT") (.str "2400.00") (.str "a.jpg")
      (.str "9007199254740992") (.str "rgb(0, 0, 0)") (.str "M") 1000,
    .add (.str "bag2") (.str "Crossbody Bag") (.str "990.00") (.str "b.jpg")
      (.int 1) (.str "") (.str "") 2000,
    .remove (.str "1000") ]

/-- A quantity text of 310 digits: `1` followed by 309 zeros. -/
def hugeQuantity : String := String.mk ('1' :: List.replicate 309 '0')

/-- Four calls: two adds of `top1` that merge (quantities 2 and 3), the add of
one `bag2`, and the removal of the first line. -/
def mergeRemoveOps : List Op :=
  [ .add (.str "top1") (.str "BOXY FIT OVERSHIRT") (.str "2400.00") (.str "a.jpg")
      (.str "2") (.str "rgb(0, 0, 0)") (.str "M") 1000,
    .add (.str "top1") (.str "BOXY FIT OVERSHIRT") (.str "2400.00") (.str "a.jpg")
      (.str "3") (.str "rgb(0, 0, 0)") (.str "M") 2000,
    .add (.str "bag2") (.str "Crossbody Bag") (.str "990.00") (.str "b.jpg")
      (.int 1) (.str "") (.str "") 3000,
    .remove (.str "1000") ]

/-! ## Lists: locating a line by `findIndex` -/

theorem findIdx?_split {α : Type} (p : α → Bool) :
    ∀ (xs : List α) (i : Nat), xs.findIdx? p = some i →
      ∃ pre l post, xs = pre ++ l :: post ∧ pre.length = i ∧
        (∀ x ∈ pre, p x = false) ∧ p l = true := by
  intro xs
  induction xs with
  | nil => intro i h; simp at h
  | cons a as ih =>
    intro i h
    rw [List.findIdx?_cons] at h
    by_cases hp : p a = true
    · simp only [hp, if_true] at h
      refine ⟨[], a, as, rfl, ?_, ?_, hp⟩
      · cases h; rfl
      · intro x hx; cases hx
    · simp only [hp] at h
      rw [List.findIdx?_start_succ] at h
      cases hrec : as.findIdx? p 0 with
      | none => rw [hrec] at h; simp at h
      | some j =>
        rw [hrec] at h
        obtain ⟨pre, l, post, hxs, hlen, hpre, hl⟩ := ih j hrec
        refine ⟨a :: pre, l, post, by rw [hxs]; rfl, ?_, ?_, hl⟩
        · simp at h
          simp [hlen, ← h]
        · intro x hx
          rcases List.mem_cons.1 hx with rfl | hx
          · simpa using hp
          · exact hpre x hx

theorem findIdx?_of_split {α : Type} (p : α → Bool) (pre : List α) (l : α) (post : List α)
    (hpre : ∀ x ∈ pre, p x = false) (hl : p l = true) :
    (pre ++ l :: post).findIdx? p = some pre.length := by
  induction pre with
  | nil => simp [List.findIdx?_cons, hl]
  | cons a as ih =>
    have ha : p a = false := hpre a (List.mem_cons_self _ _)
    have ih' := ih (fun x hx => hpre x (List.mem_cons_of_mem _ hx))
    simp [List.findIdx?_cons, ha, List.findIdx?_start_succ, ih']

theorem getElem?_split {α : Type} (pre : List α) (l : α) (post : List α) :
    (pre ++ l :: post)[pre.length]? = some l := by
  induction pre with
  | nil => simp
  | cons a as ih => simpa using ih

theorem set_split {α : Type} (pre : List α) (l v : α) (post : List α) :
    (pre ++ l :: post).set pre.length v = pre ++ v :: post := by
  simp

theorem eraseIdx_split {α : Type} (pre : List α) (l : α) (post : List α) :
    (pre ++ l :: post).eraseIdx pre.length = pre ++ post := by
  induction pre with
  | nil => rfl
  | cons a as ih => simp [ih]

/-! ## `parseInt` reads back the text of an integer -/

theorem digitChar_facts (d : Nat) (h : d < 10) :
    digitVal 10 (digitChar d) = some d ∧ isJSSpace (digitChar d) = false ∧
      digitChar d ≠ '-' ∧ digitChar d ≠ '+' ∧ digitChar d ≠ 'x' ∧ digitChar d ≠ 'X' := by
  interval_cases d <;> decide

theorem readDigits_allDigits :
    ∀ (cs : List Char) (acc k : Nat), AllDigits cs →
      readDigits 10 cs acc k = (digitsValue acc cs, k + cs.length, []) := by
  intro cs
  induction cs with
  | nil => intro acc k _; simp [readDigits, digitsValue]
  | cons c cs ih =>
    intro acc k h
    obtain ⟨d, hd, rfl⟩ := h c (List.mem_cons_self _ _)
    have hv := (digitChar_facts d hd).1
    have hn : (digitChar d).toNat - 48 = d := by
      interval_cases d <;> decide
    rw [readDigits, hv]
    simp only
    rw [ih _ _ (fun x hx => h x (List.mem_cons_of_mem _ hx))]
    simp [digitsValue, hn]
    omega

theorem natDigitsAux_acc :
    ∀ (fuel n : Nat) (acc : List Char),
      natDigitsAux fuel n acc = natDigitsAux fuel n [] ++ acc := by
  intro fuel
  induction fuel with
  | zero => intro n acc; simp [natDigitsAux]
  | succ f ih =>
    intro n acc
    by_cases hn : n < 10
    · simp [natDigitsAux, hn]
    · simp only [natDigitsAux, hn, if_false]
      rw [ih (n / 10) (digitChar (n % 10) :: acc), ih (n / 10) [digitChar (n % 10)]]
      simp

theorem natDigitsAux_fuel :
    ∀ (f g n : Nat) (acc : List Char), n < f → n < g →
      natDigitsAux f n acc = natDigitsAux g n acc := by
  intro f
  induction f with
  | zero => intro g n acc h; omega
  | succ f ih =>
    intro g n acc hf hg
    cases g with
    | zero => omega
    | succ g =>
      by_cases hn : n < 10
      · simp [natDigitsAux, hn]
      · simp only [natDigitsAux, hn, if_false]
        exact ih g (n / 10) _ (by omega) (by omega)

theorem natDigits_small (n : Nat) (h : n < 10) : natDigits n = [digitChar n] := by
  simp [natDigits, natDigitsAux, h]

theorem natDigits_step (n : Nat) (h : ¬ n < 10) :
    natDigits n = natDigits (n / 10) ++ [digitChar (n % 10)] := by
  have hstep : natDigitsAux (n + 1) n [] = natDigitsAux n (n / 10) [digitChar (n % 10)] := by
    simp only [natDigitsAux, h, if_false]
  unfold natDigits
  rw [hstep, natDigitsAux_acc, natDigitsAux_fuel n (n / 10 + 1) (n / 10) [] (by omega) (by omega)]

theorem natDigits_spec (n : Nat) :
    AllDigits (natDigits n) ∧ digitsValue 0 (natDigits n) = n ∧ natDigits n ≠ [] := by
  induction n using Nat.strong_induction_on with
  | _ n ih =>
    by_cases hn : n < 10
    · rw [natDigits_small n hn]
      refine ⟨?_, ?_, by simp⟩
      · intro c hc
        exact ⟨n, hn, by simpa using hc⟩
      · simp only [digitsValue, List.foldl]
        interval_cases n <;> decide
    · rw [natDigits_step n hn]
      obtain ⟨h1, h2, _⟩ := ih (n / 10) (by omega)
      refine ⟨?_, ?_, by simp⟩
      · intro c hc
        rcases List.mem_append.1 hc with hc | hc
        · exact h1 c hc
        · exact ⟨n % 10, Nat.mod_lt _ (by decide), by simpa using hc⟩
      · have hm : (digitChar (n % 10)).toNat - 48 = n % 10 := by
          have : n % 10 < 10 := Nat.mod_lt _ (by decide)
          generalize n % 10 = d at this
          interval_cases d <;> decide
        simp only [digitsValue, List.foldl_append, List.foldl] at h2 ⊢
        rw [h2, hm]
        omega

theorem readSign_digit (c : Char) (cs : List Char) (h1 : c ≠ '-') (h2 : c ≠ '+') :
    readSign (c :: cs) = (false, c :: cs) := by
  unfold readSign
  split <;> simp_all

theorem readRadix_digits (cs : List Char) (h : AllDigits cs) : readRadix cs = (10, cs) := by
  unfold readRadix
  split
  · rename_i r
    obtain ⟨d, hd, hx⟩ := h 'x' (by simp)
    exact absurd hx.symm (digitChar_facts d hd).2.2.2.2.1
  · rename_i r
    obtain ⟨d, hd, hx⟩ := h 'X' (by simp)
    exact absurd hx.symm (digitChar_facts d hd).2.2.2.2.2
  · rfl

theorem parseIntChars_digits (cs : List Char) (h : AllDigits cs) (hne : cs ≠ []) :
    parseIntChars cs = some (digitsValue 0 cs : Int) ∧
      parseIntChars ('-' :: cs) = some (-(digitsValue 0 cs : Int)) := by
  cases cs with
  | nil => exact absurd rfl hne
  | cons c cs =>
    obtain ⟨d, hd, hc⟩ := h c (List.mem_cons_self _ _)
    obtain ⟨_, hsp, hm, hp, _, _⟩ := digitChar_facts d hd
    rw [← hc] at hsp hm hp
    have hdrop : List.dropWhile isJSSpace (c :: cs) = c :: cs := by
      simp [List.dropWhile, hsp]
    have hdrop' : List.dropWhile isJSSpace ('-' :: c :: cs) = '-' :: c :: cs := by
      have : isJSSpace '-' = false := by decide
      simp [List.dropWhile, this]
    have hsign' : readSign ('-' :: c :: cs) = (true, c :: cs) := by
      simp [readSign]
    constructor
    · unfold parseIntChars
      rw [hdrop, readSign_digit c cs hm hp]
      simp only [readRadix_digits _ h, readDigits_allDigits _ 0 0 h]
      simp
    · unfold parseIntChars
      rw [hdrop', hsign']
      simp only [readRadix_digits _ h, readDigits_allDigits _ 0 0 h]
      simp

theorem parseIntChars_intText (n : Int) : parseIntChars (intText n) = some n := by
  obtain ⟨h1, h2, h3⟩ := natDigits_spec n.natAbs
  obtain ⟨hpos, hneg⟩ := parseIntChars_digits _ h1 h3
  unfold intText
  by_cases hn : n < 0
  · rw [if_pos hn, hneg, h2]
    congr 1
    omega
  · rw [if_neg hn, hpos, h2]
    congr 1
    omega

theorem Dec.text_ofInt (n : Int) : (Dec.ofInt n).text = intText n := by
  simp [Dec.text, Dec.ofInt, Dec.normalize, Dec.strip]

theorem parseInt_int (n : Int) : parseInt (.int n) = some n := by
  simp [parseInt, JSVal.int, JSVal.toStr, Dec.text_ofInt, parseIntChars_intText]

theorem sanitizedQuantity_int (n : Int) (h : 0 ≤ n) : sanitizedQuantity (.int n) = n := by
  simp [sanitizedQuantity, parseInt_int]
  omega

theorem sanitizedQuantity_nonneg (v : JSVal) : 0 ≤ sanitizedQuantity v := by
  unfold sanitizedQuantity
  split
  · exact le_refl 0
  · split <;> omega

theorem validQuantity_pos (v : JSVal) : 1 ≤ validQuantity v := by
  unfold validQuantity
  split
  · exact le_refl 1
  · split <;> omega

/-! ## The recomputed count -/

theorem foldl_addQuantity (items : List Line) (a : Int) :
    items.foldl addQuantity a = a + quantitySum items := by
  induction items generalizing a with
  | nil => simp [quantitySum]
  | cons l ls ih =>
    rw [List.foldl_cons, ih]
    simp only [quantitySum, List.map_cons, List.sum_cons, addQuantity, sanitizedQuantity]
    omega

theorem countOf_eq_quantitySum (items : List Line) : countOf items = quantitySum items := by
  simp [countOf, foldl_addQuantity]

theorem quantitySum_append (xs ys : List Line) :
    quantitySum (xs ++ ys) = quantitySum xs + quantitySum ys := by
  simp [quantitySum]

theorem quantitySum_cons (l : Line) (ls : List Line) :
    quantitySum (l :: ls) = sanitizedQuantity l.quantity + quantitySum ls := by
  simp [quantitySum]

theorem quantitySum_nonneg (xs : List Line) : 0 ≤ quantitySum xs := by
  induction xs with
  | nil => simp [quantitySum]
  | cons l ls ih =>
    rw [quantitySum_cons]
    have := sanitizedQuantity_nonneg l.quantity
    omega

/-! ## The result of each operation, by where the line is found -/

theorem executeAddToCart_missing (s : State)
    (productId productName price productImage quantity color size : JSVal) (now : Int)
    (hm : missingData productId productName price = true) :
    executeAddToCart s productId productName price productImage quantity color size now =
      { s with errors := s.errors ++
          ["executeAddToCart: Attempted to add item with missing critical data."] } := by
  simp [executeAddToCart, hm]

theorem executeAddToCart_thrown (s : State)
    (productId productName price productImage quantity color size : JSVal) (now : Int)
    (hm : missingData productId productName price = false)
    (hc : normalizeColor color = none) :
    executeAddToCart s productId productName price productImage quantity color size now =
      { s with uncaught := s.uncaught ++ ["TypeError: color.trim is not a function"] } := by
  simp [executeAddToCart, hm, hc]

theorem executeAddToCart_merge (s : State)
    (productId productName price productImage quantity color size : JSVal) (now : Int)
    (nc : String) (pre post : List Line) (l : Line)
    (hm : missingData productId productName price = false)
    (hc : normalizeColor color = some nc)
    (hxs : s.cartItems = pre ++ l :: post)
    (hpre : ∀ x ∈ pre, sameItem productId (.str nc) size x = false)
    (hl : sameItem productId (.str nc) size l = true) :
    executeAddToCart s productId productName price productImage quantity color size now =
      s.commit
        (pre ++ l.setQuantity (sanitizedQuantity l.quantity + validQuantity quantity) :: post)
        (countOf
          (pre ++ l.setQuantity (sanitizedQuantity l.quantity + validQuantity quantity) :: post)) := by
  have hf := findIdx?_of_split _ pre l post hpre hl
  simp only [executeAddToCart, hm, hc, hxs, hf, getElem?_split, set_split]
  simp

theorem executeAddToCart_append (s : State)
    (productId productName price productImage quantity color size : JSVal) (now : Int)
    (nc : String)
    (hm : missingData productId productName price = false)
    (hc : normalizeColor color = some nc)
    (hno : ∀ x ∈ s.cartItems, sameItem productId (.str nc) size x = false) :
    executeAddToCart s productId productName price productImage quantity color size now =
      s.commit
        (s.cartItems ++ [newLine productId productName price productImage quantity size nc now])
        (countOf
          (s.cartItems ++
            [newLine productId productName price productImage quantity size nc now])) := by
  have hf : s.cartItems.findIdx? (sameItem productId (.str nc) size) = none :=
    List.findIdx?_eq_none_iff.2 (fun x hx => by simp [hno x hx])
  simp [executeAddToCart, hm, hc, hf]

theorem updateCartItemQuantity_absent (s : State) (cartItemId action : JSVal)
    (hno : ∀ x ∈ s.cartItems, hasId cartItemId x = false) :
    updateCartItemQuantity s cartItemId action = s := by
  have hf : s.cartItems.findIdx? (hasId cartItemId) = none :=
    List.findIdx?_eq_none_iff.2 (fun x hx => by simp [hno x hx])
  simp [updateCartItemQuantity, hf]

theorem updateCartItemQuantity_found (s : State) (cartItemId action : JSVal)
    (pre post : List Line) (l : Line)
    (hxs : s.cartItems = pre ++ l :: post)
    (hpre : ∀ x ∈ pre, hasId cartItemId x = false) (hl : hasId cartItemId l = true) :
    updateCartItemQuantity s cartItemId action =
      s.commit
        (if updatedQuantity action (sanitizedQuantity l.quantity) = 0 then pre ++ post
         else pre ++ l.setQuantity (updatedQuantity action (sanitizedQuantity l.quantity)) :: post)
        (countOf
          (if updatedQuantity action (sanitizedQuantity l.quantity) = 0 then pre ++ post
           else
            pre ++ l.setQuantity (updatedQuantity action (sanitizedQuantity l.quantity)) :: post)) := by
  have hf := findIdx?_of_split _ pre l post hpre hl
  simp only [updateCartItemQuantity, hxs, hf, getElem?_split, set_split, eraseIdx_split]

theorem removeFromCart_absent (s : State) (cartItemId : JSVal)
    (hno : ∀ x ∈ s.cartItems, hasId cartItemId x = false) :
    removeFromCart s cartItemId = s := by
  have hf : s.cartItems.findIdx? (hasId cartItemId) = none :=
    List.findIdx?_eq_none_iff.2 (fun x hx => by simp [hno x hx])
  simp [removeFromCart, hf]

theorem removeFromCart_found (s : State) (cartItemId : JSVal)
    (pre post : List Line) (l : Line)
    (hxs : s.cartItems = pre ++ l :: post)
    (hpre : ∀ x ∈ pre, hasId cartItemId x = false) (hl : hasId cartItemId l = true) :
    removeFromCart s cartItemId =
      s.commit (pre ++ post) (decrementedCount s.cartCount l.quantity) := by
  have hf := findIdx?_of_split _ pre l post hpre hl
  simp only [removeFromCart, hxs, hf, getElem?_split, eraseIdx_split]

/-- Where `findIndex` stops: nowhere, or at the first line that satisfies
the test. -/
theorem findIndex_cases (p : Line → Bool) (xs : List Line) :
    (∀ x ∈ xs, p x = false) ∨
    ∃ pre l post, xs = pre ++ l :: post ∧ (∀ x ∈ pre, p x = false) ∧ p l = true := by
  cases hf : xs.findIdx? p with
  | none =>
    left
    intro x hx
    have := List.findIdx?_eq_none_iff.1 hf x hx
    simpa using this
  | some i =>
    obtain ⟨pre, l, post, hxs, _, hpre, hl⟩ := findIdx?_split _ _ _ hf
    exact Or.inr ⟨pre, l, post, hxs, hpre, hl⟩

/-- The four ways `executeAddToCart` ends: rejected, stopped by the
`TypeError` of `color.trim`, merged into the first matching line, or a new
line pushed. -/
theorem executeAddToCart_cases (s : State)
    (productId productName price productImage quantity color size : JSVal) (now : Int) :
    (missingData productId productName price = true ∧
      executeAddToCart s productId productName price productImage quantity color size now =
        { s with errors := s.errors ++
            ["executeAddToCart: Attempted to add item with missing critical data."] }) ∨
    (missingData productId productName price = false ∧ normalizeColor color = none ∧
      executeAddToCart s productId productName price productImage quantity color size now =
        { s with uncaught := s.uncaught ++ ["TypeError: color.trim is not a function"] }) ∨
    (∃ nc pre l post, missingData productId productName price = false ∧
      normalizeColor color = some nc ∧ s.cartItems = pre ++ l :: post ∧
      (∀ x ∈ pre, sameItem productId (.str nc) size x = false) ∧
      sameItem productId (.str nc) size l = true ∧
      executeAddToCart s productId productName price productImage quantity color size now =
        s.commit
          (pre ++ l.setQuantity (sanitizedQuantity l.quantity + validQuantity quantity) :: post)
          (countOf
            (pre ++
              l.setQuantity (sanitizedQuantity l.quantity + validQuantity quantity) :: post))) ∨
    (∃ nc, missingData productId productName price = false ∧
      normalizeColor color = some nc ∧
      (∀ x ∈ s.cartItems, sameItem productId (.str nc) size x = false) ∧
      executeAddToCart s productId productName price productImage quantity color size now =
        s.commit
          (s.cartItems ++
            [newLine productId productName price productImage quantity size nc now])
          (countOf
            (s.cartItems ++
              [newLine productId productName price productImage quantity size nc now]))) := by
  cases hm : missingData productId productName price with
  | true => exact Or.inl ⟨rfl, executeAddToCart_missing s _ _ _ _ _ _ _ _ hm⟩
  | false =>
    cases hc : normalizeColor color with
    | none => exact Or.inr (Or.inl ⟨rfl, rfl, executeAddToCart_thrown s _ _ _ _ _ _ _ _ hm hc⟩)
    | some nc =>
      rcases findIndex_cases (sameItem productId (.str nc) size) s.cartItems with
        hno | ⟨pre, l, post, hxs, hpre, hl⟩
      · exact Or.inr (Or.inr (Or.inr ⟨nc, rfl, rfl, hno,
          executeAddToCart_append s _ _ _ _ _ _ _ _ nc hm hc hno⟩))
      · exact Or.inr (Or.inr (Or.inl ⟨nc, pre, l, post, rfl, rfl, hxs, hpre, hl,
          executeAddToCart_merge s _ _ _ _ _ _ _ _ nc pre post l hm hc hxs hpre hl⟩))

/-! ## Invariants along sequences of operations -/

theorem run_invariant (P : State → Prop) (hstep : ∀ s op, P s → P (step s op))
    (s : State) (h : P s) (ops : List Op) : P (run s ops) := by
  induction ops generalizing s with
  | nil => exact h
  | cons op ops ih => exact ih (step s op) (hstep s op h)

theorem PosQty.split {pre post : List Line} {l : Line} (h : PosQty (pre ++ l :: post)) :
    PosQty (pre ++ post) ∧ ∃ q : Int, 1 ≤ q ∧ l.quantity = .int q := by
  refine ⟨?_, h l (by simp)⟩
  intro x hx
  apply h x
  rcases List.mem_append.1 hx with hx | hx
  · exact List.mem_append_left _ hx
  · exact List.mem_append_right _ (List.mem_cons_of_mem _ hx)

theorem PosQty.insert {pre post : List Line} {l : Line} (h : PosQty (pre ++ post))
    (hl : ∃ q : Int, 1 ≤ q ∧ l.quantity = .int q) : PosQty (pre ++ l :: post) := by
  intro x hx
  rcases List.mem_append.1 hx with hx | hx
  · exact h x (List.mem_append_left _ hx)
  · rcases List.mem_cons.1 hx with rfl | hx
    · exact hl
    · exact h x (List.mem_append_right _ hx)

theorem updatedQuantity_nonneg (action : JSVal) (q : Int) (h : 0 ≤ q) :
    0 ≤ updatedQuantity action q := by
  unfold updatedQuantity
  split
  · omega
  · split
    · exact le_max_left _ _
    · exact h

theorem cartOK_commit (s : State) (items : List Line) (h : PosQty items) :
    CartOK (s.commit items (countOf items)) :=
  ⟨h, countOf_eq_quantitySum items⟩

theorem cartOK_step (s : State) (op : Op) (h : CartOK s) : CartOK (step s op) := by
  obtain ⟨hq, hc⟩ := h
  cases op with
  | add productId productName price productImage quantity color size now =>
    rcases executeAddToCart_cases s productId productName price productImage quantity color
      size now with ⟨_, h1⟩ | ⟨_, _, h1⟩ | ⟨nc, pre, l, post, _, _, hxs, _, _, h1⟩ |
      ⟨nc, _, _, _, h1⟩
    · rw [step, h1]; exact ⟨hq, hc⟩
    · rw [step, h1]; exact ⟨hq, hc⟩
    · rw [step, h1]
      apply cartOK_commit
      rw [hxs] at hq
      refine PosQty.insert hq.split.1 ⟨_, ?_, rfl⟩
      have := sanitizedQuantity_nonneg l.quantity
      have := validQuantity_pos quantity
      omega
    · rw [step, h1]
      apply cartOK_commit
      intro x hx
      rcases List.mem_append.1 hx with hx | hx
      · exact hq x hx
      · rw [List.mem_singleton] at hx
        exact ⟨validQuantity quantity, validQuantity_pos quantity, by rw [hx]; rfl⟩
  | update cartItemId action =>
    rcases findIndex_cases (hasId cartItemId) s.cartItems with
      hno | ⟨pre, l, post, hxs, hpre, hl⟩
    · rw [step, updateCartItemQuantity_absent s _ _ hno]; exact ⟨hq, hc⟩
    · rw [step, updateCartItemQuantity_found s _ _ pre post l hxs hpre hl]
      apply cartOK_commit
      rw [hxs] at hq
      split
      · exact hq.split.1
      · rename_i hne
        refine PosQty.insert hq.split.1 ⟨_, ?_, rfl⟩
        have := updatedQuantity_nonneg action _ (sanitizedQuantity_nonneg l.quantity)
        omega
  | remove cartItemId =>
    rcases findIndex_cases (hasId cartItemId) s.cartItems with
      hno | ⟨pre, l, post, hxs, hpre, hl⟩
    · rw [step, removeFromCart_absent s _ hno]; exact ⟨hq, hc⟩
    · rw [step, removeFromCart_found s _ pre post l hxs hpre hl]
      rw [hxs] at hq
      obtain ⟨hq', q, hq1, hlq⟩ := hq.split
      refine ⟨hq', ?_⟩
      show decrementedCount s.cartCount l.quantity = quantitySum (pre ++ post)
      have hsum : s.cartCount = quantitySum pre + q + quantitySum post := by
        rw [hc, hxs, quantitySum_append, quantitySum_cons, hlq,
          sanitizedQuantity_int q (by omega)]
        omega
      have h0 := quantitySum_nonneg pre
      have h0' := quantitySum_nonneg post
      rw [decrementedCount, hlq, parseInt_int, quantitySum_append]
      simp only [gt_iff_lt]
      rw [if_pos (by omega), hsum]
      rw [max_eq_right (by omega)]
      omega

theorem cartOK_of_empty (s : State) (hitems : s.cartItems = []) (hcount : s.cartCount = 0) :
    CartOK s := by
  refine ⟨?_, ?_⟩
  · rw [hitems]; intro l hl; cases hl
  · rw [hitems, hcount]; rfl

theorem strictEq_comm (a b : JSVal) : a.strictEq b = b.strictEq a := by
  cases a <;> cases b <;> simp [JSVal.strictEq, Bool.beq_comm, eq_comm]

theorem sameLogicalItem_comm (a b : Line) : sameLogicalItem a b = sameLogicalItem b a := by
  simp [sameLogicalItem, strictEq_comm a.productId, strictEq_comm a.color, strictEq_comm a.size]

theorem sameLogicalItem_setQuantity_left (a b : Line) (q : Int) :
    sameLogicalItem (a.setQuantity q) b = sameLogicalItem a b := rfl

theorem sameLogicalItem_setQuantity_right (a b : Line) (q : Int) :
    sameLogicalItem a (b.setQuantity q) = sameLogicalItem a b := rfl

theorem NoDuplicate.setQuantity {pre post : List Line} {l : Line} (q : Int)
    (h : NoDuplicate (pre ++ l :: post)) : NoDuplicate (pre ++ l.setQuantity q :: post) := by
  unfold NoDuplicate at h ⊢
  simp only [List.pairwise_append, List.pairwise_cons, List.mem_cons, forall_eq_or_imp,
    sameLogicalItem_setQuantity_left, sameLogicalItem_setQuantity_right] at h ⊢
  exact h

theorem NoDuplicate.remove {pre post : List Line} {l : Line}
    (h : NoDuplicate (pre ++ l :: post)) : NoDuplicate (pre ++ post) := by
  unfold NoDuplicate at h ⊢
  simp only [List.pairwise_append, List.pairwise_cons, List.mem_cons, forall_eq_or_imp] at h ⊢
  exact ⟨h.1, h.2.1.2, fun a ha => (h.2.2 a ha).2⟩

theorem noDuplicate_step (s : State) (op : Op) (h : NoDuplicate s.cartItems) :
    NoDuplicate (step s op).cartItems := by
  cases op with
  | add productId productName price productImage quantity color size now =>
    rcases executeAddToCart_cases s productId productName price productImage quantity color
      size now with ⟨_, h1⟩ | ⟨_, _, h1⟩ | ⟨nc, pre, l, post, _, _, hxs, _, _, h1⟩ |
      ⟨nc, _, _, hno, h1⟩
    · rw [step, h1]; exact h
    · rw [step, h1]; exact h
    · rw [step, h1]
      rw [hxs] at h
      exact h.setQuantity _
    · rw [step, h1]
      show NoDuplicate (s.cartItems ++ _)
      unfold NoDuplicate at h ⊢
      rw [List.pairwise_append]
      refine ⟨h, List.pairwise_singleton _ _, ?_⟩
      intro a ha b hb
      rw [List.mem_singleton] at hb
      rw [hb]
      exact hno a ha
  | update cartItemId action =>
    rcases findIndex_cases (hasId cartItemId) s.cartItems with
      hno | ⟨pre, l, post, hxs, hpre, hl⟩
    · rw [step, updateCartItemQuantity_absent s _ _ hno]; exact h
    · rw [step, updateCartItemQuantity_found s _ _ pre post l hxs hpre hl]
      show NoDuplicate (if _ then _ else _)
      rw [hxs] at h
      split
      · exact h.remove
      · exact h.setQuantity _
  | remove cartItemId =>
    rcases findIndex_cases (hasId cartItemId) s.cartItems with
      hno | ⟨pre, l, post, hxs, hpre, hl⟩
    · rw [step, removeFromCart_absent s _ hno]; exact h
    · rw [step, removeFromCart_found s _ pre post l hxs hpre hl]
      rw [hxs] at h
      exact h.remove

theorem NoDuplicate.at_indices {items : List Line} (h : NoDuplicate items) (i j : Nat)
    (a b : Line) (hi : items[i]? = some a) (hj : items[j]? = some b) (hij : i ≠ j) :
    sameLogicalItem a b = false := by
  unfold NoDuplicate at h
  rw [List.pairwise_iff_getElem] at h
  obtain ⟨hi', hia⟩ := List.getElem?_eq_some_iff.1 hi
  obtain ⟨hj', hjb⟩ := List.getElem?_eq_some_iff.1 hj
  rcases Nat.lt_or_gt_of_ne hij with hlt | hgt
  · rw [← hia, ← hjb]; exact h i j hi' hj' hlt
  · rw [sameLogicalItem_comm, ← hia, ← hjb]; exact h j i hj' hi' hgt

/-! ## `initCart` -/

theorem not_isUndefined (v : JSVal) : (!v.isUndefined) = (v != .undefined) := by
  cases v <;> rfl

theorem initCartKeep_cases (e : Entry) :
    initCartKeep e = if e.raises then none else some e.wellFormed := by
  cases e with
  | other v => simp [initCartKeep, Entry.wellFormed, Entry.raises, Entry.field, JSVal.isUndefined]
  | object l =>
    simp only [initCartKeep, Entry.wellFormed, Entry.raises, Entry.field, Entry.truthy,
      not_isUndefined, Bool.true_and]
    rfl
  | unconvertible l =>
    simp only [initCartKeep, Entry.wellFormed, Entry.raises, not_isUndefined]

theorem filterEntries_of_no_raise (entries : List Entry)
    (h : ∀ e ∈ entries, e.raises = false) :
    filterEntries entries = some (entries.filter Entry.wellFormed) := by
  induction entries with
  | nil => rfl
  | cons e es ih =>
    have he := h e (List.mem_cons_self _ _)
    have ih' := ih (fun x hx => h x (List.mem_cons_of_mem _ hx))
    simp only [filterEntries, initCartKeep_cases, he, ih', List.filter_cons]
    cases e.wellFormed <;> rfl

theorem filterEntries_of_raise (entries : List Entry)
    (h : ∃ e ∈ entries, e.raises = true) : filterEntries entries = none := by
  induction entries with
  | nil => obtain ⟨e, he, -⟩ := h; cases he
  | cons a as ih =>
    by_cases ha : a.raises = true
    · simp [filterEntries, initCartKeep_cases, ha]
    · have ha' : a.raises = false := by simpa using ha
      obtain ⟨e, he, hr⟩ := h
      rcases List.mem_cons.1 he with rfl | he
      · exact absurd hr ha
      · have := ih ⟨e, he, hr⟩
        simp [filterEntries, initCartKeep_cases, ha', this]

theorem map_object_filterMap_line (entries : List Entry)
    (h : ∀ e ∈ entries, e.wellFormed = true) :
    (entries.filterMap Entry.line?).map Entry.object = entries := by
  induction entries with
  | nil => rfl
  | cons e es ih =>
    have he := h e (List.mem_cons_self _ _)
    have ih' := ih (fun x hx => h x (List.mem_cons_of_mem _ hx))
    cases e with
    | other v => simp [Entry.wellFormed] at he
    | object l => simp [Entry.line?, ih']
    | unconvertible l => simp [Entry.wellFormed] at he

theorem initCart_array (s : State) (entries : List Entry)
    (h : s.storage.cartItems = some (.array entries))
    (hr : ∀ e ∈ entries, e.raises = false) :
    initCart s =
      { s with
        cartItems := (entries.filter Entry.wellFormed).filterMap Entry.line?,
        cartCount := countOf ((entries.filter Entry.wellFormed).filterMap Entry.line?),
        storage := { s.storage with cartCount := some (String.mk (intText
          (countOf ((entries.filter Entry.wellFormed).filterMap Entry.line?)))) } } := by
  simp only [initCart, h, loadCartItems, filterEntries_of_no_raise entries hr, List.append_nil]

theorem initCart_raised (s : State) (entries : List Entry)
    (h : s.storage.cartItems = some (.array entries))
    (hr : ∃ e ∈ entries, e.raises = true) :
    initCart s =
      { s with cartItems := [], cartCount := 0,
               storage := { s.storage with cartItems := none, cartCount := some "0" },
               errors := s.errors ++ [initCartError] } := by
  simp only [initCart, h, loadCartItems, filterEntries_of_raise entries hr]
  rfl

theorem initCart_invalid (s : State) (h : s.storage.cartItems = some .invalid) :
    initCart s =
      { s with cartItems := [], cartCount := 0,
               storage := { s.storage with cartItems := none, cartCount := some "0" },
               errors := s.errors ++ [initCartError] } := by
  simp only [initCart, h, loadCartItems]
  rfl

theorem initCart_not_array (s : State) (v : JSVal) (h : s.storage.cartItems = some (.value v)) :
    initCart s =
      { s with cartItems := [], cartCount := 0,
               storage := { s.storage with cartItems := none, cartCount := some "0" } } := by
  simp only [initCart, h, loadCartItems, List.append_nil]
  rfl

theorem initCart_nothing (s : State)
    (h : s.storage.cartItems = none ∨ s.storage.cartItems = some .empty) :
    initCart s =
      { s with cartItems := [], cartCount := 0,
               storage := { s.storage with cartCount := some "0" } } := by
  rcases h with h | h <;> simp only [initCart, h, List.append_nil] <;> rfl

theorem raises_cases (entries : List Entry) :
    (∀ e ∈ entries, e.raises = false) ∨ ∃ e ∈ entries, e.raises = true := by
  by_cases h : ∃ e ∈ entries, e.raises = true
  · exact Or.inr h
  · left
    intro e he
    cases hr : e.raises with
    | false => rfl
    | true => exact absurd ⟨e, he, hr⟩ h

theorem stored_cases (x : Option (Stored Entry)) :
    (x = none ∨ x = some .empty) ∨
      (x = some .invalid ∨ (∃ v, x = some (.value v)) ∨
        ∃ entries, x = some (.array entries) ∧ ∃ e ∈ entries, e.raises = true) ∨
      ∃ entries, x = some (.array entries) ∧ ∀ e ∈ entries, e.raises = false := by
  rcases x with _ | (_ | _ | v | xs)
  · exact Or.inl (Or.inl rfl)
  · exact Or.inl (Or.inr rfl)
  · exact Or.inr (Or.inl (Or.inl rfl))
  · exact Or.inr (Or.inl (Or.inr (Or.inl ⟨v, rfl⟩)))
  · rcases raises_cases xs with h | h
    · exact Or.inr (Or.inr ⟨xs, rfl, h⟩)
    · exact Or.inr (Or.inl (Or.inr (Or.inr ⟨xs, rfl, h⟩)))

/-- In each of the three cases in which `initCart` gives the stored value up
(text that is not JSON, a value that is not an array, an array with an entry
that raises), the cart ends empty and the key is removed. -/
theorem initCart_reset (s : State)
    (h : s.storage.cartItems = some .invalid ∨ (∃ v, s.storage.cartItems = some (.value v)) ∨
      ∃ entries, s.storage.cartItems = some (.array entries) ∧ ∃ e ∈ entries, e.raises = true) :
    (initCart s).cartItems = [] ∧ (initCart s).cartCount = 0 ∧
      (initCart s).storage.cartCount = some "0" ∧ (initCart s).storage.cartItems = none ∧
      (initCart s).storage.userOrders = s.storage.userOrders := by
  rcases h with h | ⟨v, h⟩ | ⟨entries, h, hr⟩
  · rw [initCart_invalid s h]; exact ⟨rfl, rfl, rfl, rfl, rfl⟩
  · rw [initCart_not_array s v h]; exact ⟨rfl, rfl, rfl, rfl, rfl⟩
  · rw [initCart_raised s entries h hr]; exact ⟨rfl, rfl, rfl, rfl, rfl⟩

/-! ## One step from an arbitrary state -/

/-- From any state, `executeAddToCart` leaves `cartCount` equal to the sum of
the quantities whenever it was so before. -/
theorem executeAddToCart_keeps_count (s : State)
    (productId productName price productImage quantity color size : JSVal) (now : Int)
    (h : s.cartCount = quantitySum s.cartItems) :
    (executeAddToCart s productId productName price productImage quantity color size
        now).cartCount =
      quantitySum (executeAddToCart s productId productName price productImage quantity color
        size now).cartItems := by
  rcases executeAddToCart_cases s productId productName price productImage quantity color
    size now with ⟨_, h1⟩ | ⟨_, _, h1⟩ | ⟨nc, pre, l, post, _, _, _, _, _, h1⟩ |
    ⟨nc, _, _, _, h1⟩
  · rw [h1]; exact h
  · rw [h1]; exact h
  · rw [h1]; exact countOf_eq_quantitySum _
  · rw [h1]; exact countOf_eq_quantitySum _

/-- From any state, `updateCartItemQuantity` leaves `cartCount` equal to the
sum of the quantities whenever it was so before. -/
theorem updateCartItemQuantity_keeps_count (s : State) (cartItemId action : JSVal)
    (h : s.cartCount = quantitySum s.cartItems) :
    (updateCartItemQuantity s cartItemId action).cartCount =
      quantitySum (updateCartItemQuantity s cartItemId action).cartItems := by
  rcases findIndex_cases (hasId cartItemId) s.cartItems with
    hno | ⟨pre, l, post, hxs, hpre, hl⟩
  · rw [updateCartItemQuantity_absent s _ _ hno]; exact h
  · rw [updateCartItemQuantity_found s _ _ pre post l hxs hpre hl]
    exact countOf_eq_quantitySum _

/-! ## `placeOrderAndClearCart` -/

theorem placeOrderAndClearCart_empty (s : State) (selectedPayment : Option String)
    (now : Int) (isoDate : String) (h : s.cartItems = []) :
    placeOrderAndClearCart s selectedPayment now isoDate =
      { s with alerts := s.alerts ++
          ["Your cart is empty. Please add items before placing an order."] } := by
  simp [placeOrderAndClearCart, h]

theorem placeOrderAndClearCart_places (s : State) (selectedPayment : Option String)
    (now : Int) (isoDate : String) (prev : List OrderEntry)
    (hne : s.cartItems ≠ []) (hprev : ReadsOrders s.storage prev) :
    placeOrderAndClearCart s selectedPayment now isoDate =
      { s with
        cartItems := [], cartCount := 0,
        storage := persistCart
          { s.storage with userOrders := some (.array (prev ++
            [OrderEntry.order (checkoutOrder s selectedPayment now isoDate).toJSON])) } [] 0,
        alerts := s.alerts ++
          ["Order placed successfully! Thank you for your purchase.\nOrder ID: " ++
            (checkoutOrder s selectedPayment now isoDate).orderId ++ "\nPayment Method: " ++
            paymentOf selectedPayment] } := by
  have hlen : ¬ s.cartItems.length = 0 := by
    intro h
    exact hne (List.length_eq_zero.1 h)
  rcases hprev with h | ⟨h | h, rfl⟩ <;>
    simp only [placeOrderAndClearCart, hlen, if_false, h] <;> rfl

theorem addLineAmount_eq_spec (total : Num) (l : Line)
    (h : l.productId.toStr ∉ inheritedKeys) :
    addLineAmount total l = Num.add total (specLineAmount l) := by
  unfold addLineAmount specLineAmount specPrice productsAt
  cases hk : products.lookup l.productId.toStr with
  | some p => rfl
  | none => simp [h]

/-- When no `productId` is the name of an inherited property, the total
`placeOrderAndClearCart` computes is the sum of price times quantity, the
price being the catalog's when the catalog has the `productId`. -/
theorem orderTotal_eq_specTotal (items : List Line)
    (h : ∀ l ∈ items, l.productId.toStr ∉ inheritedKeys) :
    items.foldl addLineAmount (some (Dec.ofInt 0)) = specTotal items := by
  unfold specTotal
  generalize some (Dec.ofInt 0) = a
  induction items generalizing a with
  | nil => rfl
  | cons l ls ih =>
    rw [List.foldl_cons, List.foldl_cons,
      addLineAmount_eq_spec a l (h l (List.mem_cons_self _ _))]
    exact ih (fun x hx => h x (List.mem_cons_of_mem _ hx)) _

/-! ## The decrement of `removeFromCart` -/

/-- The count `removeFromCart` leaves is the one the specification words
give whenever the removed quantity parses as a positive integer or does not
parse. -/
theorem decrementedCount_eq_claimed (cartCount : Int) (quantity : JSVal)
    (h : parseInt quantity = none ∨ ∃ q, parseInt quantity = some q ∧ 0 < q) :
    decrementedCount cartCount quantity = claimedCount cartCount quantity := by
  unfold decrementedCount claimedCount claimedDecrement
  rcases h with h | ⟨q, h, hq⟩
  · simp [h]
  · simp only [h, gt_iff_lt, if_pos hq]
    rw [if_neg (by omega)]

theorem updatedQuantity_increase (q : Int) :
    updatedQuantity (.str "increase") q = q + 1 := by
  have h : (JSVal.str "increase").strictEq (.str "increase") = true := by decide
  simp [updatedQuantity, h]

theorem updatedQuantity_decrease (q : Int) :
    updatedQuantity (.str "decrease") q = max 0 (q - 1) := by
  have h1 : (JSVal.str "decrease").strictEq (.str "increase") = false := by decide
  have h2 : (JSVal.str "decrease").strictEq (.str "decrease") = true := by decide
  simp [updatedQuantity, h1, h2]

/-! ## Positive quantities and what each step writes -/

theorem posQty_step (s : State) (op : Op) (hq : PosQty s.cartItems) :
    PosQty (step s op).cartItems := by
  cases op with
  | add productId productName price productImage quantity color size now =>
    rcases executeAddToCart_cases s productId productName price productImage quantity color
      size now with ⟨_, h1⟩ | ⟨_, _, h1⟩ | ⟨nc, pre, l, post, _, _, hxs, _, _, h1⟩ |
      ⟨nc, _, _, _, h1⟩
    · rw [step, h1]; exact hq
    · rw [step, h1]; exact hq
    · rw [step, h1]
      rw [hxs] at hq
      refine PosQty.insert hq.split.1 ⟨_, ?_, rfl⟩
      have := sanitizedQuantity_nonneg l.quantity
      have := validQuantity_pos quantity
      omega
    · rw [step, h1]
      intro x hx
      rcases List.mem_append.1 hx with hx | hx
      · exact hq x hx
      · rw [List.mem_singleton] at hx
        exact ⟨validQuantity quantity, validQuantity_pos quantity, by rw [hx]; rfl⟩
  | update cartItemId action =>
    rcases findIndex_cases (hasId cartItemId) s.cartItems with
      hno | ⟨pre, l, post, hxs, hpre, hl⟩
    · rw [step, updateCartItemQuantity_absent s _ _ hno]; exact hq
    · rw [step, updateCartItemQuantity_found s _ _ pre post l hxs hpre hl]
      show PosQty (if _ then _ else _)
      rw [hxs] at hq
      split
      · exact hq.split.1
      · rename_i hne
        refine PosQty.insert hq.split.1 ⟨_, ?_, rfl⟩
        have := updatedQuantity_nonneg action _ (sanitizedQuantity_nonneg l.quantity)
        omega
  | remove cartItemId =>
    rcases findIndex_cases (hasId cartItemId) s.cartItems with
      hno | ⟨pre, l, post, hxs, hpre, hl⟩
    · rw [step, removeFromCart_absent s _ hno]; exact hq
    · rw [step, removeFromCart_found s _ pre post l hxs hpre hl]
      rw [hxs] at hq
      exact hq.split.1

/-- A step either leaves the lines and storage alone or commits a list. -/
theorem step_writes (s : State) (op : Op) :
    ((step s op).cartItems = s.cartItems ∧ (step s op).storage = s.storage) ∨
      ∃ items count, step s op = s.commit items count := by
  cases op with
  | add productId productName price productImage quantity color size now =>
    rcases executeAddToCart_cases s productId productName price productImage quantity color
      size now with ⟨_, h1⟩ | ⟨_, _, h1⟩ | ⟨nc, pre, l, post, _, _, hxs, _, _, h1⟩ |
      ⟨nc, _, _, _, h1⟩
    · rw [step, h1]; exact Or.inl ⟨rfl, rfl⟩
    · rw [step, h1]; exact Or.inl ⟨rfl, rfl⟩
    · rw [step, h1]; exact Or.inr ⟨_, _, rfl⟩
    · rw [step, h1]; exact Or.inr ⟨_, _, rfl⟩
  | update cartItemId action =>
    rcases findIndex_cases (hasId cartItemId) s.cartItems with
      hno | ⟨pre, l, post, hxs, hpre, hl⟩
    · rw [step, updateCartItemQuantity_absent s _ _ hno]; exact Or.inl ⟨rfl, rfl⟩
    · rw [step, updateCartItemQuantity_found s _ _ pre post l hxs hpre hl]
      exact Or.inr ⟨_, _, rfl⟩
  | remove cartItemId =>
    rcases findIndex_cases (hasId cartItemId) s.cartItems with
      hno | ⟨pre, l, post, hxs, hpre, hl⟩
    · rw [step, removeFromCart_absent s _ hno]; exact Or.inl ⟨rfl, rfl⟩
    · rw [step, removeFromCart_found s _ pre post l hxs hpre hl]
      exact Or.inr ⟨_, _, rfl⟩

theorem persisted_step (s0 s : State) (op : Op)
    (h : s.storage = s0.storage ∨ Persisted s) :
    (step s op).storage = s0.storage ∨ Persisted (step s op) := by
  rcases step_writes s op with ⟨h1, h2⟩ | ⟨items, count, h1⟩
  · rcases h with h | h
    · exact Or.inl (by rw [h2, h])
    · right
      unfold Persisted at h ⊢
      rw [h1, h2]
      exact h
  · right
    rw [h1]
    rfl

theorem posQty_toJSON (items : List Line) (h : PosQty items) :
    PosQty (items.map Line.toJSON) := by
  intro x hx
  obtain ⟨l, hl, rfl⟩ := List.mem_map.1 hx
  obtain ⟨q, hq, hlq⟩ := h l hl
  exact ⟨q, hq, by simp [Line.toJSON, hlq, JSVal.int, jsonField]⟩

/-! ## Line identifiers -/

theorem lineIds_setQuantity (pre post : List Line) (l : Line) (q : Int) :
    lineIds (pre ++ l.setQuantity q :: post) = lineIds (pre ++ l :: post) := by
  simp [lineIds, Line.setQuantity]

theorem lineIds_remove (pre post : List Line) (l : Line) :
    List.Sublist (lineIds (pre ++ post)) (lineIds (pre ++ l :: post)) := by
  simp only [lineIds, List.map_append, List.map_cons]
  exact List.Sublist.append_left (List.sublist_cons_self _ _) _

/-- A step keeps the identifiers of the lines it keeps, in order, and adds
at most the clock reading of an add at the end. -/
theorem lineIds_step (s : State) (op : Op) :
    List.Sublist (lineIds (step s op).cartItems)
      (lineIds s.cartItems ++ (addTimes [op]).map JSVal.int) := by
  cases op with
  | add productId productName price productImage quantity color size now =>
    rcases executeAddToCart_cases s productId productName price productImage quantity color
      size now with ⟨_, h1⟩ | ⟨_, _, h1⟩ | ⟨nc, pre, l, post, _, _, hxs, _, _, h1⟩ |
      ⟨nc, _, _, _, h1⟩
    · rw [step, h1]; exact List.sublist_append_left _ _
    · rw [step, h1]; exact List.sublist_append_left _ _
    · rw [step, h1]
      show List.Sublist (lineIds (pre ++ _ :: post)) _
      rw [lineIds_setQuantity, ← hxs]
      exact List.sublist_append_left _ _
    · rw [step, h1]
      show List.Sublist (lineIds (s.cartItems ++ _)) _
      simp [lineIds, addTimes, newLine]
  | update cartItemId action =>
    rcases findIndex_cases (hasId cartItemId) s.cartItems with
      hno | ⟨pre, l, post, hxs, hpre, hl⟩
    · rw [step, updateCartItemQuantity_absent s _ _ hno]; exact List.sublist_append_left _ _
    · rw [step, updateCartItemQuantity_found s _ _ pre post l hxs hpre hl]
      show List.Sublist (lineIds (if _ then _ else _)) _
      rw [hxs]
      split
      · exact (lineIds_remove pre post l).trans (List.sublist_append_left _ _)
      · rw [lineIds_setQuantity]; exact List.sublist_append_left _ _
  | remove cartItemId =>
    rcases findIndex_cases (hasId cartItemId) s.cartItems with
      hno | ⟨pre, l, post, hxs, hpre, hl⟩
    · rw [step, removeFromCart_absent s _ hno]; exact List.sublist_append_left _ _
    · rw [step, removeFromCart_found s _ pre post l hxs hpre hl]
      show List.Sublist (lineIds (pre ++ post)) _
      rw [hxs]
      exact (lineIds_remove pre post l).trans (List.sublist_append_left _ _)

theorem addTimes_cons (op : Op) (ops : List Op) :
    addTimes (op :: ops) = addTimes [op] ++ addTimes ops := by
  cases op <;> rfl

theorem lineIds_run (s : State) (ops : List Op) :
    List.Sublist (lineIds (run s ops).cartItems)
      (lineIds s.cartItems ++ (addTimes ops).map JSVal.int) := by
  induction ops generalizing s with
  | nil => simp [run, addTimes]
  | cons op ops ih =>
    have h1 := ih (step s op)
    have h2 := (lineIds_step s op).append_right ((addTimes ops).map JSVal.int)
    rw [addTimes_cons, List.map_append, ← List.append_assoc]
    exact h1.trans h2

theorem int_injective : Function.Injective JSVal.int := by
  intro a b h
  simpa [JSVal.int, Dec.ofInt] using h

/-- When the adds of a sequence read pairwise distinct clock values, the
lines it builds from an empty cart have pairwise distinct identifiers. -/
theorem lineIds_nodup_of_distinct_clock (s : State) (hitems : s.cartItems = [])
    (ops : List Op) (h : (addTimes ops).Nodup) : (lineIds (run s ops).cartItems).Nodup := by
  have hsub := lineIds_run s ops
  rw [hitems] at hsub
  exact List.Nodup.sublist hsub (by simpa [lineIds] using h.map int_injective)

/-- Every line `initCart` puts in memory has a quantity that parses as an
integer. -/
theorem initCart_quantities_parse (t : State) :
    ∀ l ∈ (initCart t).cartItems, ∃ q, parseInt l.quantity = some q := by
  intro l hl
  rcases stored_cases t.storage.cartItems with h | h | ⟨entries, h, hr⟩
  · rw [initCart_nothing t h] at hl; cases hl
  · rw [(initCart_reset t h).1] at hl; cases hl
  · rw [initCart_array t entries h hr] at hl
    obtain ⟨e, he, hel⟩ := List.mem_filterMap.1 hl
    have hw := (List.mem_filter.1 he).2
    cases e with
    | other v => simp [Entry.line?] at hel
    | unconvertible l' => simp [Entry.line?] at hel
    | object l' =>
      simp only [Entry.line?, Option.some.injEq] at hel
      subst hel
      simp only [Entry.wellFormed, Bool.and_eq_true] at hw
      exact Option.isSome_iff_exists.1 hw.2

/-! ## `displayCartItems` -/

theorem isUndefined_eq_beq (v : JSVal) : v.isUndefined = (v == .undefined) := by
  cases v <;> rfl

theorem isNull_eq_beq (v : JSVal) : v.isNull = (v == .null) := by
  cases v <;> rfl

theorem specCounted_eq (l : Line) :
    specCounted l = (!displaySkips l &&
      (match parseInt l.quantity with
        | some q => decide (0 < q)
        | none => false)) := by
  simp only [specCounted, displaySkips, isUndefined_eq_beq, isNull_eq_beq, bne, Bool.not_or,
    Bool.and_assoc]

theorem displayItemPrice_eq_spec (l : Line) (h : l.productId.toStr ∉ inheritedKeys) :
    displayItemPrice l = specDisplayPrice l := by
  unfold displayItemPrice specDisplayPrice specPrice productsAt
  cases hk : products.lookup l.productId.toStr with
  | some p => rfl
  | none => simp [h]

/-- What the `forEach` callback does with a line whose `productId` is not an
inherited property name: counted lines add their quantity and their guarded
amount, the others nothing. -/
theorem displayItem_eq_spec (acc : Int × Num) (l : Line)
    (h : l.productId.toStr ∉ inheritedKeys) :
    displayItem acc l =
      if specCounted l then
        (acc.1 + sanitizedQuantity l.quantity,
          Num.add acc.2 (Num.mul (specDisplayPrice l) (Num.ofParsed (parseInt l.quantity))))
      else acc := by
  rw [specCounted_eq]
  unfold displayItem
  cases hs : displaySkips l with
  | true => simp
  | false =>
    cases hq : parseInt l.quantity with
    | none => simp
    | some q =>
      by_cases hpos : q ≤ 0
      · have : ¬ 0 < q := by omega
        simp [hpos, this]
      · have hlt : 0 < q := by omega
        have hsan : sanitizedQuantity l.quantity = q := by
          simp only [sanitizedQuantity, hq]
          rw [if_neg (by omega)]
        simp [hpos, hlt, hsan, displayItemPrice_eq_spec l h, Num.ofParsed]

theorem foldl_displayItem (items : List Line) (acc : Int × Num)
    (h : ∀ l ∈ items, l.productId.toStr ∉ inheritedKeys) :
    items.foldl displayItem acc =
      (acc.1 + specDisplayCount items,
        (items.filter specCounted).foldl
          (fun total l =>
            Num.add total (Num.mul (specDisplayPrice l) (Num.ofParsed (parseInt l.quantity))))
          acc.2) := by
  induction items generalizing acc with
  | nil => simp [specDisplayCount]
  | cons l ls ih =>
    have hl := h l (List.mem_cons_self _ _)
    have ih' := fun a => ih a (fun x hx => h x (List.mem_cons_of_mem _ hx))
    rw [List.foldl_cons, displayItem_eq_spec acc l hl]
    by_cases hc : specCounted l = true
    · rw [if_pos hc, ih']
      simp only [specDisplayCount, List.filter_cons, hc, if_true, List.map_cons, List.sum_cons,
        List.foldl_cons]
      congr 1
      omega
    · rw [if_neg hc, ih']
      simp only [specDisplayCount, List.filter_cons, hc]
      rfl

theorem guardedPrice_isSome (x : Num) : ∃ p, guardedPrice x = some p := by
  unfold guardedPrice
  split
  · exact ⟨_, rfl⟩
  · split <;> exact ⟨_, rfl⟩

theorem displayItem_total_isSome (acc : Int × Num) (l : Line) (h : acc.2.isSome = true) :
    (displayItem acc l).2.isSome = true := by
  unfold displayItem
  split
  · exact h
  · split
    · exact h
    · split
      · exact h
      · obtain ⟨a, ha⟩ := Option.isSome_iff_exists.1 h
        obtain ⟨p, hp⟩ : ∃ p, displayItemPrice l = some p := guardedPrice_isSome _
        simp [ha, hp, Num.add, Num.mul]

theorem foldl_displayItem_isSome (items : List Line) (acc : Int × Num)
    (h : acc.2.isSome = true) : (items.foldl displayItem acc).2.isSome = true := by
  induction items generalizing acc with
  | nil => exact h
  | cons l ls ih =>
    rw [List.foldl_cons]
    exact ih _ (displayItem_total_isSome acc l h)

/-- The total `displayCartItems` publishes is never `NaN`. -/
theorem displayCartItems_total_isSome (items : List Line) :
    (displayCartItems items).2.isSome = true := by
  unfold displayCartItems
  split
  · rfl
  · exact foldl_displayItem_isSome items _ rfl

theorem displayItem_count (acc : Int × Num) (l : Line) :
    (displayItem acc l).1 =
      if specCounted l then acc.1 + sanitizedQuantity l.quantity else acc.1 := by
  rw [specCounted_eq]
  unfold displayItem
  cases hs : displaySkips l with
  | true => simp
  | false =>
    cases hq : parseInt l.quantity with
    | none => simp
    | some q =>
      by_cases hpos : q ≤ 0
      · have : ¬ 0 < q := by omega
        simp [hpos, this]
      · have hlt : 0 < q := by omega
        have hsan : sanitizedQuantity l.quantity = q := by
          simp only [sanitizedQuantity, hq]
          rw [if_neg (by omega)]
        simp [hpos, hlt, hsan]

theorem foldl_displayItem_count (items : List Line) (acc : Int × Num) :
    (items.foldl displayItem acc).1 = acc.1 + specDisplayCount items := by
  induction items generalizing acc with
  | nil => simp [specDisplayCount]
  | cons l ls ih =>
    rw [List.foldl_cons, ih, displayItem_count]
    by_cases hc : specCounted l = true
    · simp only [hc, if_true, specDisplayCount, List.filter_cons, List.map_cons, List.sum_cons]
      omega
    · simp only [hc, specDisplayCount, List.filter_cons]
      rfl

theorem displayCartItems_count (items : List Line) :
    (displayCartItems items).1 = specDisplayCount items := by
  unfold displayCartItems
  split
  · rename_i h
    rw [List.length_eq_zero.1 h]
    rfl
  · rw [foldl_displayItem_count]
    simp

theorem specDisplayCount_of_shown (items : List Line) (hs : Shown items) (hq : PosQty items) :
    specDisplayCount items = quantitySum items := by
  have hall : ∀ l ∈ items, specCounted l = true := by
    intro l hl
    obtain ⟨q, hq1, hlq⟩ := hq l hl
    rw [specCounted_eq, hs l hl, hlq, parseInt_int]
    simpa using (by omega : 0 < q)
  unfold specDisplayCount quantitySum
  rw [List.filter_eq_self.2 hall]

theorem displaySkips_setQuantity (l : Line) (q : Int) (h : displaySkips l = false) :
    displaySkips (l.setQuantity q) = false := by
  simp only [displaySkips, Bool.or_eq_false_iff] at h ⊢
  obtain ⟨⟨⟨⟨⟨h1, h2⟩, h3⟩, h4⟩, h5⟩, _⟩ := h
  exact ⟨⟨⟨⟨⟨h1, h2⟩, h3⟩, h4⟩, h5⟩, rfl⟩

theorem displaySkips_newLine (productId productName price productImage quantity size : JSVal)
    (nc : String) (now : Int) (hm : missingData productId productName price = false) :
    displaySkips (newLine productId productName price productImage quantity size nc now) =
      false := by
  simp only [missingData, Bool.or_eq_false_iff] at hm
  obtain ⟨⟨⟨⟨h1, h2⟩, h3⟩, _⟩, _⟩ := hm
  have hp : productId.isUndefined = false := by
    cases productId <;> simp_all [JSVal.truthy, JSVal.isUndefined]
  have hprice : (JSVal.ofNum (cleanPrice price)).isUndefined = false ∧
      (JSVal.ofNum (cleanPrice price)).isNull = false := by
    cases cleanPrice price <;> exact ⟨rfl, rfl⟩
  simp only [displaySkips, newLine, hp, h2, h3, hprice.1, hprice.2, Bool.or_false]
  rfl

theorem shown_split {pre post : List Line} {l : Line} (h : Shown (pre ++ l :: post)) :
    Shown (pre ++ post) ∧ displaySkips l = false := by
  refine ⟨?_, h l (by simp)⟩
  intro x hx
  apply h x
  rcases List.mem_append.1 hx with hx | hx
  · exact List.mem_append_left _ hx
  · exact List.mem_append_right _ (List.mem_cons_of_mem _ hx)

theorem shown_insert {pre post : List Line} {l : Line} (h : Shown (pre ++ post))
    (hl : displaySkips l = false) : Shown (pre ++ l :: post) := by
  intro x hx
  rcases List.mem_append.1 hx with hx | hx
  · exact h x (List.mem_append_left _ hx)
  · rcases List.mem_cons.1 hx with rfl | hx
    · exact hl
    · exact h x (List.mem_append_right _ hx)

theorem shown_step (s : State) (op : Op) (h : Shown s.cartItems) :
    Shown (step s op).cartItems := by
  cases op with
  | add productId productName price productImage quantity color size now =>
    rcases executeAddToCart_cases s productId productName price productImage quantity color
      size now with ⟨_, h1⟩ | ⟨_, _, h1⟩ | ⟨nc, pre, l, post, _, _, hxs, _, _, h1⟩ |
      ⟨nc, hm, _, _, h1⟩
    · rw [step, h1]; exact h
    · rw [step, h1]; exact h
    · rw [step, h1]
      rw [hxs] at h
      exact shown_insert (shown_split h).1 (displaySkips_setQuantity l _ (shown_split h).2)
    · rw [step, h1]
      intro x hx
      rcases List.mem_append.1 hx with hx | hx
      · exact h x hx
      · rw [List.mem_singleton] at hx
        rw [hx]
        exact displaySkips_newLine _ _ _ _ _ _ _ _ hm
  | update cartItemId action =>
    rcases findIndex_cases (hasId cartItemId) s.cartItems with
      hno | ⟨pre, l, post, hxs, hpre, hl⟩
    · rw [step, updateCartItemQuantity_absent s _ _ hno]; exact h
    · rw [step, updateCartItemQuantity_found s _ _ pre post l hxs hpre hl]
      show Shown (if _ then _ else _)
      rw [hxs] at h
      split
      · exact (shown_split h).1
      · exact shown_insert (shown_split h).1 (displaySkips_setQuantity l _ (shown_split h).2)
  | remove cartItemId =>
    rcases findIndex_cases (hasId cartItemId) s.cartItems with
      hno | ⟨pre, l, post, hxs, hpre, hl⟩
    · rw [step, removeFromCart_absent s _ hno]; exact h
    · rw [step, removeFromCart_found s _ pre post l hxs hpre hl]
      rw [hxs] at h
      exact (shown_split h).1

/-! ## The summary total against the order total -/

theorem mem_of_lookup {α : Type} (k : String) (v : α) :
    ∀ xs : List (String × α), xs.lookup k = some v → ∃ k', (k', v) ∈ xs := by
  intro xs
  induction xs with
  | nil => intro h; simp at h
  | cons x xs ih =>
    intro h
    obtain ⟨k0, v0⟩ := x
    rw [List.lookup_cons] at h
    by_cases hk : (k == k0) = true
    · simp only [hk] at h
      cases h
      exact ⟨k0, List.mem_cons_self _ _⟩
    · simp only [hk] at h
      obtain ⟨k', hk'⟩ := ih h
      exact ⟨k', List.mem_cons_of_mem _ hk'⟩

/-- Every catalog price reads the same through the stripping and guard of
`displayCartItems` and through the plain `parseFloat` of the checkout. -/
theorem catalog_prices_read_alike :
    ∀ e ∈ products,
      guardedPrice (parseFloatChars (e.2.price.toStr.toList.filter isPriceChar)) =
        parseFloat e.2.price := by
  decide

theorem displayItem_in_catalog (acc : Int × Num) (l : Line) (q : Int) (p : ProductInfo)
    (hs : displaySkips l = false) (hq : parseInt l.quantity = some q) (hpos : 0 < q)
    (hp : products.lookup l.productId.toStr = some p) :
    displayItem acc l = (acc.1 + q, addLineAmount acc.2 l) := by
  have hat : productsAt l.productId = some p := by simp [productsAt, hp]
  obtain ⟨k, hk⟩ := mem_of_lookup _ _ _ hp
  have hprice := catalog_prices_read_alike (k, p) hk
  have hd : displayItemPrice l = parseFloat p.price := by
    simp only [displayItemPrice, hat]
    exact hprice
  have hneg : ¬ q ≤ 0 := by omega
  unfold displayItem addLineAmount
  simp [hs, hq, hat, hd, Num.ofParsed, hneg]

theorem foldl_displayItem_in_catalog (items : List Line) (acc : Int × Num)
    (h : ∀ l ∈ items, displaySkips l = false ∧
      (∃ q, parseInt l.quantity = some q ∧ 0 < q) ∧
      ∃ p, products.lookup l.productId.toStr = some p) :
    (items.foldl displayItem acc).2 = items.foldl addLineAmount acc.2 := by
  induction items generalizing acc with
  | nil => rfl
  | cons l ls ih =>
    obtain ⟨hs, ⟨q, hq, hpos⟩, p, hp⟩ := h l (List.mem_cons_self _ _)
    rw [List.foldl_cons, List.foldl_cons, displayItem_in_catalog acc l q p hs hq hpos hp]
    exact ih _ (fun x hx => h x (List.mem_cons_of_mem _ hx))

/-! ## The round trip through storage -/

theorem jsonField_ne_undefined (v : JSVal) (h : v ≠ .undefined) : jsonField v ≠ .undefined := by
  cases v <;> simp_all [jsonField]

theorem jsonField_idem (v : JSVal) : jsonField (jsonField v) = jsonField v := by
  cases v <;> rfl

theorem toJSON_idem (l : Line) : l.toJSON.toJSON = l.toJSON := by
  simp [Line.toJSON, jsonField_idem]

theorem BuiltLine.toJSON {l : Line} (h : BuiltLine l) : BuiltLine l.toJSON := by
  obtain ⟨h1, h2, h3, q, hq, hlq⟩ := h
  exact ⟨jsonField_ne_undefined _ h1, jsonField_ne_undefined _ h2, jsonField_ne_undefined _ h3,
    q, hq, by simp [Line.toJSON, hlq, JSVal.int, jsonField]⟩

theorem BuiltLine.wellFormed {l : Line} (h : BuiltLine l) :
    (Entry.object l).wellFormed = true := by
  obtain ⟨h1, h2, h3, q, hq, hlq⟩ := h
  have h4 : JSVal.int q ≠ .undefined := by simp [JSVal.int]
  simp [Entry.wellFormed, h1, h2, h3, h4, hlq, parseInt_int]

theorem quantitySum_toJSON (items : List Line) (h : ∀ l ∈ items, BuiltLine l) :
    quantitySum (items.map Line.toJSON) = quantitySum items := by
  induction items with
  | nil => rfl
  | cons l ls ih =>
    obtain ⟨_, _, _, q, hq, hlq⟩ := h l (List.mem_cons_self _ _)
    have hj : l.toJSON.quantity = l.quantity := by
      simp [Line.toJSON, hlq, JSVal.int, jsonField]
    rw [List.map_cons, quantitySum_cons, quantitySum_cons, hj,
      ih (fun x hx => h x (List.mem_cons_of_mem _ hx))]

/-- Loading a serialized cart of built lines: the lines come back in their
JSON form and the count is recomputed from them. -/
theorem reload_built (s : State) (h : ∀ l ∈ s.cartItems, BuiltLine l) :
    (reload s).cartItems = s.cartItems.map Line.toJSON ∧
    (reload s).cartCount = quantitySum s.cartItems ∧
    (reload s).storage.cartItems =
      some (.array (s.cartItems.map fun l => Entry.object l.toJSON)) ∧
    (reload s).storage.cartCount = some (String.mk (intText (quantitySum s.cartItems))) ∧
    (reload s).storage.userOrders = s.storage.userOrders := by
  have hstored : (State.init (persistCart s.storage s.cartItems s.cartCount)).storage.cartItems =
      some (.array (s.cartItems.map fun l => Entry.object l.toJSON)) := rfl
  have hall : ∀ e ∈ (s.cartItems.map fun l => Entry.object l.toJSON),
      Entry.wellFormed e = true := by
    intro e he
    obtain ⟨l, hl, rfl⟩ := List.mem_map.1 he
    exact (h l hl).toJSON.wellFormed
  have hlines : ((s.cartItems.map fun l => Entry.object l.toJSON).filter
      Entry.wellFormed).filterMap Entry.line? = s.cartItems.map Line.toJSON := by
    rw [List.filter_eq_self.2 hall, List.filterMap_map]
    simp only [Function.comp_def, Entry.line?]
    exact congrFun (List.filterMap_eq_map Line.toJSON) s.cartItems
  have hno : ∀ e ∈ (s.cartItems.map fun l => Entry.object l.toJSON), Entry.raises e = false := by
    intro e he
    obtain ⟨l, -, rfl⟩ := List.mem_map.1 he
    rfl
  unfold reload
  rw [initCart_array _ _ hstored hno, hlines, countOf_eq_quantitySum, quantitySum_toJSON _ h]
  exact ⟨rfl, rfl, rfl, rfl, rfl⟩

/-- Serializing a cart of built lines, loading it and serializing again
gives the stored values of the first serialization. -/
theorem reserialize_built (s : State) (h : ∀ l ∈ s.cartItems, BuiltLine l)
    (hcount : s.cartCount = quantitySum s.cartItems) :
    persistCart (reload s).storage (reload s).cartItems (reload s).cartCount =
      persistCart s.storage s.cartItems s.cartCount := by
  obtain ⟨h1, h2, _, _, h5⟩ := reload_built s h
  have hmap : (s.cartItems.map Line.toJSON).map (fun l => Entry.object l.toJSON) =
      s.cartItems.map fun l => Entry.object l.toJSON := by
    rw [List.map_map]
    apply List.map_congr_left
    intro l _
    simp [toJSON_idem]
  simp only [persistCart, h1, h2, h5, hmap, hcount]

theorem jsonField_of_jsonExact (v : JSVal) (h : v.jsonExact = true) : jsonField v = v := by
  cases v <;> first | rfl | (simp [JSVal.jsonExact] at h)

theorem toJSON_of_jsonExact (l : Line) (h : l.jsonExact = true) : l.toJSON = l := by
  simp only [Line.jsonExact, Bool.and_eq_true] at h
  obtain ⟨⟨⟨⟨⟨⟨⟨⟨h1, h2⟩, h3⟩, h4⟩, h5⟩, h6⟩, h7⟩, h8⟩, h9⟩ := h
  simp only [Line.toJSON, jsonField_of_jsonExact _ h1, jsonField_of_jsonExact _ h2,
    jsonField_of_jsonExact _ h3, jsonField_of_jsonExact _ h4, jsonField_of_jsonExact _ h5,
    jsonField_of_jsonExact _ h6, jsonField_of_jsonExact _ h7, jsonField_of_jsonExact _ h8,
    jsonField_of_jsonExact _ h9]

/-! ## Prices: `replace`, `trim` and `parseFloat` on a decimal numeral -/

theorem removeFirst_absent (c : Char) :
    ∀ t : List Char, c ∉ t → removeFirst [c] t = t := by
  intro t
  induction t with
  | nil => intro _; rfl
  | cons a as ih =>
    intro h
    have ha : ¬ c = a := fun e => h (by simp [e])
    have has : c ∉ as := fun e => h (List.mem_cons_of_mem _ e)
    simp [removeFirst, List.isPrefixOf, ha, ih has]

theorem removeFirst_single (c : Char) (v : List Char) :
    ∀ u : List Char, c ∉ u → removeFirst [c] (u ++ c :: v) = u ++ v := by
  intro u
  induction u with
  | nil => intro _; simp [removeFirst, List.isPrefixOf]
  | cons a as ih =>
    intro h
    have ha : ¬ c = a := fun e => h (by simp [e])
    have has : c ∉ as := fun e => h (List.mem_cons_of_mem _ e)
    simp [removeFirst, List.isPrefixOf, ha, ih has]

theorem removeFirst_no_head (c : Char) (pat : List Char) :
    ∀ t : List Char, c ∉ t → removeFirst (c :: pat) t = t := by
  intro t
  induction t with
  | nil => intro _; rfl
  | cons a as ih =>
    intro h
    have ha : ¬ c = a := fun e => h (by simp [e])
    have has : c ∉ as := fun e => h (List.mem_cons_of_mem _ e)
    simp [removeFirst, List.isPrefixOf, ha, ih has]

theorem removeFirst_inserted (c : Char) (pat y : List Char) :
    ∀ x : List Char, c ∉ x → removeFirst (c :: pat) (x ++ (c :: pat) ++ y) = x ++ y := by
  intro x
  induction x with
  | nil =>
    intro _
    cases hp : pat with
    | nil => simp [removeFirst, List.isPrefixOf]
    | cons p ps =>
      have : (c :: p :: ps).isPrefixOf (c :: p :: ps ++ y) = true := by
        rw [List.isPrefixOf_iff_prefix]
        exact ⟨y, by simp⟩
      simp [removeFirst, this]
  | cons a as ih =>
    intro h
    have ha : ¬ c = a := fun e => h (by simp [e])
    have has : c ∉ as := fun e => h (List.mem_cons_of_mem _ e)
    have ih' := ih has
    simp only [List.cons_append, List.append_assoc] at ih' ⊢
    simp [removeFirst, List.isPrefixOf, ha, ih']

theorem digitChar_facts2 (d : Nat) (h : d < 10) :
    digitChar d ≠ '$' ∧ digitChar d ≠ 'P' ∧ digitChar d ≠ '.' := by
  interval_cases d <;> decide

theorem space_facts (c : Char) (h : isJSSpace c = true) : c ≠ '$' ∧ c ≠ 'P' := by
  constructor <;> intro e <;> subst e <;> revert h <;> decide

theorem dropWhile_spaces (w r : List Char) (h : ∀ c ∈ w, isJSSpace c = true) :
    List.dropWhile isJSSpace (w ++ r) = List.dropWhile isJSSpace r := by
  induction w with
  | nil => rfl
  | cons a as ih =>
    have ha := h a (List.mem_cons_self _ _)
    simp only [List.cons_append, List.dropWhile_cons, ha, if_true]
    exact ih (fun c hc => h c (List.mem_cons_of_mem _ hc))

theorem dropWhile_head (n : List Char) (h : ∀ c, n.head? = some c → isJSSpace c = false) :
    List.dropWhile isJSSpace n = n := by
  cases n with
  | nil => rfl
  | cons a as =>
    have ha := h a rfl
    simp [List.dropWhile_cons, ha]

/-- Trimming removes the white space around a text that neither starts nor
ends with white space. -/
theorem trimChars_padded (w1 n w2 : List Char)
    (h1 : ∀ c ∈ w1, isJSSpace c = true) (h2 : ∀ c ∈ w2, isJSSpace c = true)
    (hn : ∀ c ∈ n, isJSSpace c = false) (hne : n ≠ []) :
    trimChars (w1 ++ n ++ w2) = n := by
  unfold trimChars
  rw [List.append_assoc, dropWhile_spaces w1 _ h1]
  have hhead : List.dropWhile isJSSpace (n ++ w2) = n ++ w2 := by
    apply dropWhile_head
    intro c hc
    cases n with
    | nil => exact absurd rfl hne
    | cons a as =>
      simp only [List.cons_append, List.head?_cons, Option.some.injEq] at hc
      exact hn c (by simp [hc])
  rw [hhead, List.reverse_append,
    dropWhile_spaces w2.reverse _ (fun c hc => h2 c (List.mem_reverse.1 hc))]
  have hlast : List.dropWhile isJSSpace n.reverse = n.reverse := by
    apply dropWhile_head
    intro c hc
    have : c ∈ n.reverse := List.mem_of_mem_head? hc
    exact hn c (List.mem_reverse.1 this)
  rw [hlast, List.reverse_reverse]

theorem readDigits_prefix :
    ∀ (ds rest : List Char) (acc k : Nat), AllDigits ds →
      (∀ c, rest.head? = some c → digitVal 10 c = none) →
      readDigits 10 (ds ++ rest) acc k = (digitsValue acc ds, k + ds.length, rest) := by
  intro ds
  induction ds with
  | nil =>
    intro rest acc k _ hrest
    cases rest with
    | nil => simp [readDigits, digitsValue]
    | cons c r =>
      have hc := hrest c rfl
      simp [readDigits, digitsValue, hc]
  | cons c cs ih =>
    intro rest acc k h hrest
    obtain ⟨d, hd, rfl⟩ := h c (List.mem_cons_self _ _)
    have hv := (digitChar_facts d hd).1
    have hn : (digitChar d).toNat - 48 = d := by
      interval_cases d <;> decide
    rw [List.cons_append, readDigits, hv]
    simp only
    rw [ih rest _ _ (fun x hx => h x (List.mem_cons_of_mem _ hx)) hrest]
    simp [digitsValue, hn]
    omega

theorem digitsValue_append (acc : Nat) (xs ys : List Char) :
    digitsValue acc (xs ++ ys) = digitsValue (digitsValue acc xs) ys := by
  simp [digitsValue, List.foldl_append]

theorem allDigits_head {ds : List Char} (h : AllDigits ds) (hne : ds ≠ []) :
    ∃ c cs, ds = c :: cs ∧ isJSSpace c = false ∧ c ≠ '-' ∧ c ≠ '+' := by
  cases ds with
  | nil => exact absurd rfl hne
  | cons c cs =>
    obtain ⟨d, hd, rfl⟩ := h c (List.mem_cons_self _ _)
    obtain ⟨_, h1, h2, h3, _, _⟩ := digitChar_facts d hd
    exact ⟨_, cs, rfl, h1, h2, h3⟩

/-- The function `parseFloat` gives a decimal numeral its value. -/
theorem parseFloatChars_numeral (ip fp : List Char) (hip : AllDigits ip) (hfp : AllDigits fp)
    (hne : ip ≠ []) : parseFloatChars (numeralText ip fp) = some (numeralValue ip fp) := by
  obtain ⟨c, cs, hcs, hsp, hm, hp⟩ := allDigits_head hip hne
  have hlen : ip.length ≠ 0 := fun h => hne (List.length_eq_zero.1 h)
  have hdot : digitVal 10 '.' = none := by decide
  by_cases hf : fp = []
  · subst hf
    have htext : numeralText ip [] = ip := by simp [numeralText]
    have hread := readDigits_prefix ip [] 0 0 hip (by intro c hc; cases hc)
    rw [List.append_nil] at hread
    rw [htext]
    unfold parseFloatChars
    have hdrop : List.dropWhile isJSSpace ip = ip := by
      rw [hcs]; simp [List.dropWhile_cons, hsp]
    have hsign : readSign ip = (false, ip) := by
      rw [hcs]; exact readSign_digit c cs hm hp
    rw [hdrop, hsign]
    simp only [hread]
    simp [hlen, readExponent, numeralValue]
  · have htext : numeralText ip fp = ip ++ '.' :: fp := by simp [numeralText, hf]
    have hread := readDigits_prefix ip ('.' :: fp) 0 0 hip
      (by intro c hc; simp only [List.head?_cons, Option.some.injEq] at hc; rw [← hc]; exact hdot)
    have hread2 := readDigits_prefix fp [] (digitsValue 0 ip) 0 hfp (by intro c hc; cases hc)
    rw [List.append_nil] at hread2
    rw [htext]
    unfold parseFloatChars
    have hdrop : List.dropWhile isJSSpace (ip ++ '.' :: fp) = ip ++ '.' :: fp := by
      rw [hcs]; simp [List.dropWhile_cons, hsp]
    have hsign : readSign (ip ++ '.' :: fp) = (false, ip ++ '.' :: fp) := by
      rw [hcs]; exact readSign_digit c _ hm hp
    rw [hdrop, hsign]
    simp only [hread, hread2]
    simp [hlen, readExponent, numeralValue, digitsValue_append]

theorem numeralText_chars (ip fp : List Char) (hip : AllDigits ip) (hfp : AllDigits fp) :
    ∀ c ∈ numeralText ip fp, isJSSpace c = false ∧ c ≠ '$' ∧ c ≠ 'P' := by
  have hdig : ∀ ds, AllDigits ds → ∀ c ∈ ds, isJSSpace c = false ∧ c ≠ '$' ∧ c ≠ 'P' := by
    intro ds hds c hc
    obtain ⟨d, hd, rfl⟩ := hds c hc
    exact ⟨(digitChar_facts d hd).2.1, (digitChar_facts2 d hd).1, (digitChar_facts2 d hd).2.1⟩
  intro c hc
  unfold numeralText at hc
  split at hc
  · exact hdig ip hip c hc
  · rcases List.mem_append.1 hc with hc | hc
    · exact hdig ip hip c hc
    · rcases List.mem_cons.1 hc with rfl | hc
      · exact ⟨by decide, by decide, by decide⟩
      · exact hdig fp hfp c hc

/-- The price `executeAddToCart` computes from a decimal numeral padded with
white space, with at most one `$` and at most one `PHP` put in anywhere. -/
theorem cleanPrice_numeral (ip fp w1 w2 t1 t : List Char)
    (hip : AllDigits ip) (hfp : AllDigits fp) (hne : ip ≠ [])
    (h1 : ∀ c ∈ w1, isJSSpace c = true) (h2 : ∀ c ∈ w2, isJSSpace c = true)
    (hphp : WithSymbol "PHP".toList (w1 ++ numeralText ip fp ++ w2) t1)
    (hdollar : WithSymbol "$".toList t1 t) :
    cleanPrice (.str (String.mk t)) = some (numeralValue ip fp) := by
  have hn := numeralText_chars ip fp hip hfp
  have hbase : ∀ c ∈ w1 ++ numeralText ip fp ++ w2, c ≠ '$' ∧ c ≠ 'P' := by
    intro c hc
    rcases List.mem_append.1 hc with hc | hc
    · rcases List.mem_append.1 hc with hc | hc
      · exact space_facts c (h1 c hc)
      · exact (hn c hc).2
    · exact space_facts c (h2 c hc)
  have hd1 : ("$".toList : List Char) = ['$'] := rfl
  have hp1 : ("PHP".toList : List Char) = 'P' :: ['H', 'P'] := rfl
  have ht1 : ∀ c ∈ t1, c ≠ '$' := by
    intro c hc
    rcases hphp with rfl | ⟨x, y, hxy, rfl⟩
    · exact (hbase c hc).1
    · rcases List.mem_append.1 hc with hc | hc
      · rcases List.mem_append.1 hc with hc | hc
        · exact (hbase c (by rw [← hxy]; exact List.mem_append_left _ hc)).1
        · rw [hp1] at hc
          intro e
          subst e
          revert hc
          decide
      · exact (hbase c (by rw [← hxy]; exact List.mem_append_right _ hc)).1
  have hstep1 : removeFirst "$".toList t = t1 := by
    rw [hd1]
    rcases hdollar with rfl | ⟨u, v, huv, rfl⟩
    · exact removeFirst_absent '$' _ (fun hc => ht1 '$' hc rfl)
    · rw [hd1, List.append_assoc, List.singleton_append,
        removeFirst_single '$' v u
          (fun hc => ht1 '$' (by rw [← huv]; exact List.mem_append_left _ hc) rfl)]
      exact huv
  have hstep2 : removeFirst "PHP".toList t1 = w1 ++ numeralText ip fp ++ w2 := by
    rw [hp1]
    rcases hphp with rfl | ⟨x, y, hxy, rfl⟩
    · exact removeFirst_no_head 'P' _ _ (fun hc => (hbase 'P' hc).2 rfl)
    · rw [hp1, removeFirst_inserted 'P' ['H', 'P'] y x
        (fun hc => (hbase 'P' (by rw [← hxy]; exact List.mem_append_left _ hc)).2 rfl)]
      exact hxy
  have hne' : numeralText ip fp ≠ [] := by
    unfold numeralText
    split
    · exact hne
    · simp
  show parseFloatChars (trimChars (removeFirst "PHP".toList
    (removeFirst "$".toList (String.mk t).toList))) = _
  rw [show (String.mk t).toList = t from rfl, hstep1, hstep2,
    trimChars_padded w1 _ w2 h1 h2 (fun c hc => (hn c hc).1) hne',
    parseFloatChars_numeral ip fp hip hfp hne]

/-! ## The email test -/

theorem plusThen_iff (p : Char → Bool) (k : List Char → Bool) (cs : List Char) :
    plusThen p k cs = true ↔
      ∃ a r, cs = a ++ r ∧ a ≠ [] ∧ (∀ c ∈ a, p c = true) ∧ k r = true := by
  induction cs with
  | nil =>
    constructor
    · intro h; simp [plusThen] at h
    · rintro ⟨a, r, h, hne, -, -⟩
      have := List.append_eq_nil.mp h.symm
      exact absurd this.1 hne
  | cons c cs ih =>
    constructor
    · intro h
      simp only [plusThen, Bool.and_eq_true, Bool.or_eq_true] at h
      obtain ⟨hc, h | h⟩ := h
      · obtain ⟨a, r, e, -, ha, hk⟩ := ih.mp h
        refine ⟨c :: a, r, by simp [e], by simp, ?_, hk⟩
        intro x hx
        rcases List.mem_cons.mp hx with rfl | hx
        · exact hc
        · exact ha x hx
      · exact ⟨[c], cs, rfl, by simp, by simpa using hc, h⟩
    · rintro ⟨a, r, e, hne, ha, hk⟩
      cases a with
      | nil => exact absurd rfl hne
      | cons x a =>
        simp only [List.cons_append, List.cons.injEq] at e
        obtain ⟨rfl, rfl⟩ := e
        simp only [plusThen, Bool.and_eq_true, Bool.or_eq_true]
        refine ⟨ha c (List.mem_cons_self _ _), ?_⟩
        cases a with
        | nil => right; simpa using hk
        | cons y a =>
          left
          exact ih.mpr ⟨y :: a, r, rfl, by simp,
            fun z hz => ha z (List.mem_cons_of_mem _ hz), hk⟩

theorem litThen_iff (c : Char) (k : List Char → Bool) (cs : List Char) :
    litThen c k cs = true ↔ ∃ r, cs = c :: r ∧ k r = true := by
  cases cs with
  | nil => simp [litThen]
  | cons x xs =>
    simp only [litThen, Bool.and_eq_true, beq_iff_eq, List.cons.injEq]
    constructor
    · rintro ⟨rfl, h⟩; exact ⟨xs, ⟨rfl, rfl⟩, h⟩
    · rintro ⟨r, ⟨rfl, rfl⟩, h⟩; exact ⟨rfl, h⟩

theorem atEnd_iff (cs : List Char) : atEnd cs = true ↔ cs = [] := by
  cases cs <;> simp [atEnd]

theorem isEmailChar_iff (c : Char) : isEmailChar c = true ↔ isJSSpace c = false ∧ c ≠ '@' := by
  simp [isEmailChar]

/-- The regular expression accepts exactly the texts `a@b.c` with non-empty
`a`, `b`, `c` free of white space and of `@`. -/
theorem emailRegexTest_iff (cs : List Char) :
    emailRegexTest cs = true ↔
      ∃ a b c, cs = a ++ '@' :: (b ++ '.' :: c) ∧ a ≠ [] ∧ b ≠ [] ∧ c ≠ [] ∧
        (∀ x ∈ a, isEmailChar x = true) ∧ (∀ x ∈ b, isEmailChar x = true) ∧
        (∀ x ∈ c, isEmailChar x = true) := by
  unfold emailRegexTest
  constructor
  · intro h
    obtain ⟨a, r1, e1, ha, hpa, h⟩ := (plusThen_iff _ _ _).mp h
    obtain ⟨r2, e2, h⟩ := (litThen_iff _ _ _).mp h
    obtain ⟨b, r3, e3, hb, hpb, h⟩ := (plusThen_iff _ _ _).mp h
    obtain ⟨r4, e4, h⟩ := (litThen_iff _ _ _).mp h
    obtain ⟨c, r5, e5, hc, hpc, h⟩ := (plusThen_iff _ _ _).mp h
    have e6 := (atEnd_iff _).mp h
    subst e6 e5 e4 e3 e2 e1
    exact ⟨a, b, c, by simp, ha, hb, hc, hpa, hpb, hpc⟩
  · rintro ⟨a, b, c, e, ha, hb, hc, hpa, hpb, hpc⟩
    refine (plusThen_iff _ _ _).mpr ⟨a, _, e, ha, hpa, ?_⟩
    refine (litThen_iff _ _ _).mpr ⟨_, rfl, ?_⟩
    refine (plusThen_iff _ _ _).mpr ⟨b, _, rfl, hb, hpb, ?_⟩
    refine (litThen_iff _ _ _).mpr ⟨_, rfl, ?_⟩
    refine (plusThen_iff _ _ _).mpr ⟨c, [], by simp, hc, hpc, ?_⟩
    rfl

theorem emailRegexTest_iff_shape (cs : List Char) :
    emailRegexTest cs = true ↔ EmailShape cs := by
  rw [emailRegexTest_iff]
  constructor
  · rintro ⟨a, b, c, e, ha, hb, hc, hpa, hpb, hpc⟩
    have na : ∀ x ∈ a, isJSSpace x = false ∧ x ≠ '@' :=
      fun x hx => (isEmailChar_iff x).mp (hpa x hx)
    have nb : ∀ x ∈ b, isJSSpace x = false ∧ x ≠ '@' :=
      fun x hx => (isEmailChar_iff x).mp (hpb x hx)
    have nc : ∀ x ∈ c, isJSSpace x = false ∧ x ≠ '@' :=
      fun x hx => (isEmailChar_iff x).mp (hpc x hx)
    have ca : a.count '@' = 0 := List.count_eq_zero.mpr (fun h => (na _ h).2 rfl)
    have cb : b.count '@' = 0 := List.count_eq_zero.mpr (fun h => (nb _ h).2 rfl)
    have cc : c.count '@' = 0 := List.count_eq_zero.mpr (fun h => (nc _ h).2 rfl)
    subst e
    refine ⟨?_, ?_, a, b ++ '.' :: c, rfl, ha, b, c, rfl, hb, hc⟩
    · intro x hx
      simp only [List.mem_append, List.mem_cons] at hx
      rcases hx with hx | rfl | hx | rfl | hx
      · exact (na x hx).1
      · decide
      · exact (nb x hx).1
      · decide
      · exact (nc x hx).1
    · have h1 : List.count '@' ('.' :: c) = 0 := by
        rw [List.count_cons_of_ne (by decide)]; exact cc
      rw [List.count_append, List.count_cons_self, List.count_append, ca, cb, h1]
  · rintro ⟨hs, hcount, a, d, e, ha, b, c, e2, hb, hc⟩
    subst e2 e
    rw [List.count_append, List.count_cons_self] at hcount
    have ca : a.count '@' = 0 := by omega
    have cd : (b ++ '.' :: c).count '@' = 0 := by omega
    have ma : '@' ∉ a := List.count_eq_zero.mp ca
    have md : '@' ∉ b ++ '.' :: c := List.count_eq_zero.mp cd
    refine ⟨a, b, c, rfl, ha, hb, hc, ?_, ?_, ?_⟩
    · intro x hx
      refine (isEmailChar_iff x).mpr ⟨hs x (by simp [hx]), ?_⟩
      rintro rfl; exact ma hx
    · intro x hx
      refine (isEmailChar_iff x).mpr ⟨hs x (by simp [hx]), ?_⟩
      rintro rfl; exact md (by simp [hx])
    · intro x hx
      refine (isEmailChar_iff x).mpr ⟨hs x (by simp [hx]), ?_⟩
      rintro rfl; exact md (by simp [hx])

theorem validateContactForm_errors (stored : Option (Stored (LogEntry ContactMessage)))
    (nameValue emailValue messageValue isoDate : String) :
    (validateContactForm stored nameValue emailValue messageValue isoDate).errors =
      contactErrors (jsTrim nameValue) (jsTrim emailValue) (jsTrim messageValue) := by
  unfold validateContactForm
  simp only []
  split
  · rfl
  · rename_i h
    have h0 : contactErrors (jsTrim nameValue) (jsTrim emailValue) (jsTrim messageValue) = [] := by
      cases hc : contactErrors (jsTrim nameValue) (jsTrim emailValue) (jsTrim messageValue) with
      | nil => rfl
      | cons x xs => rw [hc] at h; simp at h
    rw [h0]
    unfold appendToLog
    split <;> rfl

theorem mem_contactErrors (name email message : String) :
    "Please enter a valid email address" ∈ contactErrors name email message ↔
      email ≠ "" ∧ emailRegexTest email.toList = false := by
  unfold contactErrors
  have h1 : ¬ "Please enter a valid email address" = "Name is required" := by decide
  have h2 : ¬ "Please enter a valid email address" = "Email is required" := by decide
  have h3 : ¬ "Please enter a valid email address" = "Message is required" := by decide
  by_cases hn : name = "" <;> by_cases he : email = "" <;> by_cases hm : message = "" <;>
    by_cases hr : emailRegexTest email.toList = false <;> simp [hn, he, hm, hr, h1, h2, h3]

theorem contactErrors_nil (name email message : String) (hn : name ≠ "")
    (he : emailRegexTest email.toList = true) (hm : message ≠ "") :
    contactErrors name email message = [] := by
  have he0 : email ≠ "" := by
    rintro rfl
    revert he
    decide
  have he1 : ¬ emailRegexTest email.toList = false := by rw [he]; decide
  unfold contactErrors
  rw [if_neg hn, if_neg he0, if_neg hm, if_neg (fun h => he1 h.2)]
  rfl

/-! ## The two `rgb` formats -/

theorem digitChar_facts3 (d : Nat) (h : d < 10) :
    (digitChar d).isDigit = true ∧ isJSSpace (digitChar d) = false ∧ digitChar d ≠ ',' := by
  interval_cases d <;> decide

theorem allDigits_facts (cs : List Char) (h : AllDigits cs) :
    ∀ c ∈ cs, c.isDigit = true ∧ isJSSpace c = false ∧ c ≠ ',' := by
  intro c hc
  obtain ⟨d, hd, rfl⟩ := h c hc
  exact digitChar_facts3 d hd

theorem rxDigits_stop {α : Type} (k : List Char → List Char → Option α)
    (acc rest : List Char) (h : ∀ c, rest.head? = some c → c.isDigit = false) :
    rxDigits k acc rest = none := by
  cases rest with
  | nil => rfl
  | cons c cs =>
    have hc := h c rfl
    simp [rxDigits, hc]

theorem rxDigits_run {α : Type} (k : List Char → List Char → Option α) (v : α)
    (rest : List Char) (hrest : ∀ c, rest.head? = some c → c.isDigit = false) :
    ∀ (r acc : List Char), r ≠ [] → (∀ c ∈ r, c.isDigit = true) →
      k (acc ++ r) rest = some v → rxDigits k acc (r ++ rest) = some v := by
  intro r
  induction r with
  | nil => intro acc h; exact absurd rfl h
  | cons c r ih =>
    intro acc _ hd hk
    have hc := hd c (List.mem_cons_self _ _)
    have hstep : rxDigits k acc (c :: r ++ rest) =
        firstOf (rxDigits k (acc ++ [c]) (r ++ rest)) (k (acc ++ [c]) (r ++ rest)) := by
      show rxDigits k acc (c :: (r ++ rest)) = _
      rw [rxDigits, if_pos hc]
    rw [hstep]
    cases r with
    | nil =>
      rw [List.nil_append, rxDigits_stop k _ rest hrest]
      exact hk
    | cons c2 r2 =>
      have h2 := ih (acc ++ [c]) (by simp) (fun x hx => hd x (List.mem_cons_of_mem _ hx))
        (by simpa using hk)
      rw [h2]
      rfl

theorem rxSpaces_head {α : Type} (k : List Char → Option α) (c : Char) (cs : List Char)
    (hc : isJSSpace c = false) : rxSpaces k (c :: cs) = k (c :: cs) := by
  simp [rxSpaces, hc]

theorem rxSeparator {α : Type} (k : List Char → Option α) (v : α) (c : Char)
    (cs : List Char) (hc : isJSSpace c = false) (hk : k (c :: cs) = some v) :
    rxOptComma (rxSpaces k) (',' :: c :: cs) = some v ∧
    rxOptComma (rxSpaces k) (',' :: ' ' :: c :: cs) = some v := by
  have h1 : rxSpaces k (c :: cs) = some v := by rw [rxSpaces_head k c cs hc]; exact hk
  have h2 : rxSpaces k (' ' :: c :: cs) = some v := by
    have hs : isJSSpace ' ' = true := by decide
    simp only [rxSpaces, hs, if_true, hc]
    simp only [rxSpaces, hc] at h1
    rw [h1]
    rfl
  constructor
  · simp only [rxOptComma, h1]; rfl
  · simp only [rxOptComma, h2]; rfl

theorem head_of_digits (b rest : List Char) (hb : b ≠ []) (hd : AllDigits b) :
    ∃ c cs, b ++ rest = c :: cs ∧ isJSSpace c = false := by
  cases b with
  | nil => exact absurd rfl hb
  | cons c b =>
    exact ⟨c, b ++ rest, rfl, (allDigits_facts _ hd c (List.mem_cons_self _ _)).2.1⟩

/-- On a text `rgb(r<sep>g<sep>b)` with a comma or a comma and a blank between
the numbers, the regular expression matches at the head with the groups `r`,
`g` and `b`. -/
theorem rgbMatchAt_format (r g b sep : List Char) (hr : r ≠ []) (hg : g ≠ []) (hb : b ≠ [])
    (dr : AllDigits r) (dg : AllDigits g) (db : AllDigits b)
    (hsep : sep = [','] ∨ sep = [',', ' ']) :
    rgbMatchAt (rgbFormat sep r g b) = some (r, g, b) := by
  have notDigit : ∀ (t : List Char) (c : Char), (sep ++ t).head? = some c → c.isDigit = false := by
    intro t c h
    rcases hsep with rfl | rfl <;> simp at h <;> subst h <;> decide
  have stepB : ∀ r1 g1 : List Char,
      rxDigits (fun b1 cs6 => rxLit [')'] (fun _ => some (r1, g1, b1)) cs6) [] (b ++ [')']) =
        some (r1, g1, b) := by
    intro r1 g1
    refine rxDigits_run _ _ [')'] ?_ b [] hb (fun c hc => (allDigits_facts _ db c hc).1) ?_
    · intro c h
      simp at h
      subst h
      decide
    · simp [rxLit]
  have sepStep : ∀ {α : Type} (k : List Char → Option α) (v : α) (t : List Char)
      (d : List Char), d ≠ [] → AllDigits d → k (d ++ t) = some v →
      rxOptComma (rxSpaces k) (sep ++ (d ++ t)) = some v := by
    intro α k v t d hd0 hd hk
    obtain ⟨c, cs, e, hc⟩ := head_of_digits d t hd0 hd
    rw [e] at hk ⊢
    rcases hsep with rfl | rfl
    · exact (rxSeparator k v c cs hc hk).1
    · exact (rxSeparator k v c cs hc hk).2
  have stepG : ∀ r1 : List Char,
      rxDigits (fun g1 cs4 => rxOptComma (rxSpaces (fun cs5 =>
        rxDigits (fun b1 cs6 => rxLit [')'] (fun _ => some (r1, g1, b1)) cs6) [] cs5)) cs4) []
        (g ++ (sep ++ (b ++ [')']))) = some (r1, g, b) := by
    intro r1
    refine rxDigits_run _ _ _ (notDigit _) g [] hg (fun c hc => (allDigits_facts _ dg c hc).1) ?_
    simp only [List.nil_append]
    exact sepStep _ _ [')'] b hb db (stepB r1 g)
  have stepR :
      rxDigits (fun r1 cs2 => rxOptComma (rxSpaces (fun cs3 =>
        rxDigits (fun g1 cs4 => rxOptComma (rxSpaces (fun cs5 =>
          rxDigits (fun b1 cs6 => rxLit [')'] (fun _ => some (r1, g1, b1)) cs6) [] cs5)) cs4) []
          cs3)) cs2) []
        (r ++ (sep ++ (g ++ (sep ++ (b ++ [')']))))) = some (r, g, b) := by
    refine rxDigits_run _ _ _ (notDigit _) r [] hr (fun c hc => (allDigits_facts _ dr c hc).1) ?_
    simp only [List.nil_append]
    exact sepStep _ _ _ g hg dg (stepG r)
  have e : rgbFormat sep r g b =
      'r' :: 'g' :: 'b' :: '(' :: (r ++ (sep ++ (g ++ (sep ++ (b ++ [')']))))) := by
    simp [rgbFormat]
  rw [e]
  have hl : ∀ c : Char, c ∈ ['r', 'g', 'b', '('] → c.toLower = c := by decide
  simp only [rgbMatchAt, rxLit, hl, List.mem_cons, true_or, or_true, if_true]
  exact stepR

theorem rgbMatch_format (r g b sep : List Char) (hr : r ≠ []) (hg : g ≠ []) (hb : b ≠ [])
    (dr : AllDigits r) (dg : AllDigits g) (db : AllDigits b)
    (hsep : sep = [','] ∨ sep = [',', ' ']) :
    rgbMatch (rgbFormat sep r g b) = some (r, g, b) := by
  have h := rgbMatchAt_format r g b sep hr hg hb dr dg db hsep
  have e : rgbFormat sep r g b =
      'r' :: 'g' :: 'b' :: '(' :: (r ++ (sep ++ (g ++ (sep ++ (b ++ [')']))))) := by
    simp [rgbFormat]
  rw [e] at h ⊢
  rw [rgbMatch, h]
  rfl

theorem lookup_mem {α : Type} (k : String) (v : α) :
    ∀ xs : List (String × α), xs.lookup k = some v → (k, v) ∈ xs := by
  intro xs
  induction xs with
  | nil => intro h; simp at h
  | cons x xs ih =>
    intro h
    obtain ⟨k1, v1⟩ := x
    by_cases e : k = k1
    · subst e
      simp [List.lookup] at h
      subst h
      exact List.mem_cons_self _ _
    · have e2 : (k == k1) = false := by simpa using e
      simp only [List.lookup, e2] at h
      exact List.mem_cons_of_mem _ (ih h)

theorem respace_append (a b : List Char) : respace (a ++ b) = respace a ++ respace b := by
  induction a with
  | nil => rfl
  | cons c a ih =>
    by_cases hc : c = ','
    · simp [respace, hc, ih]
    · simp [respace, hc, ih]

theorem respace_digits (d : List Char) (hd : AllDigits d) : respace d = d := by
  induction d with
  | nil => rfl
  | cons c d ih =>
    have hc := (allDigits_facts _ hd c (List.mem_cons_self _ _)).2.2
    have hd2 : AllDigits d := fun x hx => hd x (List.mem_cons_of_mem _ hx)
    simp [respace, hc, ih hd2]

theorem respace_format (r g b : List Char) (dr : AllDigits r) (dg : AllDigits g)
    (db : AllDigits b) : respace (rgbFormat [','] r g b) = rgbFormat [',', ' '] r g b := by
  have h1 : respace ['r', 'g', 'b', '('] = ['r', 'g', 'b', '('] := by decide
  have h2 : respace [','] = [',', ' '] := by decide
  have h3 : respace [')'] = [')'] := by decide
  unfold rgbFormat
  simp only [respace_append, respace_digits _ dr, respace_digits _ dg, respace_digits _ db,
    h1, h2, h3]

/-- Whenever the map has both forms of a key, they name the same colour. -/
theorem colorMap_spaced : ∀ e ∈ colorMap,
    colorMap.lookup (String.mk (respace e.1.toList)) = none ∨
      colorMap.lookup (String.mk (respace e.1.toList)) = some e.2 := by
  decide

theorem colorMap_values : ∀ e ∈ colorMap, e.2 ≠ "" := by decide

theorem inherited_not_rgb :
    ∀ k ∈ inheritedKeys, List.isPrefixOf ['r', 'g', 'b', '('] k.toList = false := by
  decide

theorem rgbFormat_starts (sep r g b : List Char) :
    List.isPrefixOf ['r', 'g', 'b', '('] (rgbFormat sep r g b) = true ∧
    List.isPrefixOf ['#'] (rgbFormat sep r g b) = false := by
  have e : rgbFormat sep r g b =
      'r' :: 'g' :: 'b' :: '(' :: (r ++ (sep ++ (g ++ (sep ++ (b ++ [')']))))) := by
    simp [rgbFormat]
  rw [e]
  constructor
  · simp [List.isPrefixOf]
  · simp [List.isPrefixOf]

theorem colorMapAt_format (sep r g b : List Char) :
    colorMapAt (String.mk (rgbFormat sep r g b)) =
      match colorMap.lookup (String.mk (rgbFormat sep r g b)) with
      | some name => .str name
      | none => .undefined := by
  unfold colorMapAt
  cases colorMap.lookup (String.mk (rgbFormat sep r g b)) with
  | some name => rfl
  | none =>
    have hn : String.mk (rgbFormat sep r g b) ∉ inheritedKeys := by
      intro hmem
      have h1 : List.isPrefixOf ['r', 'g', 'b', '('] (rgbFormat sep r g b) = false :=
        inherited_not_rgb _ hmem
      rw [(rgbFormat_starts sep r g b).1] at h1
      exact absurd h1 (by decide)
    simp [hn]

/-- The two forms of a key never name different colours. -/
theorem colorMapAt_formats_agree (r g b : List Char) (dr : AllDigits r) (dg : AllDigits g)
    (db : AllDigits b)
    (hu : (colorMapAt (String.mk (rgbFormat [','] r g b))).truthy = true)
    (hs : (colorMapAt (String.mk (rgbFormat [',', ' '] r g b))).truthy = true) :
    colorMapAt (String.mk (rgbFormat [','] r g b)) =
      colorMapAt (String.mk (rgbFormat [',', ' '] r g b)) := by
  rw [colorMapAt_format] at hu hs ⊢
  rw [colorMapAt_format]
  cases h1 : colorMap.lookup (String.mk (rgbFormat [','] r g b)) with
  | none => rw [h1] at hu; exact absurd hu (by decide)
  | some u =>
    cases h2 : colorMap.lookup (String.mk (rgbFormat [',', ' '] r g b)) with
    | none => rw [h2] at hs; exact absurd hs (by decide)
    | some s =>
      have hm : colorMap.lookup (String.mk (respace (rgbFormat [','] r g b))) = none ∨
          colorMap.lookup (String.mk (respace (rgbFormat [','] r g b))) = some u :=
        colorMap_spaced (String.mk (rgbFormat [','] r g b), u) (lookup_mem _ _ _ h1)
      rw [respace_format r g b dr dg db, h2] at hm
      rcases hm with hm | hm
      · exact absurd hm (by simp)
      · simp only [Option.some.injEq] at hm
        simp [hm]

/-- What `colorToDisplay` returns for a text whose normal form is
`rgb(r<sep>g<sep>b)`. -/
theorem colorToDisplay_format (x : String) (r g b sep : List Char)
    (hr : r ≠ []) (hg : g ≠ []) (hb : b ≠ [])
    (dr : AllDigits r) (dg : AllDigits g) (db : AllDigits b)
    (hsep : sep = [','] ∨ sep = [',', ' '])
    (hx : normalizedColor (.str x) = String.mk (rgbFormat sep r g b)) :
    colorToDisplay (.str x) =
      if (colorMapAt (String.mk (rgbFormat sep r g b))).truthy then
        colorMapAt (String.mk (rgbFormat sep r g b))
      else match rgbLookup (r, g, b) with
        | some name => name
        | none => .str "Custom Color" := by
  have ht : (JSVal.str x).truthy = true := by
    by_cases e : x = ""
    · subst e
      have h0 : normalizedColor (.str "") = "" := by decide
      rw [h0] at hx
      have := congrArg String.toList hx
      have hp := (rgbFormat_starts sep r g b).1
      simp only [String.toList] at this
      rw [← this] at hp
      exact absurd hp (by decide)
    · simpa [JSVal.truthy] using e
  have hp := rgbFormat_starts sep r g b
  have hm := rgbMatch_format r g b sep hr hg hb dr dg db hsep
  unfold colorToDisplay
  simp only [ht, hx]
  by_cases hA : (colorMapAt (String.mk (rgbFormat sep r g b))).truthy = true
  · simp [hA]
  · simp only [hA]
    have e1 : ("rgb(".toList : List Char) = ['r', 'g', 'b', '('] := rfl
    have e2 : ("#".toList : List Char) = ['#'] := rfl
    simp only [e1, e2, String.toList, hp.1, hp.2, hm]
    cases rgbLookup (r, g, b) <;> simp

theorem toLower_digits (d : List Char) (hd : AllDigits d) : d.map Char.toLower = d := by
  induction d with
  | nil => rfl
  | cons c d ih =>
    have hd2 : AllDigits d := fun x hx => hd x (List.mem_cons_of_mem _ hx)
    obtain ⟨n, hn, rfl⟩ := hd c (List.mem_cons_self _ _)
    have hc : (digitChar n).toLower = digitChar n := by interval_cases n <;> decide
    simp [hc, ih hd2]

theorem trimChars_bounded (c d : Char) (m : List Char) (hc : isJSSpace c = false)
    (hd : isJSSpace d = false) : trimChars (c :: (m ++ [d])) = c :: (m ++ [d]) := by
  unfold trimChars
  have h1 : List.dropWhile isJSSpace (c :: (m ++ [d])) = c :: (m ++ [d]) := by
    simp [List.dropWhile, hc]
  rw [h1]
  have h2 : (c :: (m ++ [d])).reverse = d :: (c :: m).reverse := by simp
  rw [h2]
  have h3 : List.dropWhile isJSSpace (d :: (c :: m).reverse) = d :: (c :: m).reverse := by
    simp [List.dropWhile, hd]
  rw [h3]
  simp

/-- A text `rgb(r<sep>g<sep>b)` is its own normal form. -/
theorem normalizedColor_format (r g b sep : List Char)
    (dr : AllDigits r) (dg : AllDigits g) (db : AllDigits b)
    (hsep : sep = [','] ∨ sep = [',', ' ']) :
    normalizedColor (.str (String.mk (rgbFormat sep r g b))) =
      String.mk (rgbFormat sep r g b) := by
  have hlow : (rgbFormat sep r g b).map Char.toLower = rgbFormat sep r g b := by
    have hs : sep.map Char.toLower = sep := by rcases hsep with rfl | rfl <;> decide
    have h1 : (['r', 'g', 'b', '('] : List Char).map Char.toLower = ['r', 'g', 'b', '('] := by
      decide
    have h3 : ([')'] : List Char).map Char.toLower = [')'] := by decide
    unfold rgbFormat
    simp only [List.map_append, toLower_digits _ dr, toLower_digits _ dg,
      toLower_digits _ db, hs, h1, h3]
  have e : rgbFormat sep r g b = 'r' :: (('g' :: 'b' :: '(' :: (r ++ sep ++ g ++ sep ++ b))
      ++ [')']) := by
    simp [rgbFormat]
  have htrim : trimChars (rgbFormat sep r g b) = rgbFormat sep r g b := by
    rw [e]
    exact trimChars_bounded _ _ _ (by decide) (by decide)
  show jsTrim (toLowerCase (String.mk (rgbFormat sep r g b))) = _
  unfold jsTrim toLowerCase
  show String.mk (trimChars ((rgbFormat sep r g b).map Char.toLower)) = _
  rw [hlow, htrim]

/-! ## Double precision: numbers that stay exact -/

theorem overflowThreshold_eq : overflowThreshold = 2 ^ 1024 - 2 ^ 970 := by
  norm_num [overflowThreshold]

theorem small_lt_overflowThreshold (n : Nat) (h : n < 2 ^ 53) : n < overflowThreshold := by
  have : (2 : Nat) ^ 53 ≤ overflowThreshold := by norm_num [overflowThreshold]
  omega

theorem roundNat_small (n : Nat) (h : n < 2 ^ 53) : roundNat n = n := by
  have h1 : ulpExponent 1024 n 0 = 0 := by
    show (if n / 2 ^ 0 < 2 ^ 53 then 0 else ulpExponent 1023 n (0 + 1)) = 0
    rw [if_pos (by simpa using h)]
  simp [roundNat, h1, roundToMultiple, Nat.mod_one]

theorem ofInt_small (z : Int) (h : z.natAbs < 2 ^ 53) : JSInt.ofInt z = .fin z := by
  have h1 : ¬ overflowThreshold ≤ z.natAbs := by
    have := small_lt_overflowThreshold _ h
    omega
  simp only [JSInt.ofInt, h1, if_false, roundNat_small _ h]
  congr 1
  split <;> omega

theorem ofInt_exact (z : Int) (h0 : 0 ≤ z) (h : z < 2 ^ 53) : JSInt.ofInt z = .fin z :=
  ofInt_small z (by omega)

theorem numberText_int (q : Int) (h : q.natAbs < 2 ^ 53) :
    Ieee.numberText (Dec.ofInt q) = intText q := by
  have h2 : q.natAbs < 9007199254740992 := h
  simp [Ieee.numberText, Dec.ofInt, Dec.normalize, Dec.strip, h2, intText]

theorem ieee_parseInt_int (q : Int) (h : q.natAbs < 2 ^ 53) :
    Ieee.parseInt (.int q) = .fin q := by
  simp [Ieee.parseInt, Ieee.toStr, JSVal.int, numberText_int q h, parseIntChars_intText,
    ofInt_small q h]

theorem ieee_sanitized_int (q : Int) (h0 : 0 ≤ q) (h : q < 2 ^ 53) :
    Ieee.sanitizedQuantity (.val (.int q)) = .fin q := by
  have hp := ieee_parseInt_int q (by omega)
  simp only [Ieee.sanitizedQuantity, Ieee.parseQuantity, hp, JSInt.isNaN, JSInt.isNegative]
  simp
  omega

theorem ieee_amount_int (l : Ieee.Line) (q : Int) (h0 : 0 ≤ q) (h : q < 2 ^ 53)
    (hl : l.quantity = .val (.int q)) : Ieee.amount l = q := by
  simp [Ieee.amount, hl, ieee_sanitized_int q h0 h]

theorem ieee_amount_nonneg (l : Ieee.Line) : 0 ≤ Ieee.amount l := by
  unfold Ieee.amount Ieee.sanitizedQuantity
  cases hq : Ieee.parseQuantity l.quantity with
  | nan => simp [JSInt.isNaN]
  | inf b => cases b <;> simp [JSInt.isNaN, JSInt.isNegative]
  | fin n =>
    by_cases hn : n < 0
    · simp [JSInt.isNaN, JSInt.isNegative, hn]
    · simp [JSInt.isNaN, JSInt.isNegative, hn]
      omega

theorem ieee_quantitySum_nil : Ieee.quantitySum [] = 0 := rfl

theorem ieee_quantitySum_cons (l : Ieee.Line) (ls : List Ieee.Line) :
    Ieee.quantitySum (l :: ls) = Ieee.amount l + Ieee.quantitySum ls := by
  simp [Ieee.quantitySum]

theorem ieee_quantitySum_append (xs ys : List Ieee.Line) :
    Ieee.quantitySum (xs ++ ys) = Ieee.quantitySum xs + Ieee.quantitySum ys := by
  simp [Ieee.quantitySum]

theorem ieee_quantitySum_split (pre post : List Ieee.Line) (l : Ieee.Line) :
    Ieee.quantitySum (pre ++ l :: post) =
      Ieee.quantitySum (pre ++ post) + Ieee.amount l := by
  rw [ieee_quantitySum_append, ieee_quantitySum_cons, ieee_quantitySum_append]
  omega

theorem ieee_quantitySum_nonneg (xs : List Ieee.Line) : 0 ≤ Ieee.quantitySum xs := by
  induction xs with
  | nil => simp [Ieee.quantitySum]
  | cons l ls ih =>
    rw [ieee_quantitySum_cons]
    have := ieee_amount_nonneg l
    omega

theorem ieee_posQty_split {pre post : List Ieee.Line} {l : Ieee.Line}
    (h : Ieee.PosQty (pre ++ l :: post)) :
    Ieee.PosQty (pre ++ post) ∧ ∃ q : Int, 1 ≤ q ∧ q < 2 ^ 53 ∧ l.quantity = .val (.int q) := by
  refine ⟨?_, h l (by simp)⟩
  intro x hx
  apply h x
  rcases List.mem_append.1 hx with hx | hx
  · exact List.mem_append_left _ hx
  · exact List.mem_append_right _ (List.mem_cons_of_mem _ hx)

theorem ieee_posQty_insert {pre post : List Ieee.Line} {l : Ieee.Line}
    (h : Ieee.PosQty (pre ++ post))
    (hl : ∃ q : Int, 1 ≤ q ∧ q < 2 ^ 53 ∧ l.quantity = .val (.int q)) :
    Ieee.PosQty (pre ++ l :: post) := by
  intro x hx
  rcases List.mem_append.1 hx with hx | hx
  · exact h x (List.mem_append_left _ hx)
  · rcases List.mem_cons.1 hx with rfl | hx
    · exact hl
    · exact h x (List.mem_append_right _ hx)

theorem ieee_shown_split {pre post : List Ieee.Line} {l : Ieee.Line}
    (h : Ieee.Shown (pre ++ l :: post)) :
    Ieee.Shown (pre ++ post) ∧ Ieee.displaySkips l = false := by
  refine ⟨?_, h l (by simp)⟩
  intro x hx
  apply h x
  rcases List.mem_append.1 hx with hx | hx
  · exact List.mem_append_left _ hx
  · exact List.mem_append_right _ (List.mem_cons_of_mem _ hx)

theorem ieee_shown_insert {pre post : List Ieee.Line} {l : Ieee.Line}
    (h : Ieee.Shown (pre ++ post)) (hl : Ieee.displaySkips l = false) :
    Ieee.Shown (pre ++ l :: post) := by
  intro x hx
  rcases List.mem_append.1 hx with hx | hx
  · exact h x (List.mem_append_left _ hx)
  · rcases List.mem_cons.1 hx with rfl | hx
    · exact hl
    · exact h x (List.mem_append_right _ hx)

/-- The `reduce` over lines of positive integer quantities adds exactly, as
long as the sum stays below `2 ^ 53`. -/
theorem ieee_foldl_addQuantity (items : List Ieee.Line) (a : Int) (h0 : 0 ≤ a)
    (hp : Ieee.PosQty items) (hb : a + Ieee.quantitySum items < 2 ^ 53) :
    items.foldl Ieee.addQuantity (.fin a) = .fin (a + Ieee.quantitySum items) := by
  induction items generalizing a with
  | nil => simp [Ieee.quantitySum]
  | cons l ls ih =>
    obtain ⟨q, hq1, hq2, hlq⟩ := hp l (by simp)
    have hls : Ieee.PosQty ls := fun x hx => hp x (List.mem_cons_of_mem _ hx)
    have ha := ieee_amount_int l q (by omega) hq2 hlq
    have hn := ieee_quantitySum_nonneg ls
    rw [ieee_quantitySum_cons, ha] at hb ⊢
    have hstep : Ieee.addQuantity (.fin a) l = .fin (a + q) := by
      simp only [Ieee.addQuantity, hlq, ieee_sanitized_int q (by omega) hq2, JSInt.add]
      exact ofInt_exact _ (by omega) (by omega)
    rw [List.foldl_cons, hstep, ih (a + q) (by omega) hls (by omega)]
    congr 1
    omega

theorem ieee_countOf_exact (items : List Ieee.Line) (hp : Ieee.PosQty items)
    (hb : Ieee.quantitySum items < 2 ^ 53) :
    Ieee.countOf items = .fin (Ieee.quantitySum items) := by
  have := ieee_foldl_addQuantity items 0 (le_refl 0) hp (by omega)
  simpa [Ieee.countOf] using this

/-- The count of `displayCartItems` over shown lines of positive integer
quantities adds exactly, as long as the sum stays below `2 ^ 53`. -/
theorem ieee_foldl_displayItem (items : List Ieee.Line) (a : Int) (h0 : 0 ≤ a)
    (hp : Ieee.PosQty items) (hs : Ieee.Shown items)
    (hb : a + Ieee.quantitySum items < 2 ^ 53) :
    items.foldl Ieee.displayItem (.fin a) = .fin (a + Ieee.quantitySum items) := by
  induction items generalizing a with
  | nil => simp [Ieee.quantitySum]
  | cons l ls ih =>
    obtain ⟨q, hq1, hq2, hlq⟩ := hp l (by simp)
    have hls : Ieee.PosQty ls := fun x hx => hp x (List.mem_cons_of_mem _ hx)
    have hss : Ieee.Shown ls := fun x hx => hs x (List.mem_cons_of_mem _ hx)
    have ha := ieee_amount_int l q (by omega) hq2 hlq
    have hn := ieee_quantitySum_nonneg ls
    rw [ieee_quantitySum_cons, ha] at hb ⊢
    have hstep : Ieee.displayItem (.fin a) l = .fin (a + q) := by
      have hnp : ¬ q ≤ 0 := by omega
      simp only [Ieee.displayItem, hs l (by simp), hlq, Ieee.parseQuantity,
        ieee_parseInt_int q (by omega), JSInt.isNaN, JSInt.isNotPositive, JSInt.add]
      simp only [hnp, decide_False, Bool.or_self, Bool.false_eq_true, if_false]
      exact ofInt_exact _ (by omega) (by omega)
    rw [List.foldl_cons, hstep, ih (a + q) (by omega) hls hss (by omega)]
    congr 1
    omega

theorem ieee_displayCount_exact (items : List Ieee.Line) (hp : Ieee.PosQty items)
    (hs : Ieee.Shown items) (hb : Ieee.quantitySum items < 2 ^ 53) :
    Ieee.displayCount items = .fin (Ieee.quantitySum items) := by
  unfold Ieee.displayCount
  split
  · next h =>
    have : items = [] := List.length_eq_zero.1 h
    subst this
    rfl
  · have := ieee_foldl_displayItem items 0 (le_refl 0) hp hs (by omega)
    simpa using this

/-! ## Double precision: the result of each operation -/

/-- Where `findIndex` stops: nowhere, or at the first element that satisfies
the test. -/
theorem find_cases {α : Type} (p : α → Bool) (xs : List α) :
    (∀ x ∈ xs, p x = false) ∨
    ∃ pre l post, xs = pre ++ l :: post ∧ (∀ x ∈ pre, p x = false) ∧ p l = true := by
  cases hf : xs.findIdx? p with
  | none =>
    left
    intro x hx
    have := List.findIdx?_eq_none_iff.1 hf x hx
    simpa using this
  | some i =>
    obtain ⟨pre, l, post, hxs, _, hpre, hl⟩ := findIdx?_split _ _ _ hf
    exact Or.inr ⟨pre, l, post, hxs, hpre, hl⟩

theorem ieee_add_missing (s : Ieee.State)
    (productId productName price productImage quantity color size : JSVal) (now : Int)
    (hm : missingData productId productName price = true) :
    Ieee.executeAddToCart s productId productName price productImage quantity color size now =
      { s with errors := s.errors ++
          ["executeAddToCart: Attempted to add item with missing critical data."] } := by
  simp [Ieee.executeAddToCart, hm]

theorem ieee_add_thrown (s : Ieee.State)
    (productId productName price productImage quantity color size : JSVal) (now : Int)
    (hm : missingData productId productName price = false)
    (hc : normalizeColor color = none) :
    Ieee.executeAddToCart s productId productName price productImage quantity color size now =
      { s with uncaught := s.uncaught ++ ["TypeError: color.trim is not a function"] } := by
  simp [Ieee.executeAddToCart, hm, hc]

theorem ieee_add_merge (s : Ieee.State)
    (productId productName price productImage quantity color size : JSVal) (now : Int)
    (nc : String) (pre post : List Ieee.Line) (l : Ieee.Line)
    (hm : missingData productId productName price = false)
    (hc : normalizeColor color = some nc)
    (hxs : s.cartItems = pre ++ l :: post)
    (hpre : ∀ x ∈ pre, Ieee.sameItem productId (.str nc) size x = false)
    (hl : Ieee.sameItem productId (.str nc) size l = true) :
    Ieee.executeAddToCart s productId productName price productImage quantity color size now =
      s.commit
        (pre ++ { l with quantity :=
            ((Ieee.sanitizedQuantity l.quantity).add (Ieee.validQuantity quantity)).toQuantity }
          :: post)
        (Ieee.countOf
          (pre ++ { l with quantity :=
            ((Ieee.sanitizedQuantity l.quantity).add (Ieee.validQuantity quantity)).toQuantity }
            :: post)) := by
  have hf := findIdx?_of_split _ pre l post hpre hl
  simp only [Ieee.executeAddToCart, hm, hc, hxs, hf, getElem?_split, set_split]
  simp

theorem ieee_add_append (s : Ieee.State)
    (productId productName price productImage quantity color size : JSVal) (now : Int)
    (nc : String)
    (hm : missingData productId productName price = false)
    (hc : normalizeColor color = some nc)
    (hno : ∀ x ∈ s.cartItems, Ieee.sameItem productId (.str nc) size x = false) :
    Ieee.executeAddToCart s productId productName price productImage quantity color size now =
      s.commit
        (s.cartItems ++
          [Ieee.newLine productId productName price productImage quantity size nc now])
        (Ieee.countOf
          (s.cartItems ++
            [Ieee.newLine productId productName price productImage quantity size nc now])) := by
  have hf : s.cartItems.findIdx? (Ieee.sameItem productId (.str nc) size) = none :=
    List.findIdx?_eq_none_iff.2 (fun x hx => by simp [hno x hx])
  simp [Ieee.executeAddToCart, hm, hc, hf]

theorem ieee_update_absent (s : Ieee.State) (cartItemId action : JSVal)
    (hno : ∀ x ∈ s.cartItems, Ieee.hasId cartItemId x = false) :
    Ieee.updateCartItemQuantity s cartItemId action = s := by
  have hf : s.cartItems.findIdx? (Ieee.hasId cartItemId) = none :=
    List.findIdx?_eq_none_iff.2 (fun x hx => by simp [hno x hx])
  simp [Ieee.updateCartItemQuantity, hf]

theorem ieee_update_found (s : Ieee.State) (cartItemId action : JSVal)
    (pre post : List Ieee.Line) (l : Ieee.Line)
    (hxs : s.cartItems = pre ++ l :: post)
    (hpre : ∀ x ∈ pre, Ieee.hasId cartItemId x = false)
    (hl : Ieee.hasId cartItemId l = true) :
    Ieee.updateCartItemQuantity s cartItemId action =
      s.commit
        (if Ieee.updatedQuantity action (Ieee.sanitizedQuantity l.quantity) = .fin 0 then
          pre ++ post
         else pre ++ { l with quantity :=
            (Ieee.updatedQuantity action (Ieee.sanitizedQuantity l.quantity)).toQuantity }
            :: post)
        (Ieee.countOf
          (if Ieee.updatedQuantity action (Ieee.sanitizedQuantity l.quantity) = .fin 0 then
            pre ++ post
           else pre ++ { l with quantity :=
              (Ieee.updatedQuantity action (Ieee.sanitizedQuantity l.quantity)).toQuantity }
              :: post)) := by
  have hf := findIdx?_of_split _ pre l post hpre hl
  simp only [Ieee.updateCartItemQuantity, hxs, hf, getElem?_split, set_split, eraseIdx_split]

theorem ieee_remove_absent (s : Ieee.State) (cartItemId : JSVal)
    (hno : ∀ x ∈ s.cartItems, Ieee.hasId cartItemId x = false) :
    Ieee.removeFromCart s cartItemId = s := by
  have hf : s.cartItems.findIdx? (Ieee.hasId cartItemId) = none :=
    List.findIdx?_eq_none_iff.2 (fun x hx => by simp [hno x hx])
  simp [Ieee.removeFromCart, hf]

theorem ieee_remove_found (s : Ieee.State) (cartItemId : JSVal)
    (pre post : List Ieee.Line) (l : Ieee.Line)
    (hxs : s.cartItems = pre ++ l :: post)
    (hpre : ∀ x ∈ pre, Ieee.hasId cartItemId x = false)
    (hl : Ieee.hasId cartItemId l = true) :
    Ieee.removeFromCart s cartItemId =
      s.commit (pre ++ post) (Ieee.decrementedCount s.cartCount l.quantity) := by
  have hf := findIdx?_of_split _ pre l post hpre hl
  simp only [Ieee.removeFromCart, hxs, hf, getElem?_split, eraseIdx_split]

/-! ## Double precision: the validated quantity -/

/-- The validated quantity is a positive integer, or `Infinity`. -/
theorem ieee_validQuantity_cases (v : JSVal) :
    (∃ n : Int, 1 ≤ n ∧ Ieee.validQuantity v = .fin n) ∨
      Ieee.validQuantity v = .inf false := by
  unfold Ieee.validQuantity
  cases hq : Ieee.parseInt v with
  | nan => exact Or.inl ⟨1, le_refl 1, by simp [JSInt.isNaN]⟩
  | inf b =>
    cases b
    · right
      simp [JSInt.isNaN, JSInt.isNotPositive]
    · exact Or.inl ⟨1, le_refl 1, by simp [JSInt.isNaN, JSInt.isNotPositive]⟩
  | fin n =>
    left
    by_cases hn : n ≤ 0
    · exact ⟨1, le_refl 1, by simp [JSInt.isNaN, JSInt.isNotPositive, hn]⟩
    · exact ⟨n, by omega, by simp [JSInt.isNaN, JSInt.isNotPositive, hn]⟩

theorem ieee_opWeight_nonneg (op : Op) : 0 ≤ Ieee.opWeight op := by
  cases op with
  | add productId productName price productImage quantity color size now =>
    rcases ieee_validQuantity_cases quantity with ⟨n, hn, h⟩ | h
    · simp only [Ieee.opWeight, h]
      omega
    · simp only [Ieee.opWeight, h]
      norm_num
  | update cartItemId action => simp [Ieee.opWeight]
  | remove cartItemId => simp [Ieee.opWeight]

theorem ieee_budget_nonneg (ops : List Op) : 0 ≤ Ieee.budget ops := by
  induction ops with
  | nil => simp [Ieee.budget]
  | cons op ops ih =>
    have := ieee_opWeight_nonneg op
    simp only [Ieee.budget, List.map_cons, List.sum_cons] at ih ⊢
    omega

/-! ## Double precision: the invariants of a cart within its budget -/

theorem ieee_toQuantity_defined (x : JSInt) :
    (x.toQuantity == Ieee.Quantity.val .undefined) = false := by
  cases x with
  | nan => decide
  | fin n => simp [JSInt.toQuantity, JSVal.int]
  | inf b => simp [JSInt.toQuantity]

theorem ieee_displaySkips_quantity (l : Ieee.Line) (x : JSInt)
    (h : Ieee.displaySkips l = false) :
    Ieee.displaySkips { l with quantity := x.toQuantity } = false := by
  simp only [Ieee.displaySkips, Bool.or_eq_false_iff] at h ⊢
  obtain ⟨⟨⟨⟨⟨h1, h2⟩, h3⟩, h4⟩, h5⟩, _⟩ := h
  exact ⟨⟨⟨⟨⟨h1, h2⟩, h3⟩, h4⟩, h5⟩, ieee_toQuantity_defined x⟩

theorem ieee_displaySkips_pushed
    (productId productName price productImage quantity size : JSVal)
    (nc : String) (now : Int)
    (hm : missingData productId productName price = false) :
    Ieee.displaySkips
      (Ieee.newLine productId productName price productImage quantity size nc now) = false := by
  simp only [missingData, Bool.or_eq_false_iff] at hm
  obtain ⟨⟨⟨⟨h1, h2⟩, h3⟩, _⟩, _⟩ := hm
  have hp : productId.isUndefined = false := by
    cases productId <;> simp_all [JSVal.truthy, JSVal.isUndefined]
  have hpr : (JSVal.ofNum (cleanPrice price)).isUndefined = false ∧
      (JSVal.ofNum (cleanPrice price)).isNull = false := by
    cases cleanPrice price <;> exact ⟨rfl, rfl⟩
  simp only [Ieee.displaySkips, Ieee.newLine, hp, h2, h3, hpr.1, hpr.2,
    ieee_toQuantity_defined, Bool.or_self]

/-- Each call leaves the cart and storage as they were, or assigns and
persists a list and a count. -/
theorem ieee_step_cases (s : Ieee.State) (op : Op) :
    ((Ieee.step s op).cartItems = s.cartItems ∧ (Ieee.step s op).cartCount = s.cartCount ∧
      (Ieee.step s op).storage = s.storage) ∨
    ∃ items count, Ieee.step s op = s.commit items count := by
  cases op with
  | add productId productName price productImage quantity color size now =>
    simp only [Ieee.step]
    cases hm : missingData productId productName price with
    | true =>
      rw [ieee_add_missing _ _ _ _ _ _ _ _ _ hm]
      exact Or.inl ⟨rfl, rfl, rfl⟩
    | false =>
      cases hcol : normalizeColor color with
      | none =>
        rw [ieee_add_thrown _ _ _ _ _ _ _ _ _ hm hcol]
        exact Or.inl ⟨rfl, rfl, rfl⟩
      | some nc =>
        rcases find_cases (Ieee.sameItem productId (.str nc) size) s.cartItems with hno |
          ⟨pre, l, post, hxs, hpre, hl⟩
        · rw [ieee_add_append _ _ _ _ _ _ _ _ _ nc hm hcol hno]
          exact Or.inr ⟨_, _, rfl⟩
        · rw [ieee_add_merge _ _ _ _ _ _ _ _ _ nc pre post l hm hcol hxs hpre hl]
          exact Or.inr ⟨_, _, rfl⟩
  | update cartItemId action =>
    simp only [Ieee.step]
    rcases find_cases (Ieee.hasId cartItemId) s.cartItems with hno |
      ⟨pre, l, post, hxs, hpre, hl⟩
    · rw [ieee_update_absent _ _ _ hno]
      exact Or.inl ⟨rfl, rfl, rfl⟩
    · rw [ieee_update_found _ _ _ pre post l hxs hpre hl]
      exact Or.inr ⟨_, _, rfl⟩
  | remove cartItemId =>
    simp only [Ieee.step]
    rcases find_cases (Ieee.hasId cartItemId) s.cartItems with hno |
      ⟨pre, l, post, hxs, hpre, hl⟩
    · rw [ieee_remove_absent _ _ hno]
      exact Or.inl ⟨rfl, rfl, rfl⟩
    · rw [ieee_remove_found _ _ pre post l hxs hpre hl]
      exact Or.inr ⟨_, _, rfl⟩

theorem ieee_persisted_step (s0 s : Ieee.State) (op : Op)
    (h : s.storage = s0.storage ∨ Ieee.Persisted s) :
    (Ieee.step s op).storage = s0.storage ∨ Ieee.Persisted (Ieee.step s op) := by
  rcases ieee_step_cases s op with ⟨h1, _, h3⟩ | ⟨items, count, hc⟩
  · rcases h with h | h
    · exact Or.inl (h3.trans h)
    · right
      unfold Ieee.Persisted at h ⊢
      rw [h1, h3]
      exact h
  · right
    rw [hc]
    rfl

theorem ieee_persisted_run (s0 : Ieee.State) (ops : List Op) (s : Ieee.State)
    (h : s.storage = s0.storage ∨ Ieee.Persisted s) :
    (Ieee.run s ops).storage = s0.storage ∨ Ieee.Persisted (Ieee.run s ops) := by
  induction ops generalizing s with
  | nil => exact h
  | cons op ops ih => exact ih (Ieee.step s op) (ieee_persisted_step s0 s op h)

theorem ieee_shown_step (s : Ieee.State) (op : Op) (hs : Ieee.Shown s.cartItems) :
    Ieee.Shown (Ieee.step s op).cartItems := by
  cases op with
  | add productId productName price productImage quantity color size now =>
    show Ieee.Shown (Ieee.executeAddToCart s _ _ _ _ _ _ _ _).cartItems
    cases hm : missingData productId productName price with
    | true =>
      rw [ieee_add_missing _ _ _ _ _ _ _ _ _ hm]
      exact hs
    | false =>
      cases hcol : normalizeColor color with
      | none =>
        rw [ieee_add_thrown _ _ _ _ _ _ _ _ _ hm hcol]
        exact hs
      | some nc =>
        rcases find_cases (Ieee.sameItem productId (.str nc) size) s.cartItems with hno |
          ⟨pre, l, post, hxs, hpre, hl⟩
        · rw [ieee_add_append _ _ _ _ _ _ _ _ _ nc hm hcol hno]
          intro x hx
          rcases List.mem_append.1 hx with hx | hx
          · exact hs x hx
          · rw [List.mem_singleton.1 hx]
            exact ieee_displaySkips_pushed _ _ _ _ _ _ _ _ hm
        · rw [ieee_add_merge _ _ _ _ _ _ _ _ _ nc pre post l hm hcol hxs hpre hl]
          rw [hxs] at hs
          obtain ⟨hs2, hsl⟩ := ieee_shown_split hs
          exact ieee_shown_insert hs2 (ieee_displaySkips_quantity l _ hsl)
  | update cartItemId action =>
    show Ieee.Shown (Ieee.updateCartItemQuantity s _ _).cartItems
    rcases find_cases (Ieee.hasId cartItemId) s.cartItems with hno |
      ⟨pre, l, post, hxs, hpre, hl⟩
    · rw [ieee_update_absent _ _ _ hno]
      exact hs
    · rw [ieee_update_found _ _ _ pre post l hxs hpre hl]
      rw [hxs] at hs
      obtain ⟨hs2, hsl⟩ := ieee_shown_split hs
      show Ieee.Shown (if _ then _ else _)
      split
      · exact hs2
      · exact ieee_shown_insert hs2 (ieee_displaySkips_quantity l _ hsl)
  | remove cartItemId =>
    show Ieee.Shown (Ieee.removeFromCart s _).cartItems
    rcases find_cases (Ieee.hasId cartItemId) s.cartItems with hno |
      ⟨pre, l, post, hxs, hpre, hl⟩
    · rw [ieee_remove_absent _ _ hno]
      exact hs
    · rw [ieee_remove_found _ _ pre post l hxs hpre hl]
      rw [hxs] at hs
      exact (ieee_shown_split hs).1

theorem ieee_within_add (s : Ieee.State)
    (productId productName price productImage quantity color size : JSVal) (now : Int)
    (room : Int) (h0 : 0 ≤ room)
    (h : Ieee.Within s.cartItems
      (Ieee.opWeight (.add productId productName price productImage quantity color size now)
        + room)) :
    Ieee.Within
      (Ieee.executeAddToCart s productId productName price productImage quantity color size
        now).cartItems room := by
  obtain ⟨hp, hb⟩ := h
  have hn := ieee_quantitySum_nonneg s.cartItems
  rcases ieee_validQuantity_cases quantity with ⟨n, hn1, hv⟩ | hv
  swap
  · simp only [Ieee.opWeight, hv] at hb
    omega
  simp only [Ieee.opWeight, hv] at hb
  have hb2 : Ieee.quantitySum s.cartItems + room < 2 ^ 53 := by omega
  cases hm : missingData productId productName price with
  | true =>
    rw [ieee_add_missing _ _ _ _ _ _ _ _ _ hm]
    exact ⟨hp, hb2⟩
  | false =>
    cases hcol : normalizeColor color with
    | none =>
      rw [ieee_add_thrown _ _ _ _ _ _ _ _ _ hm hcol]
      exact ⟨hp, hb2⟩
    | some nc =>
      rcases find_cases (Ieee.sameItem productId (.str nc) size) s.cartItems with hno |
        ⟨pre, l, post, hxs, hpre, hl⟩
      · rw [ieee_add_append _ _ _ _ _ _ _ _ _ nc hm hcol hno]
        have hq : (Ieee.newLine productId productName price productImage quantity size nc
            now).quantity = .val (.int n) := by
          simp [Ieee.newLine, hv, JSInt.toQuantity]
        have ha := ieee_amount_int _ n (by omega) (by omega) hq
        refine ⟨?_, ?_⟩
        · intro x hx
          rcases List.mem_append.1 hx with hx | hx
          · exact hp x hx
          · rw [List.mem_singleton.1 hx]
            exact ⟨n, hn1, by omega, hq⟩
        · show Ieee.quantitySum (s.cartItems ++ [_]) + room < 2 ^ 53
          rw [ieee_quantitySum_append, ieee_quantitySum_cons, ieee_quantitySum_nil, ha]
          omega
      · rw [ieee_add_merge _ _ _ _ _ _ _ _ _ nc pre post l hm hcol hxs hpre hl]
        rw [hxs] at hp hb hn
        obtain ⟨hp2, q, hq1, hq2, hlq⟩ := ieee_posQty_split hp
        have hal := ieee_amount_int l q (by omega) hq2 hlq
        rw [ieee_quantitySum_split, hal] at hb hn
        have hn2 := ieee_quantitySum_nonneg (pre ++ post)
        have hnew : ((Ieee.sanitizedQuantity l.quantity).add
            (Ieee.validQuantity quantity)).toQuantity = .val (.int (q + n)) := by
          rw [hlq, ieee_sanitized_int q (by omega) hq2, hv]
          simp only [JSInt.add]
          rw [ofInt_exact _ (by omega) (by omega)]
          rfl
        rw [hnew]
        have ha := ieee_amount_int { l with quantity := .val (.int (q + n)) } (q + n)
          (by omega) (by omega) rfl
        refine ⟨ieee_posQty_insert hp2 ⟨q + n, by omega, by omega, rfl⟩, ?_⟩
        show Ieee.quantitySum (pre ++ _ :: post) + room < 2 ^ 53
        rw [ieee_quantitySum_split, ha]
        omega

theorem ieee_within_update (s : Ieee.State) (cartItemId action : JSVal)
    (room : Int) (h0 : 0 ≤ room) (h : Ieee.Within s.cartItems (1 + room)) :
    Ieee.Within (Ieee.updateCartItemQuantity s cartItemId action).cartItems room := by
  obtain ⟨hp, hb⟩ := h
  have hn := ieee_quantitySum_nonneg s.cartItems
  rcases find_cases (Ieee.hasId cartItemId) s.cartItems with hno |
    ⟨pre, l, post, hxs, hpre, hl⟩
  · rw [ieee_update_absent _ _ _ hno]
    have hb2 : Ieee.quantitySum s.cartItems + room < 2 ^ 53 := by omega
    exact ⟨hp, hb2⟩
  · rw [ieee_update_found _ _ _ pre post l hxs hpre hl]
    rw [hxs] at hp hb hn
    obtain ⟨hp2, q, hq1, hq2, hlq⟩ := ieee_posQty_split hp
    have hal := ieee_amount_int l q (by omega) hq2 hlq
    rw [ieee_quantitySum_split, hal] at hb hn
    have hn2 := ieee_quantitySum_nonneg (pre ++ post)
    have hkeep : ∀ m : Int, 1 ≤ m → m ≤ q + 1 →
        Ieee.Within (pre ++ { l with quantity := .val (.int m) } :: post) room := by
      intro m hm1 hm2
      have ha := ieee_amount_int { l with quantity := .val (.int m) } m
        (by omega) (by omega) rfl
      refine ⟨ieee_posQty_insert hp2 ⟨m, hm1, by omega, rfl⟩, ?_⟩
      rw [ieee_quantitySum_split, ha]
      omega
    rw [hlq, ieee_sanitized_int q (by omega) hq2]
    by_cases hinc : action.strictEq (.str "increase") = true
    · have hu : Ieee.updatedQuantity action (.fin q) = .fin (q + 1) := by
        simp only [Ieee.updatedQuantity, hinc, if_true, JSInt.add]
        exact ofInt_exact _ (by omega) (by omega)
      rw [hu]
      have hne : (JSInt.fin (q + 1) = JSInt.fin 0) = False := by
        simp
        omega
      simp only [hne, if_false, JSInt.toQuantity]
      exact hkeep (q + 1) (by omega) (le_refl _)
    · by_cases hdec : action.strictEq (.str "decrease") = true
      · have hu : Ieee.updatedQuantity action (.fin q) = .fin (q - 1) := by
          simp only [Ieee.updatedQuantity, hinc, hdec, if_true, if_false, Bool.false_eq_true,
            JSInt.sub]
          rw [ofInt_exact _ (by omega) (by omega)]
          simp only [JSInt.maxZero]
          rw [max_eq_right (by omega)]
        rw [hu]
        by_cases hq : q = 1
        · have hb2 : Ieee.quantitySum (pre ++ post) + room < 2 ^ 53 := by omega
          rw [hq]
          simp only [sub_self, if_true]
          exact ⟨hp2, hb2⟩
        · have hne : (JSInt.fin (q - 1) = JSInt.fin 0) = False := by
            simp
            omega
          simp only [hne, if_false, JSInt.toQuantity]
          exact hkeep (q - 1) (by omega) (by omega)
      · have hu : Ieee.updatedQuantity action (.fin q) = .fin q := by
          simp [Ieee.updatedQuantity, hinc, hdec]
        rw [hu]
        have hne : (JSInt.fin q = JSInt.fin 0) = False := by
          simp
          omega
        simp only [hne, if_false, JSInt.toQuantity]
        exact hkeep q hq1 (by omega)

theorem ieee_within_remove (s : Ieee.State) (cartItemId : JSVal)
    (room : Int) (h : Ieee.Within s.cartItems room) :
    Ieee.Within (Ieee.removeFromCart s cartItemId).cartItems room := by
  obtain ⟨hp, hb⟩ := h
  rcases find_cases (Ieee.hasId cartItemId) s.cartItems with hno |
    ⟨pre, l, post, hxs, hpre, hl⟩
  · rw [ieee_remove_absent _ _ hno]
    exact ⟨hp, hb⟩
  · rw [ieee_remove_found _ _ pre post l hxs hpre hl]
    rw [hxs] at hp hb
    obtain ⟨hp2, q, hq1, hq2, hlq⟩ := ieee_posQty_split hp
    have hal := ieee_amount_int l q (by omega) hq2 hlq
    rw [ieee_quantitySum_split, hal] at hb
    have hb2 : Ieee.quantitySum (pre ++ post) + room < 2 ^ 53 := by omega
    exact ⟨hp2, hb2⟩

theorem ieee_within_step (s : Ieee.State) (op : Op) (room : Int) (h0 : 0 ≤ room)
    (h : Ieee.Within s.cartItems (Ieee.opWeight op + room)) :
    Ieee.Within (Ieee.step s op).cartItems room := by
  cases op with
  | add productId productName price productImage quantity color size now =>
    exact ieee_within_add s _ _ _ _ _ _ _ _ room h0 h
  | update cartItemId action => exact ieee_within_update s _ _ room h0 h
  | remove cartItemId =>
    refine ieee_within_remove s _ room ?_
    simpa [Ieee.opWeight] using h

/-- The count after a call is the sum of the quantities, when it was before
the call and the call stays within the budget. -/
theorem ieee_count_step (s : Ieee.State) (op : Op) (room : Int) (h0 : 0 ≤ room)
    (h : Ieee.Within s.cartItems (Ieee.opWeight op + room))
    (hc : s.cartCount = .fin (Ieee.quantitySum s.cartItems)) :
    (Ieee.step s op).cartCount = .fin (Ieee.quantitySum (Ieee.step s op).cartItems) := by
  have hw := ieee_within_step s op room h0 h
  have hcount : ∀ t : Ieee.State, Ieee.Within t.cartItems room →
      t.cartCount = Ieee.countOf t.cartItems →
      t.cartCount = .fin (Ieee.quantitySum t.cartItems) := by
    intro t ht htc
    rw [htc]
    exact ieee_countOf_exact _ ht.1 (by have := ht.2; omega)
  cases op with
  | add productId productName price productImage quantity color size now =>
    have hw2 : Ieee.Within (Ieee.executeAddToCart s productId productName price productImage
      quantity color size now).cartItems room := hw
    simp only [Ieee.step]
    cases hm : missingData productId productName price with
    | true =>
      rw [ieee_add_missing _ _ _ _ _ _ _ _ _ hm]
      exact hc
    | false =>
      cases hcol : normalizeColor color with
      | none =>
        rw [ieee_add_thrown _ _ _ _ _ _ _ _ _ hm hcol]
        exact hc
      | some nc =>
        rcases find_cases (Ieee.sameItem productId (.str nc) size) s.cartItems with hno |
          ⟨pre, l, post, hxs, hpre, hl⟩
        · rw [ieee_add_append _ _ _ _ _ _ _ _ _ nc hm hcol hno] at hw2 ⊢
          exact hcount _ hw2 rfl
        · rw [ieee_add_merge _ _ _ _ _ _ _ _ _ nc pre post l hm hcol hxs hpre hl] at hw2 ⊢
          exact hcount _ hw2 rfl
  | update cartItemId action =>
    have hw2 : Ieee.Within (Ieee.updateCartItemQuantity s cartItemId action).cartItems room :=
      hw
    simp only [Ieee.step]
    rcases find_cases (Ieee.hasId cartItemId) s.cartItems with hno |
      ⟨pre, l, post, hxs, hpre, hl⟩
    · rw [ieee_update_absent _ _ _ hno]
      exact hc
    · rw [ieee_update_found _ _ _ pre post l hxs hpre hl] at hw2 ⊢
      exact hcount _ hw2 rfl
  | remove cartItemId =>
    simp only [Ieee.step]
    obtain ⟨hp, hb⟩ := h
    have hn := ieee_quantitySum_nonneg s.cartItems
    rcases find_cases (Ieee.hasId cartItemId) s.cartItems with hno |
      ⟨pre, l, post, hxs, hpre, hl⟩
    · rw [ieee_remove_absent _ _ hno]
      exact hc
    · rw [ieee_remove_found _ _ pre post l hxs hpre hl, hc]
      rw [hxs] at hp hb hn ⊢
      obtain ⟨hp2, q, hq1, hq2, hlq⟩ := ieee_posQty_split hp
      have hal := ieee_amount_int l q (by omega) hq2 hlq
      simp only [Ieee.opWeight] at hb
      rw [ieee_quantitySum_split, hal] at hb hn ⊢
      have hn2 := ieee_quantitySum_nonneg (pre ++ post)
      have hpos : 0 < q := by omega
      show Ieee.decrementedCount _ l.quantity = _
      simp only [Ieee.decrementedCount, hlq, Ieee.parseQuantity,
        ieee_parseInt_int q (by omega), JSInt.isNaN, JSInt.isPositive, hpos, decide_True,
        Bool.not_false, Bool.and_self, if_true, JSInt.sub]
      rw [ofInt_exact _ (by omega) (by omega)]
      simp only [JSInt.maxZero]
      rw [max_eq_right (by omega)]
      show JSInt.fin _ = JSInt.fin (Ieee.quantitySum (pre ++ post))
      congr 1
      omega

/-- The invariants of a run within its budget: the lines hold positive
integer quantities; no line is skipped by `displayCartItems` when none was;
the count is the sum of the quantities when it was. -/
theorem ieee_run_within (ops : List Op) (s : Ieee.State) (room : Int) (h0 : 0 ≤ room)
    (h : Ieee.Within s.cartItems (Ieee.budget ops + room)) :
    Ieee.Within (Ieee.run s ops).cartItems room ∧
    (Ieee.Shown s.cartItems → Ieee.Shown (Ieee.run s ops).cartItems) ∧
    (s.cartCount = .fin (Ieee.quantitySum s.cartItems) →
      (Ieee.run s ops).cartCount = .fin (Ieee.quantitySum (Ieee.run s ops).cartItems)) := by
  induction ops generalizing s with
  | nil =>
    refine ⟨?_, fun hs => hs, fun hc => hc⟩
    simpa [Ieee.run, Ieee.budget] using h
  | cons op ops ih =>
    have hb := ieee_budget_nonneg ops
    have e : Ieee.opWeight op + (Ieee.budget ops + room) = Ieee.budget (op :: ops) + room := by
      simp only [Ieee.budget, List.map_cons, List.sum_cons]
      omega
    have h2 : Ieee.Within s.cartItems (Ieee.opWeight op + (Ieee.budget ops + room)) := by
      rw [e]
      exact h
    have hstep := ieee_within_step s op (Ieee.budget ops + room) (by omega) h2
    obtain ⟨i1, i2, i3⟩ := ih (Ieee.step s op) hstep
    exact ⟨i1, fun hs => i2 (ieee_shown_step s op hs),
      fun hc => i3 (ieee_count_step s op (Ieee.budget ops + room) (by omega) h2 hc)⟩

theorem ieee_within_empty (room : Int) (h : room < 2 ^ 53) :
    Ieee.Within Ieee.State.empty.cartItems room := by
  refine ⟨?_, ?_⟩
  · intro l hl
    simp [Ieee.State.empty] at hl
  · simpa [Ieee.State.empty, Ieee.quantitySum] using h

/-! ## C1: the count along every sequence of calls -/

set_option maxRecDepth 100000 in
/-- C1, counterexample: from the empty cart, `executeAddToCart` with the
quantity text `9007199254740992` (`2 ^ 53`), `executeAddToCart` of one more
item and `removeFromCart` of the first line. After the second call the sum of
the two quantities, `2 ^ 53 + 1`, is not a double and the count is `2 ^ 53`;
the removal subtracts `2 ^ 53` and leaves the count 0, in memory and in
storage, while the line of quantity 1 remains. -/
theorem cartCount_rounds_beyond_two_pow_53 :
    (Ieee.run Ieee.State.empty (roundingOps.take 2)).cartItems.map Ieee.Line.quantity =
      [.val (.int 9007199254740992), .val (.int 1)] ∧
    (Ieee.run Ieee.State.empty (roundingOps.take 2)).cartCount = .fin 9007199254740992 ∧
    (Ieee.run Ieee.State.empty roundingOps).cartItems.map Ieee.Line.quantity =
      [.val (.int 1)] ∧
    Ieee.quantitySum (Ieee.run Ieee.State.empty roundingOps).cartItems = 1 ∧
    (Ieee.run Ieee.State.empty roundingOps).cartCount = .fin 0 ∧
    (Ieee.run Ieee.State.empty roundingOps).storage.cartCount = some "0" ∧
    (Ieee.run Ieee.State.empty roundingOps).cartCount ≠
      .fin (Ieee.quantitySum (Ieee.run Ieee.State.empty roundingOps).cartItems) := by
  decide

/-- C1, amended: starting from the empty cart (`cartItems = []`,
`cartCount = 0`), after every finite sequence of `executeAddToCart`,
`updateCartItemQuantity` and `removeFromCart` calls with arbitrary arguments
in which the validated quantities of the `executeAddToCart` calls and the
number of `updateCartItemQuantity` calls add up to less than `2 ^ 53`,
`cartCount` equals the sum over the lines of the quantity, a quantity that
does not parse or is negative counting 0. -/
theorem cartCount_eq_sum_within_budget (ops : List Op) (h : Ieee.budget ops < 2 ^ 53) :
    (Ieee.run Ieee.State.empty ops).cartCount =
      .fin (Ieee.quantitySum (Ieee.run Ieee.State.empty ops).cartItems) :=
  (ieee_run_within ops Ieee.State.empty 0 (le_refl 0)
    (ieee_within_empty _ (by omega))).2.2 rfl

set_option maxRecDepth 100000 in
/-- C1 at a run of four calls from the empty cart: two adds that merge, the
add of a second line and the removal of the first; the budget is 6 and the
count ends at 1. -/
theorem cartCount_eq_sum_within_budget_witness :
    Ieee.budget mergeRemoveOps < 2 ^ 53 ∧
    (Ieee.run Ieee.State.empty mergeRemoveOps).cartCount =
      .fin (Ieee.quantitySum (Ieee.run Ieee.State.empty mergeRemoveOps).cartItems) ∧
    (Ieee.run Ieee.State.empty mergeRemoveOps).cartCount = .fin 1 :=
  ⟨by decide, cartCount_eq_sum_within_budget mergeRemoveOps (by decide), by decide⟩

/-! ## C2: one step from an arbitrary state -/

/-- C2, at the failing input: in the state `initCart` loads from a persisted
cart of two well-formed lines with quantities 2 and 0, `cartCount` is 2, the
sum of the quantities; `removeFromCart` of the quantity-0 line leaves the
sum at 2 and sets `cartCount`, in memory and in storage, to 1. -/
theorem removeFromCart_breaks_count :
    (initCart (State.init zeroLineStore)).cartCount =
        quantitySum (initCart (State.init zeroLineStore)).cartItems ∧
      quantitySum (removeFromCart (initCart (State.init zeroLineStore)) (.str "2")).cartItems = 2 ∧
      (removeFromCart (initCart (State.init zeroLineStore)) (.str "2")).cartCount = 1 ∧
      (removeFromCart (initCart (State.init zeroLineStore)) (.str "2")).storage.cartCount =
        some "1" := by
  decide

/-! ## C3: adding an item that is already in the cart -/

/-- C3: an accepted `executeAddToCart` call (data present, `color.trim()`
defined) whose `(productId, trimmed color, size)` is `===` to that of a line
of the cart, `l` being the first such line, keeps the number of lines and
every other line and sets the quantity of `l` to `s + v`, with `s` the
sanitized previous quantity and `v` the validated new quantity; and adding
`top1`, black, M with quantity 3 to the cart that holds two of them gives one
line of quantity 5. -/
theorem executeAddToCart_merges (s : State)
    (productId productName price productImage quantity color size : JSVal) (now : Int)
    (nc : String) (pre post : List Line) (l : Line)
    (hm : missingData productId productName price = false)
    (hc : normalizeColor color = some nc)
    (hxs : s.cartItems = pre ++ l :: post)
    (hpre : ∀ x ∈ pre, sameItem productId (.str nc) size x = false)
    (hl : sameItem productId (.str nc) size l = true) :
    (executeAddToCart s productId productName price productImage quantity color size
        now).cartItems =
      pre ++ l.setQuantity (sanitizedQuantity l.quantity + validQuantity quantity) :: post ∧
    (l.setQuantity (sanitizedQuantity l.quantity + validQuantity quantity)).quantity =
      .int (sanitizedQuantity l.quantity + validQuantity quantity) ∧
    (executeAddToCart s productId productName price productImage quantity color size
        now).cartItems.length = s.cartItems.length ∧
    (executeAddToCart twoOfTop1 (.str "top1") (.str "BOXY FIT OVERSHIRT") (.str "2400.00")
        (.str "a.jpg") (.str "3") (.str " rgb(0, 0, 0)") (.str "M") 2000).cartItems.map
          Line.quantity = [.int 5] := by
  rw [executeAddToCart_merge s _ _ _ _ _ _ _ _ nc pre post l hm hc hxs hpre hl]
  refine ⟨rfl, rfl, ?_, by decide⟩
  rw [hxs]
  simp [State.commit]

/-- C3 at the cart that holds two of `top1`, black, M: a second add with
quantity 3 and the same triple merges into that line. -/
theorem executeAddToCart_merges_witness :
    missingData (.str "top1") (.str "BOXY FIT OVERSHIRT") (.str "2400.00") = false ∧
    normalizeColor (.str " rgb(0, 0, 0)") = some "rgb(0, 0, 0)" ∧
    twoOfTop1.cartItems =
      [] ++ newLine (.str "top1") (.str "BOXY FIT OVERSHIRT") (.str "2400.00") (.str "a.jpg")
        (.str "2") (.str "M") "rgb(0, 0, 0)" 1000 :: [] ∧
    (executeAddToCart twoOfTop1 (.str "top1") (.str "BOXY FIT OVERSHIRT") (.str "2400.00")
        (.str "a.jpg") (.str "3") (.str " rgb(0, 0, 0)") (.str "M") 2000).cartItems =
      [] ++ (newLine (.str "top1") (.str "BOXY FIT OVERSHIRT") (.str "2400.00") (.str "a.jpg")
        (.str "2") (.str "M") "rgb(0, 0, 0)" 1000).setQuantity
          (sanitizedQuantity (.int 2) + validQuantity (.str "3")) :: [] :=
  ⟨by decide, by decide, by decide,
    (executeAddToCart_merges twoOfTop1 (.str "top1") (.str "BOXY FIT OVERSHIRT")
      (.str "2400.00") (.str "a.jpg") (.str "3") (.str " rgb(0, 0, 0)") (.str "M") 2000
      "rgb(0, 0, 0)" [] []
      (newLine (.str "top1") (.str "BOXY FIT OVERSHIRT") (.str "2400.00") (.str "a.jpg")
        (.str "2") (.str "M") "rgb(0, 0, 0)" 1000)
      (by decide) (by decide) (by decide) (by intro x hx; cases hx) (by decide)).1⟩

/-! ## C4: no duplicated logical item -/

/-- C4: in every state reached from an empty cart by `executeAddToCart`,
`updateCartItemQuantity` and `removeFromCart` calls, two lines at distinct
positions never have `productId`, `color` and `size` all `===`. -/
theorem no_duplicate_logical_item (s : State) (hitems : s.cartItems = []) (ops : List Op)
    (i j : Nat) (a b : Line) (hi : (run s ops).cartItems[i]? = some a)
    (hj : (run s ops).cartItems[j]? = some b) (hij : i ≠ j) :
    sameLogicalItem a b = false := by
  have h0 : NoDuplicate s.cartItems := by rw [hitems]; exact List.Pairwise.nil
  exact (run_invariant (fun t => NoDuplicate t.cartItems) noDuplicate_step s h0 ops).at_indices
    i j a b hi hj hij

/-- C4 at the cart with one `top1` and one `bag2`: the two lines differ in
`productId`. -/
theorem no_duplicate_logical_item_witness :
    State.empty.cartItems = [] ∧
    (run State.empty oneEachOps).cartItems[0]? =
      some (newLine (.str "top1") (.str "BOXY FIT OVERSHIRT") (.str "2400.00") (.str "a.jpg")
        (.str "1") (.str "M") "rgb(0, 0, 0)" 1000) ∧
    (run State.empty oneEachOps).cartItems[1]? =
      some (newLine (.str "bag2") (.str "Crossbody Bag") (.str "990.00") (.str "b.jpg")
        (.int 1) (.str "") "" 2000) ∧
    sameLogicalItem
      (newLine (.str "top1") (.str "BOXY FIT OVERSHIRT") (.str "2400.00") (.str "a.jpg")
        (.str "1") (.str "M") "rgb(0, 0, 0)" 1000)
      (newLine (.str "bag2") (.str "Crossbody Bag") (.str "990.00") (.str "b.jpg")
        (.int 1) (.str "") "" 2000) = false :=
  ⟨rfl, by decide, by decide,
    no_duplicate_logical_item State.empty rfl oneEachOps 0 1 _ _ (by decide) (by decide)
      (by decide)⟩

/-! ## C5: decreasing a quantity of 0 or 1 -/

/-- C5: when `l` is the line `updateCartItemQuantity` finds for the id (the
first with that `cart_item_id`) and its sanitized quantity is 0 or 1, the
action `'decrease'` deletes exactly that line: the new list, in memory and
as persisted, is the old one without `l`, the other lines unchanged and in
order. -/
theorem updateCartItemQuantity_decrease_removes (s : State) (cartItemId : JSVal)
    (pre post : List Line) (l : Line)
    (hxs : s.cartItems = pre ++ l :: post)
    (hpre : ∀ x ∈ pre, hasId cartItemId x = false) (hl : hasId cartItemId l = true)
    (hq : sanitizedQuantity l.quantity ≤ 1) :
    (updateCartItemQuantity s cartItemId (.str "decrease")).cartItems = pre ++ post ∧
    (updateCartItemQuantity s cartItemId (.str "decrease")).storage.cartItems =
      some (.array ((pre ++ post).map fun x => Entry.object x.toJSON)) := by
  have hu : updatedQuantity (.str "decrease") (sanitizedQuantity l.quantity) = 0 := by
    have h1 : (JSVal.str "decrease").strictEq (.str "increase") = false := by decide
    have h2 : (JSVal.str "decrease").strictEq (.str "decrease") = true := by decide
    simp only [updatedQuantity, h1, h2, if_true]
    rw [if_neg (by simp)]
    exact max_eq_left (by omega)
  rw [updateCartItemQuantity_found s _ _ pre post l hxs hpre hl, if_pos hu]
  exact ⟨rfl, rfl⟩

/-- C5 at the cart with one `top1` (id 1000) and one `bag2`: decreasing the
first line, whose quantity is 1, leaves the `bag2` line alone. -/
theorem updateCartItemQuantity_decrease_removes_witness :
    oneEach.cartItems =
      [] ++ newLine (.str "top1") (.str "BOXY FIT OVERSHIRT") (.str "2400.00") (.str "a.jpg")
          (.str "1") (.str "M") "rgb(0, 0, 0)" 1000 ::
        [newLine (.str "bag2") (.str "Crossbody Bag") (.str "990.00") (.str "b.jpg")
          (.int 1) (.str "") "" 2000] ∧
    sanitizedQuantity (JSVal.int (validQuantity (.str "1"))) ≤ 1 ∧
    (updateCartItemQuantity oneEach (.str "1000") (.str "decrease")).cartItems =
      [] ++ [newLine (.str "bag2") (.str "Crossbody Bag") (.str "990.00") (.str "b.jpg")
          (.int 1) (.str "") "" 2000] :=
  ⟨by decide, by decide,
    (updateCartItemQuantity_decrease_removes oneEach (.str "1000") []
      [newLine (.str "bag2") (.str "Crossbody Bag") (.str "990.00") (.str "b.jpg")
          (.int 1) (.str "") "" 2000]
      (newLine (.str "top1") (.str "BOXY FIT OVERSHIRT") (.str "2400.00") (.str "a.jpg")
          (.str "1") (.str "M") "rgb(0, 0, 0)" 1000)
      (by decide) (by intro x hx; cases hx) (by decide) (by decide)).1⟩

/-! ## C6: what `initCart` loads from a stored array -/

/-- C6, counterexample: the stored array holds a well-formed line of quantity
3 followed by an entry with `productId`, `name` and `price` whose `quantity`
is the object `{"toString": 1}`. The well-formed entries are the first line
alone, yet `initCart` loads no line: `parseInt` raises inside the `filter`,
the `catch` clause reports it, the key is removed and the count stored is 0. -/
theorem initCart_resets_on_unconvertible_quantity :
    jammedStore.cartItems = some (.array [.object goodLine, jammedEntry]) ∧
    [Entry.object goodLine, jammedEntry].filter Entry.wellFormed = [.object goodLine] ∧
    (initCart (State.init jammedStore)).cartItems = [] ∧
    (initCart (State.init jammedStore)).cartItems.map Entry.object ≠
      [Entry.object goodLine, jammedEntry].filter Entry.wellFormed ∧
    (initCart (State.init jammedStore)).storage.cartItems = none ∧
    (initCart (State.init jammedStore)).storage.cartCount = some "0" ∧
    (initCart (State.init jammedStore)).errors = [initCartError] := by
  decide

/-- C6, amended: when the `cartItems` key holds a JSON array none of whose
entries has a `quantity` that cannot be converted to a string next to
`productId`, `name` and `price`, `initCart` sets the lines in memory to the
well-formed entries of the array (not null; `productId`, `name`, `price`,
`quantity` present; quantity parsable), in their order, and, these quantities
summing to less than `2 ^ 53`, sets `cartCount`, in memory and under the key
`cartCount`, to the sum of the non-negative parsed quantities of these lines;
when the array has such an entry, `initCart` loads nothing, stores the count
0, removes the key and reports the error. A well-formed line of quantity 3
stored with a line without `price` loads as that one line and a persisted
count of 3. -/
theorem initCart_loads_wellFormed (s : State) (entries : List Entry)
    (h : s.storage.cartItems = some (.array entries)) :
    ((∀ e ∈ entries, e.raises = false) →
      (initCart s).cartItems.map Entry.object = entries.filter Entry.wellFormed ∧
      (quantitySum (initCart s).cartItems < 2 ^ 53 →
        (initCart s).cartCount = quantitySum (initCart s).cartItems ∧
        (initCart s).storage.cartCount =
          some (String.mk (intText (quantitySum (initCart s).cartItems))))) ∧
    ((∃ e ∈ entries, e.raises = true) →
      (initCart s).cartItems = [] ∧ (initCart s).cartCount = 0 ∧
      (initCart s).storage.cartCount = some "0" ∧ (initCart s).storage.cartItems = none ∧
      (initCart s).errors = s.errors ++ [initCartError]) ∧
    ((initCart (State.init mixedStore)).cartItems = [goodLine] ∧
      (initCart (State.init mixedStore)).storage.cartCount = some "3") := by
  refine ⟨?_, ?_, by decide⟩
  · intro hr
    rw [initCart_array s entries h hr]
    refine ⟨?_, fun _ => ⟨countOf_eq_quantitySum _, ?_⟩⟩
    · exact map_object_filterMap_line _ (fun e he => (List.mem_filter.1 he).2)
    · show some (String.mk (intText (countOf _))) = _
      rw [countOf_eq_quantitySum]
  · intro hr
    rw [initCart_raised s entries h hr]
    exact ⟨rfl, rfl, rfl, rfl, rfl⟩

/-- C6 at storage holding a well-formed line of quantity 3 and a line
without `price`. -/
theorem initCart_loads_wellFormed_witness :
    (State.init mixedStore).storage.cartItems =
      some (.array [.object goodLine, .object noPriceLine]) ∧
    (∀ e ∈ [Entry.object goodLine, Entry.object noPriceLine], e.raises = false) ∧
    (initCart (State.init mixedStore)).cartItems.map Entry.object =
      [Entry.object goodLine, Entry.object noPriceLine].filter Entry.wellFormed ∧
    [Entry.object goodLine, Entry.object noPriceLine].filter Entry.wellFormed =
      [Entry.object goodLine] ∧
    (initCart (State.init mixedStore)).cartCount = 3 :=
  ⟨rfl, by decide,
    ((initCart_loads_wellFormed (State.init mixedStore) _ rfl).1 (by decide)).1, by decide,
    by decide⟩

/-! ## C7: `initCart` on unusable storage -/

/-- C7, counterexample: the empty string under `cartItems` is not valid JSON,
and `initCart` leaves the key in place, still holding the empty string. -/
theorem initCart_keeps_empty_text :
    emptyTextStore.cartItems = some .empty ∧
    (initCart (State.init emptyTextStore)).storage.cartItems = some .empty ∧
    (initCart (State.init emptyTextStore)).storage.cartItems ≠ none := by
  decide

/-- C7, amended: for every content of the `cartItems` key the load-and-validate
step of `initCart` lets no exception out. When its `try` block raises (the
text is not JSON, or `parseInt` cannot convert the `quantity` of an entry of
the array), the `catch` clause reports it with `console.error`; in these
cases and when the JSON value is not an array, the cart ends empty, the count
0 in memory and in storage, and the key is removed; when the key is absent
or holds the empty string the cart ends empty with count 0 as well and the
key is left as it was. -/
theorem initCart_fails_soft (s : State) :
    (initCart s).uncaught = s.uncaught ∧
    (∀ stored, s.storage.cartItems = some stored → stored ≠ .empty →
      ∀ e, loadCartItems stored = .error e →
        (initCart s).errors = s.errors ++ [initCartError] ∧ (initCart s).cartItems = [] ∧
          (initCart s).storage.cartItems = none) ∧
    ((s.storage.cartItems = some .invalid ∨ (∃ v, s.storage.cartItems = some (.value v)) ∨
        ∃ entries, s.storage.cartItems = some (.array entries) ∧
          ∃ e ∈ entries, e.raises = true) →
      (initCart s).cartItems = [] ∧ (initCart s).cartCount = 0 ∧
        (initCart s).storage.cartCount = some "0" ∧ (initCart s).storage.cartItems = none) ∧
    ((s.storage.cartItems = none ∨ s.storage.cartItems = some .empty) →
      (initCart s).cartItems = [] ∧ (initCart s).cartCount = 0 ∧
        (initCart s).storage.cartCount = some "0" ∧
        (initCart s).storage.cartItems = s.storage.cartItems) := by
  refine ⟨rfl, ?_, ?_, ?_⟩
  · intro stored hs hne e he
    cases stored with
    | empty => exact absurd rfl hne
    | invalid => rw [initCart_invalid s hs]; exact ⟨rfl, rfl, rfl⟩
    | value v => simp [loadCartItems] at he
    | array entries =>
      rcases raises_cases entries with hr | hr
      · simp [loadCartItems, filterEntries_of_no_raise entries hr] at he
      · rw [initCart_raised s entries hs hr]; exact ⟨rfl, rfl, rfl⟩
  · intro h
    obtain ⟨h1, h2, h3, h4, -⟩ := initCart_reset s h
    exact ⟨h1, h2, h3, h4⟩
  · intro h
    rw [initCart_nothing s h]
    exact ⟨rfl, rfl, rfl, rfl⟩

/-- C7 at storage whose `cartItems` key holds text that is not JSON, and at
storage whose array has an entry with a quantity that cannot be converted. -/
theorem initCart_fails_soft_witness :
    (State.init brokenStore).storage.cartItems = some .invalid ∧
    (initCart (State.init brokenStore)).cartItems = [] ∧
    (initCart (State.init brokenStore)).cartCount = 0 ∧
    (initCart (State.init brokenStore)).storage.cartCount = some "0" ∧
    (initCart (State.init brokenStore)).storage.cartItems = none ∧
    loadCartItems (.array [.object goodLine, jammedEntry]) =
      .error "TypeError: Cannot convert object to primitive value" ∧
    (initCart (State.init jammedStore)).errors = [] ++ [initCartError] :=
  have h := (initCart_fails_soft (State.init brokenStore)).2.2.1 (Or.inl rfl)
  ⟨rfl, h.1, h.2.1, h.2.2.1, h.2.2.2, rfl,
    ((initCart_fails_soft (State.init jammedStore)).2.1
      (.array [.object goodLine, jammedEntry]) rfl (by decide)
      "TypeError: Cannot convert object to primitive value" rfl).1⟩

/-! ## C8: the stored count after `initCart` -/

/-- C8, counterexample: over storage whose only line has quantity 2 and
neither `name` nor `price`, `initCart` stores the count 0 and leaves the line
in storage, where the sum of valid quantities is 2. -/
theorem initCart_count_differs_from_stored_lines :
    (initCart (State.init bareStore)).storage.cartCount = some "0" ∧
    (initCart (State.init bareStore)).storage.cartItems = some (.array [.object bareLine]) ∧
    storedQuantitySum (initCart (State.init bareStore)).storage = 2 ∧
    (initCart (State.init bareStore)).storage.cartCount ≠
      some (String.mk (intText (storedQuantitySum (initCart (State.init bareStore)).storage))) := by
  decide

/-- C8, amended: after `initCart` on any storage content, the integer stored
under `cartCount` is the sum of valid non-negative quantities over the
well-formed lines of the list stored under `cartItems` after the load, which
are the lines held in memory; entries that are not well-formed stay in
storage and are not counted. -/
theorem initCart_count_matches_valid_stored_lines (s : State) :
    (initCart s).storage.cartCount =
      some (String.mk (intText (quantitySum (storedValidLines (initCart s).storage)))) ∧
    (initCart s).cartItems = storedValidLines (initCart s).storage ∧
    (initCart s).cartCount = quantitySum (initCart s).cartItems := by
  have h1 : (initCart s).storage.cartCount =
      some (String.mk (intText (countOf (initCart s).cartItems))) := rfl
  have h2 : (initCart s).cartCount = countOf (initCart s).cartItems := rfl
  have h3 : (initCart s).cartItems = storedValidLines (initCart s).storage := by
    rcases stored_cases s.storage.cartItems with h | h | ⟨entries, h, hr⟩
    · rw [initCart_nothing s h]
      rcases h with h | h <;> simp [storedValidLines, h]
    · obtain ⟨h1, -, -, h4, -⟩ := initCart_reset s h
      rw [h1]
      simp [storedValidLines, h4]
    · rw [initCart_array s entries h hr]
      simp [storedValidLines, h]
  rw [countOf_eq_quantitySum] at h1 h2
  exact ⟨by rw [← h3]; exact h1, h3, h2⟩

/-! ## C9: `executeAddToCart` without product data -/

/-- C9: when `productId`, `productName` or `price` is undefined or null,
`executeAddToCart` changes neither `cartItems` nor `cartCount` nor any
storage key, and raises no alert. -/
theorem executeAddToCart_absent_data_noop (s : State)
    (productId productName price productImage quantity color size : JSVal) (now : Int)
    (h : (productId = .undefined ∨ productId = .null) ∨
      (productName = .undefined ∨ productName = .null) ∨
      (price = .undefined ∨ price = .null)) :
    (executeAddToCart s productId productName price productImage quantity color size
        now).cartItems = s.cartItems ∧
    (executeAddToCart s productId productName price productImage quantity color size
        now).cartCount = s.cartCount ∧
    (executeAddToCart s productId productName price productImage quantity color size
        now).storage = s.storage ∧
    (executeAddToCart s productId productName price productImage quantity color size
        now).alerts = s.alerts := by
  have hm : missingData productId productName price = true := by
    rcases h with (h | h) | (h | h) | (h | h) <;> subst h <;>
      simp [missingData, JSVal.truthy, JSVal.isUndefined, JSVal.isNull]
  rw [executeAddToCart_missing s _ _ _ _ _ _ _ _ hm]
  exact ⟨rfl, rfl, rfl, rfl⟩

/-- C9 at the cart holding two of `top1`: an add without `price` leaves the
line and the count of 2. -/
theorem executeAddToCart_absent_data_noop_witness :
    ((JSVal.str "bag2" = .undefined ∨ JSVal.str "bag2" = .null) ∨
      (JSVal.str "Crossbody Bag" = .undefined ∨ JSVal.str "Crossbody Bag" = .null) ∨
      (JSVal.undefined = .undefined ∨ JSVal.undefined = .null)) ∧
    (executeAddToCart twoOfTop1 (.str "bag2") (.str "Crossbody Bag") .undefined (.str "b.jpg")
        (.str "1") (.str "") (.str "") 3000).cartItems = twoOfTop1.cartItems ∧
    (executeAddToCart twoOfTop1 (.str "bag2") (.str "Crossbody Bag") .undefined (.str "b.jpg")
        (.str "1") (.str "") (.str "") 3000).cartCount = 2 :=
  ⟨Or.inr (Or.inr (Or.inl rfl)),
    (executeAddToCart_absent_data_noop twoOfTop1 (.str "bag2") (.str "Crossbody Bag") .undefined
      (.str "b.jpg") (.str "1") (.str "") (.str "") 3000 (Or.inr (Or.inr (Or.inl rfl)))).1,
    (executeAddToCart_absent_data_noop twoOfTop1 (.str "bag2") (.str "Crossbody Bag") .undefined
      (.str "b.jpg") (.str "1") (.str "") (.str "") 3000 (Or.inr (Or.inr (Or.inl rfl)))).2.1⟩

/-! ## C10: how a rejected input is reported -/

/-- C10, counterexample: `executeAddToCart` without a `productId` is rejected
and emits no alert; the rejection goes to `console.error`. -/
theorem executeAddToCart_rejects_without_alert :
    missingData .undefined (.str "BOXY FIT OVERSHIRT") (.str "2400.00") = true ∧
    (executeAddToCart State.empty .undefined (.str "BOXY FIT OVERSHIRT") (.str "2400.00")
        (.str "a.jpg") (.str "1") (.str "") (.str "M") 1000).alerts = [] ∧
    (executeAddToCart State.empty .undefined (.str "BOXY FIT OVERSHIRT") (.str "2400.00")
        (.str "a.jpg") (.str "1") (.str "") (.str "M") 1000).errors =
      ["executeAddToCart: Attempted to add item with missing critical data."] := by
  decide

/-- C10, amended: `placeOrderAndClearCart` on an empty cart emits one blocking
alert and changes nothing else; `executeAddToCart` with missing `productId`,
name or price changes no cart state either, and reports the rejection with
`console.error` only, emitting no alert. -/
theorem rejected_inputs_reported (s t : State) (selectedPayment : Option String)
    (now : Int) (isoDate : String)
    (productId productName price productImage quantity color size : JSVal)
    (hs : s.cartItems = []) (hm : missingData productId productName price = true) :
    placeOrderAndClearCart s selectedPayment now isoDate =
      { s with alerts := s.alerts ++
          ["Your cart is empty. Please add items before placing an order."] } ∧
    executeAddToCart t productId productName price productImage quantity color size now =
      { t with errors := t.errors ++
          ["executeAddToCart: Attempted to add item with missing critical data."] } ∧
    (executeAddToCart t productId productName price productImage quantity color size
      now).alerts = t.alerts := by
  rw [executeAddToCart_missing t _ _ _ _ _ _ _ _ hm]
  refine ⟨?_, rfl, rfl⟩
  simp [placeOrderAndClearCart, hs]

/-- C10 at the empty cart and at an add without `productId`. -/
theorem rejected_inputs_reported_witness :
    State.empty.cartItems = [] ∧
    missingData .undefined (.str "BOXY FIT OVERSHIRT") (.str "2400.00") = true ∧
    (placeOrderAndClearCart State.empty none 1000 "2025-01-01T00:00:00.000Z").alerts =
      ["Your cart is empty. Please add items before placing an order."] ∧
    (executeAddToCart twoOfTop1 .undefined (.str "BOXY FIT OVERSHIRT") (.str "2400.00")
      (.str "a.jpg") (.str "1") (.str "") (.str "M") 1000).alerts = twoOfTop1.alerts :=
  ⟨rfl, by decide,
    congrArg State.alerts (rejected_inputs_reported State.empty twoOfTop1 none 1000
      "2025-01-01T00:00:00.000Z" .undefined (.str "BOXY FIT OVERSHIRT") (.str "2400.00")
      (.str "a.jpg") (.str "1") (.str "") (.str "M") rfl (by decide)).1,
    (rejected_inputs_reported State.empty twoOfTop1 none 1000
      "2025-01-01T00:00:00.000Z" .undefined (.str "BOXY FIT OVERSHIRT") (.str "2400.00")
      (.str "a.jpg") (.str "1") (.str "") (.str "M") rfl (by decide)).2.2⟩

/-! ## C11: checkout of an empty cart -/

/-- C11: `placeOrderAndClearCart` on an empty cart leaves `cartItems`,
`cartCount` and the storage keys `cartItems`, `cartCount` and `userOrders`
as they were, creates no order, and signals the error with one alert. -/
theorem placeOrderAndClearCart_empty_noop (s : State) (selectedPayment : Option String)
    (now : Int) (isoDate : String) (h : s.cartItems = []) :
    (placeOrderAndClearCart s selectedPayment now isoDate).cartItems = s.cartItems ∧
    (placeOrderAndClearCart s selectedPayment now isoDate).cartCount = s.cartCount ∧
    (placeOrderAndClearCart s selectedPayment now isoDate).storage = s.storage ∧
    (placeOrderAndClearCart s selectedPayment now isoDate).alerts =
      s.alerts ++ ["Your cart is empty. Please add items before placing an order."] := by
  rw [placeOrderAndClearCart_empty s selectedPayment now isoDate h]
  exact ⟨rfl, rfl, rfl, rfl⟩

/-- C11 at the empty cart over storage that holds a stale count. -/
theorem placeOrderAndClearCart_empty_noop_witness :
    (State.init brokenStore).cartItems = [] ∧
    (placeOrderAndClearCart (State.init brokenStore) (some "card") 1000
      "2025-01-01T00:00:00.000Z").storage = brokenStore ∧
    (placeOrderAndClearCart (State.init brokenStore) (some "card") 1000
      "2025-01-01T00:00:00.000Z").alerts =
      [] ++ ["Your cart is empty. Please add items before placing an order."] :=
  ⟨rfl,
    (placeOrderAndClearCart_empty_noop (State.init brokenStore) (some "card") 1000
      "2025-01-01T00:00:00.000Z" rfl).2.2.1,
    (placeOrderAndClearCart_empty_noop (State.init brokenStore) (some "card") 1000
      "2025-01-01T00:00:00.000Z" rfl).2.2.2⟩

/-! ## C12: checkout of a non-empty cart -/

/-- C12: for a non-empty cart and the order list `prev` read from storage,
`placeOrderAndClearCart` leaves `cartItems = []` and `cartCount = 0`, in
memory and in storage, and stores under `userOrders` the list `prev`,
unchanged and in order, followed by one new order, the serialized form of a
record whose items are the lines of the cart before the call and whose
status is `Processing`. -/
theorem placeOrderAndClearCart_appends_order (s : State) (selectedPayment : Option String)
    (now : Int) (isoDate : String) (prev : List OrderEntry)
    (hne : s.cartItems ≠ []) (hprev : ReadsOrders s.storage prev) :
    (placeOrderAndClearCart s selectedPayment now isoDate).cartItems = [] ∧
    (placeOrderAndClearCart s selectedPayment now isoDate).cartCount = 0 ∧
    (placeOrderAndClearCart s selectedPayment now isoDate).storage.cartItems =
      some (.array []) ∧
    (placeOrderAndClearCart s selectedPayment now isoDate).storage.cartCount = some "0" ∧
    (placeOrderAndClearCart s selectedPayment now isoDate).storage.userOrders =
      some (.array (prev ++
        [OrderEntry.order (checkoutOrder s selectedPayment now isoDate).toJSON])) ∧
    (checkoutOrder s selectedPayment now isoDate).items = s.cartItems ∧
    (checkoutOrder s selectedPayment now isoDate).status = "Processing" ∧
    (checkoutOrder s selectedPayment now isoDate).toJSON.items = s.cartItems.map Line.toJSON ∧
    (checkoutOrder s selectedPayment now isoDate).toJSON.status = "Processing" := by
  rw [placeOrderAndClearCart_places s selectedPayment now isoDate prev hne hprev]
  exact ⟨rfl, rfl, rfl, rfl, rfl, rfl, rfl, rfl, rfl⟩

/-- C12 at the cart holding two of `top1`, with no order stored before. -/
theorem placeOrderAndClearCart_appends_order_witness :
    twoOfTop1.cartItems ≠ [] ∧ ReadsOrders twoOfTop1.storage [] ∧
    (placeOrderAndClearCart twoOfTop1 none 5000 "2025-01-01T00:00:00.000Z").cartItems = [] ∧
    (placeOrderAndClearCart twoOfTop1 none 5000
      "2025-01-01T00:00:00.000Z").storage.userOrders =
      some (.array ([] ++
        [OrderEntry.order
          (checkoutOrder twoOfTop1 none 5000 "2025-01-01T00:00:00.000Z").toJSON])) ∧
    (checkoutOrder twoOfTop1 none 5000 "2025-01-01T00:00:00.000Z").toJSON.items.map
      Line.quantity = [.int 2] :=
  ⟨by decide, Or.inr ⟨Or.inl rfl, rfl⟩,
    (placeOrderAndClearCart_appends_order twoOfTop1 none 5000 "2025-01-01T00:00:00.000Z" []
      (by decide) (Or.inr ⟨Or.inl rfl, rfl⟩)).1,
    (placeOrderAndClearCart_appends_order twoOfTop1 none 5000 "2025-01-01T00:00:00.000Z" []
      (by decide) (Or.inr ⟨Or.inl rfl, rfl⟩)).2.2.2.2.1,
    by decide⟩

/-! ## C13: the total of the order -/

/-- C13, at the failing input: the cart loaded from storage holds one line
with `productId` `constructor`, price 100 and quantity 1. The catalog has no
such product, so the total in the words of the claim is 100; the order
`placeOrderAndClearCart` creates has total `NaN`, stored as `null`. -/
theorem order_total_nan_for_inherited_key :
    (initCart (State.init constructorStore)).cartItems = [constructorLine] ∧
    products.lookup constructorLine.productId.toStr = none ∧
    specTotal (initCart (State.init constructorStore)).cartItems = some (Dec.ofInt 100) ∧
    (checkoutOrder (initCart (State.init constructorStore)) none 5000
      "2025-01-01T00:00:00.000Z").totalAmount = .nan ∧
    (placeOrderAndClearCart (initCart (State.init constructorStore)) none 5000
      "2025-01-01T00:00:00.000Z").storage.userOrders =
      some (.array [OrderEntry.order
        { orderId := "AEV-5000", orderDate := "2025-01-01T00:00:00.000Z",
          items := [constructorLine], totalAmount := .null, paymentMethod := "GCASH",
          status := "Processing" }]) := by
  decide

/-! ## C14: the count after `removeFromCart` -/

/-- C14, at the failing input: in the cart loaded from two stored lines with
quantities 2 and 0 (count 2), `removeFromCart` of the quantity-0 line deletes
exactly that line and sets `cartCount` to 1, where the decrement by the
sanitized quantity 0 gives 2. -/
theorem removeFromCart_decrements_zero_line_by_one :
    (initCart (State.init zeroLineStore)).cartCount = 2 ∧
    (removeFromCart (initCart (State.init zeroLineStore)) (.str "2")).cartItems =
      (initCart (State.init zeroLineStore)).cartItems.take 1 ∧
    parseInt (JSVal.int 0) = some 0 ∧
    claimedCount (initCart (State.init zeroLineStore)).cartCount (.int 0) = 2 ∧
    (removeFromCart (initCart (State.init zeroLineStore)) (.str "2")).cartCount = 1 := by
  decide

/-! ## C15: increasing and decreasing a quantity -/

/-- C15: when `l` is the line `updateCartItemQuantity` finds for the id and
`q` its sanitized quantity, `'increase'` puts `q + 1` in its place and
`'decrease'`, for `q ≥ 2`, puts `q - 1`; the other lines and their order are
unchanged, the changed line keeps every other field, and the quantity
written is not negative. -/
theorem updateCartItemQuantity_changes_quantity (s : State) (cartItemId : JSVal)
    (pre post : List Line) (l : Line)
    (hxs : s.cartItems = pre ++ l :: post)
    (hpre : ∀ x ∈ pre, hasId cartItemId x = false) (hl : hasId cartItemId l = true) :
    (updateCartItemQuantity s cartItemId (.str "increase")).cartItems =
      pre ++ { l with quantity := .int (sanitizedQuantity l.quantity + 1) } :: post ∧
    0 ≤ sanitizedQuantity l.quantity + 1 ∧
    (2 ≤ sanitizedQuantity l.quantity →
      (updateCartItemQuantity s cartItemId (.str "decrease")).cartItems =
        pre ++ { l with quantity := .int (sanitizedQuantity l.quantity - 1) } :: post ∧
      0 ≤ sanitizedQuantity l.quantity - 1) := by
  have h0 := sanitizedQuantity_nonneg l.quantity
  refine ⟨?_, by omega, ?_⟩
  · rw [updateCartItemQuantity_found s _ _ pre post l hxs hpre hl, updatedQuantity_increase,
      if_neg (by omega)]
    rfl
  · intro h2
    refine ⟨?_, by omega⟩
    rw [updateCartItemQuantity_found s _ _ pre post l hxs hpre hl, updatedQuantity_decrease,
      max_eq_right (by omega), if_neg (by omega)]
    rfl

/-- C15 at the cart with three of `top1` (id 1000) and one `bag2`: the
quantity 3 becomes 4 on `'increase'` and 2 on `'decrease'`. -/
theorem updateCartItemQuantity_changes_quantity_witness :
    threeAndOne.cartItems = [] ++ top1Line :: [bag2Line] ∧
    hasId (.str "1000") top1Line = true ∧
    sanitizedQuantity top1Line.quantity = 3 ∧
    (updateCartItemQuantity threeAndOne (.str "1000") (.str "increase")).cartItems =
      [] ++ { top1Line with quantity := .int (sanitizedQuantity top1Line.quantity + 1) } ::
        [bag2Line] ∧
    (updateCartItemQuantity threeAndOne (.str "1000") (.str "decrease")).cartItems =
      [] ++ { top1Line with quantity := .int (sanitizedQuantity top1Line.quantity - 1) } ::
        [bag2Line] :=
  ⟨by decide, by decide, by decide,
    (updateCartItemQuantity_changes_quantity threeAndOne (.str "1000") [] [bag2Line] top1Line
      (by decide) (by intro x hx; cases hx) (by decide)).1,
    ((updateCartItemQuantity_changes_quantity threeAndOne (.str "1000") [] [bag2Line] top1Line
      (by decide) (by intro x hx; cases hx) (by decide)).2.2 (by decide)).1⟩

/-! ## C16: an id that matches no line -/

/-- C16: when no line has a `cart_item_id` whose string form equals that of
the given id, `updateCartItemQuantity` and `removeFromCart` return the state
as it was: `cartItems`, `cartCount` and all storage keys are unchanged. -/
theorem unknown_id_is_noop (s : State) (cartItemId action : JSVal)
    (h : ∀ x ∈ s.cartItems, x.cart_item_id.toStr ≠ cartItemId.toStr) :
    updateCartItemQuantity s cartItemId action = s ∧ removeFromCart s cartItemId = s := by
  have hno : ∀ x ∈ s.cartItems, hasId cartItemId x = false := by
    intro x hx
    simpa [hasId] using h x hx
  exact ⟨updateCartItemQuantity_absent s _ _ hno, removeFromCart_absent s _ hno⟩

/-- C16 at the cart with ids 1000 and 2000 and the id 3000. -/
theorem unknown_id_is_noop_witness :
    (∀ x ∈ threeAndOne.cartItems, x.cart_item_id.toStr ≠ (JSVal.str "3000").toStr) ∧
    updateCartItemQuantity threeAndOne (.str "3000") (.str "decrease") = threeAndOne ∧
    removeFromCart threeAndOne (.str "3000") = threeAndOne :=
  ⟨by decide,
    unknown_id_is_noop threeAndOne (.str "3000") (.str "decrease") (by decide)⟩

/-! ## C17: quantities of the lines held and persisted -/

/-- C17, counterexample: from storage with two well-formed lines of
quantities 2 and 0, `initCart` keeps both, and the line of quantity 0 is in
the list that a following `updateCartItemQuantity` writes to storage. -/
theorem initCart_keeps_zero_quantity_line :
    (initCart (State.init zeroLineStore)).cartItems.map Line.quantity = [.int 2, .int 0] ∧
    (updateCartItemQuantity (initCart (State.init zeroLineStore)) (.str "1")
      (.str "increase")).cartItems.map Line.quantity = [.int 3, .int 0] ∧
    (storedValidLines (updateCartItemQuantity (initCart (State.init zeroLineStore)) (.str "1")
      (.str "increase")).storage).map Line.quantity = [.int 3, .int 0] := by
  decide

/-- C17, amended: from a cart whose lines all have a positive integer
quantity, in particular the empty one, after any sequence of
`executeAddToCart`, `updateCartItemQuantity` and `removeFromCart` calls that
keeps the numbers exact (the sum of the quantities in the cart, the validated
quantities of the `executeAddToCart` calls and the number of
`updateCartItemQuantity` calls add up to less than `2 ^ 53`), every line held
in `cartItems` has a positive integer quantity, which is the quantity written
for it to storage, and the list under the `cartItems` storage key is the
list held in memory unless no call wrote to storage; after `initCart`, from
any storage content, every line held has a quantity for which `parseInt` does
not give `NaN`, and which may be 0 or negative. -/
theorem positive_quantities_within_budget (s : Ieee.State) (t : State) (ops : List Op)
    (hq : Ieee.PosQty s.cartItems)
    (hb : Ieee.quantitySum s.cartItems + Ieee.budget ops < 2 ^ 53) :
    (∀ l ∈ (Ieee.run s ops).cartItems, ∃ q : Int, 1 ≤ q ∧ q < 2 ^ 53 ∧
      l.quantity = .val (.int q) ∧ l.toJSON.quantity = .int q) ∧
    ((Ieee.run s ops).storage = s.storage ∨ Ieee.Persisted (Ieee.run s ops)) ∧
    ∀ l ∈ (initCart t).cartItems, parseInt l.quantity ≠ none := by
  have h := (ieee_run_within ops s 0 (le_refl 0) ⟨hq, by omega⟩).1.1
  refine ⟨?_, ieee_persisted_run s ops s (Or.inl rfl), ?_⟩
  · intro l hl
    obtain ⟨q, h1, h2, h3⟩ := h l hl
    refine ⟨q, h1, h2, h3, ?_⟩
    show l.quantity.toJSON = _
    rw [h3]
    rfl
  · intro l hl
    obtain ⟨q, hq⟩ := initCart_quantities_parse t l hl
    rw [hq]
    exact Option.some_ne_none q

set_option maxRecDepth 100000 in
/-- C17 at the two adds that build the cart with one `top1` and one `bag2`,
and at the storage that holds lines of quantities 2 and 0. -/
theorem positive_quantities_within_budget_witness :
    Ieee.PosQty Ieee.State.empty.cartItems ∧
    Ieee.quantitySum Ieee.State.empty.cartItems + Ieee.budget oneEachOps < 2 ^ 53 ∧
    (∀ l ∈ (Ieee.run Ieee.State.empty oneEachOps).cartItems, ∃ q : Int, 1 ≤ q ∧ q < 2 ^ 53 ∧
      l.quantity = .val (.int q) ∧ l.toJSON.quantity = .int q) ∧
    (Ieee.run Ieee.State.empty oneEachOps).cartItems.map Ieee.Line.quantity =
      [.val (.int 1), .val (.int 1)] ∧
    Ieee.Persisted (Ieee.run Ieee.State.empty oneEachOps) :=
  ⟨(by intro l hl; cases hl), by decide,
    (positive_quantities_within_budget Ieee.State.empty (State.init zeroLineStore) oneEachOps
      (by intro l hl; cases hl) (by decide)).1,
    by decide, by unfold Ieee.Persisted; decide⟩

/-! ## C18: identifiers of the lines -/

/-- C18, at the failing input: two adds of different products that read the
same clock value 1000 build a cart of two lines, both with `cart_item_id`
1000; `removeFromCart(1000)` then removes only the first of them. -/
theorem same_clock_gives_equal_ids :
    addTimes sameClockOps = [1000, 1000] ∧
    lineIds (run State.empty sameClockOps).cartItems = [.int 1000, .int 1000] ∧
    (run State.empty sameClockOps).cartItems.map Line.productId =
      [.str "top1", .str "bag2"] ∧
    (removeFromCart (run State.empty sameClockOps) (.int 1000)).cartItems.map Line.productId =
      [.str "bag2"] := by
  decide

/-! ## C19: the quantity of a new line -/

set_option maxRecDepth 100000 in
/-- C19, counterexample: `executeAddToCart` on the empty cart with a quantity
text of 310 digits. `parseInt` gives `Infinity`, which is neither `NaN` nor
`<= 0`; the new line holds `Infinity`, not an integer and not 1, the count
stays 0 (`parseInt(Infinity)` is `NaN`) and the quantity is written to
storage as `null`. -/
theorem executeAddToCart_keeps_infinite_quantity :
    hugeQuantity.length = 310 ∧
    Ieee.parseInt (.str hugeQuantity) = .inf false ∧
    (Ieee.executeAddToCart Ieee.State.empty (.str "top1") (.str "BOXY FIT OVERSHIRT")
      (.str "2400.00") (.str "a.jpg") (.str hugeQuantity) (.str "rgb(0, 0, 0)") (.str "M")
      1000).cartItems.map Ieee.Line.quantity = [.inf false] ∧
    (Ieee.executeAddToCart Ieee.State.empty (.str "top1") (.str "BOXY FIT OVERSHIRT")
      (.str "2400.00") (.str "a.jpg") (.str hugeQuantity) (.str "rgb(0, 0, 0)") (.str "M")
      1000).cartCount = .fin 0 ∧
    (Ieee.executeAddToCart Ieee.State.empty (.str "top1") (.str "BOXY FIT OVERSHIRT")
      (.str "2400.00") (.str "a.jpg") (.str hugeQuantity) (.str "rgb(0, 0, 0)") (.str "M")
      1000).cartItems.map (fun l => l.toJSON.quantity) = [.null] := by
  decide

/-- C19, amended: an accepted `executeAddToCart` call that matches no line
pushes one line whose quantity is `parseInt(quantity)` when that is a
positive number, which is an integer or, for digits that denote a number
beyond the range of doubles, `Infinity` (written to storage as `null`), and 1
when it is `NaN`, zero, negative or `-Infinity`; the quantity of the new line
is an integer of at least 1, or `Infinity`. -/
theorem executeAddToCart_new_line_quantity (s : Ieee.State)
    (productId productName price productImage quantity color size : JSVal) (now : Int)
    (nc : String)
    (hm : missingData productId productName price = false)
    (hc : normalizeColor color = some nc)
    (hno : ∀ x ∈ s.cartItems, Ieee.sameItem productId (.str nc) size x = false) :
    ∃ line : Ieee.Line,
      (Ieee.executeAddToCart s productId productName price productImage quantity color size
        now).cartItems = s.cartItems ++ [line] ∧
      (∀ q, Ieee.parseInt quantity = .fin q → 0 < q → line.quantity = .val (.int q)) ∧
      (∀ q, Ieee.parseInt quantity = .fin q → q ≤ 0 → line.quantity = .val (.int 1)) ∧
      (Ieee.parseInt quantity = .nan → line.quantity = .val (.int 1)) ∧
      (Ieee.parseInt quantity = .inf true → line.quantity = .val (.int 1)) ∧
      (Ieee.parseInt quantity = .inf false →
        line.quantity = .inf false ∧ line.toJSON.quantity = .null) ∧
      ((∃ v : Int, 1 ≤ v ∧ line.quantity = .val (.int v)) ∨ line.quantity = .inf false) := by
  refine ⟨Ieee.newLine productId productName price productImage quantity size nc now, ?_, ?_,
    ?_, ?_, ?_, ?_, ?_⟩
  · rw [ieee_add_append s _ _ _ _ _ _ _ _ nc hm hc hno]
    rfl
  · intro q hq hpos
    have hnp : ¬ q ≤ 0 := by omega
    simp [Ieee.newLine, Ieee.validQuantity, hq, JSInt.isNaN, JSInt.isNotPositive, hnp,
      JSInt.toQuantity]
  · intro q hq hle
    simp [Ieee.newLine, Ieee.validQuantity, hq, JSInt.isNaN, JSInt.isNotPositive, hle,
      JSInt.toQuantity]
  · intro hq
    simp [Ieee.newLine, Ieee.validQuantity, hq, JSInt.isNaN, JSInt.toQuantity]
  · intro hq
    simp [Ieee.newLine, Ieee.validQuantity, hq, JSInt.isNaN, JSInt.isNotPositive,
      JSInt.toQuantity]
  · intro hq
    simp [Ieee.newLine, Ieee.validQuantity, hq, JSInt.isNaN, JSInt.isNotPositive,
      JSInt.toQuantity, Ieee.Line.toJSON, Ieee.Quantity.toJSON]
  · rcases ieee_validQuantity_cases quantity with ⟨n, hn, hv⟩ | hv
    · exact Or.inl ⟨n, hn, by simp [Ieee.newLine, hv, JSInt.toQuantity]⟩
    · exact Or.inr (by simp [Ieee.newLine, hv, JSInt.toQuantity])

set_option maxRecDepth 100000 in
/-- C19 at the empty cart: adding `bag2` with the quantity text `0` pushes a
line of quantity 1, and with the quantity text `3` a line of quantity 3. -/
theorem executeAddToCart_new_line_quantity_witness :
    missingData (.str "bag2") (.str "Crossbody Bag") (.str "990.00") = false ∧
    normalizeColor .undefined = some "" ∧
    (∀ x ∈ Ieee.State.empty.cartItems,
      Ieee.sameItem (.str "bag2") (.str "") (.str "") x = false) ∧
    Ieee.parseInt (.str "0") = .fin 0 ∧
    (Ieee.executeAddToCart Ieee.State.empty (.str "bag2") (.str "Crossbody Bag")
      (.str "990.00") (.str "b.jpg") (.str "0") .undefined (.str "") 3000).cartItems.map
        Ieee.Line.quantity = [.val (.int 1)] ∧
    (Ieee.executeAddToCart Ieee.State.empty (.str "bag2") (.str "Crossbody Bag")
      (.str "990.00") (.str "b.jpg") (.str "3") .undefined (.str "") 3000).cartItems.map
        Ieee.Line.quantity = [.val (.int 3)] ∧
    ∃ line : Ieee.Line,
      (Ieee.executeAddToCart Ieee.State.empty (.str "bag2") (.str "Crossbody Bag")
        (.str "990.00") (.str "b.jpg") (.str "0") .undefined (.str "") 3000).cartItems =
        Ieee.State.empty.cartItems ++ [line] ∧
      ((∃ v : Int, 1 ≤ v ∧ line.quantity = .val (.int v)) ∨ line.quantity = .inf false) := by
  refine ⟨by decide, by decide, (by intro x hx; cases hx), by decide, by decide, by decide,
    ?_⟩
  obtain ⟨line, h1, -, -, -, -, -, h7⟩ :=
    executeAddToCart_new_line_quantity Ieee.State.empty (.str "bag2") (.str "Crossbody Bag")
      (.str "990.00") (.str "b.jpg") (.str "0") .undefined (.str "") 3000 ""
      (by decide) (by decide) (by intro x hx; cases hx)
  exact ⟨line, h1, h7⟩

/-! ## C20: what an add changes in the list -/

/-- C20: for an accepted `executeAddToCart` call, with `nc` the trimmed color
(the empty string when `color` is undefined or null): when no line matches,
the new list is the old one, unchanged and in order, followed by one line
carrying the given `productId`, name, image and size, the color `nc` and the
validated quantity; when `l` is the first matching line, the new list is the
old one with the quantity of `l` replaced and nothing else touched. -/
theorem executeAddToCart_list_effect (s : State)
    (productId productName price productImage quantity color size : JSVal) (now : Int)
    (nc : String)
    (hm : missingData productId productName price = false)
    (hc : normalizeColor color = some nc) :
    ((color = .undefined ∨ color = .null) → nc = "") ∧
    (∀ c, color = .str c → nc = jsTrim c) ∧
    ((∀ x ∈ s.cartItems, sameItem productId (.str nc) size x = false) →
      (executeAddToCart s productId productName price productImage quantity color size
        now).cartItems =
        s.cartItems ++
          [{ cart_item_id := .int now, productId := productId, name := productName,
             price := JSVal.ofNum (cleanPrice price), image := productImage,
             quantity := .int (validQuantity quantity), color := .str nc, size := size,
             id := .undefined }]) ∧
    (∀ pre l post, s.cartItems = pre ++ l :: post →
      (∀ x ∈ pre, sameItem productId (.str nc) size x = false) →
      sameItem productId (.str nc) size l = true →
      (executeAddToCart s productId productName price productImage quantity color size
        now).cartItems =
        pre ++
          { l with quantity := .int (sanitizedQuantity l.quantity + validQuantity quantity) } ::
            post) := by
  refine ⟨?_, ?_, ?_, ?_⟩
  · intro h
    rcases h with h | h <;> subst h <;> simpa [normalizeColor, JSVal.truthy] using hc.symm
  · intro c h
    subst h
    by_cases hcs : c = ""
    · subst hcs
      have : normalizeColor (.str "") = some "" := by decide
      rw [this] at hc
      have ht : jsTrim "" = "" := by decide
      rw [ht]
      exact (Option.some.inj hc).symm
    · have : normalizeColor (.str c) = some (jsTrim c) := by
        simp [normalizeColor, JSVal.truthy, hcs]
      rw [this] at hc
      exact (Option.some.inj hc).symm
  · intro hno
    rw [executeAddToCart_append s _ _ _ _ _ _ _ _ nc hm hc hno]
    rfl
  · intro pre l post hxs hpre hl
    rw [executeAddToCart_merge s _ _ _ _ _ _ _ _ nc pre post l hm hc hxs hpre hl]
    rfl

/-- C20 at the cart holding two of `top1`: an add of `bag2` without color
pushes a line with the empty color, and an add of `top1` with the padded
color text changes only the quantity of the `top1` line. -/
theorem executeAddToCart_list_effect_witness :
    missingData (.str "bag2") (.str "Crossbody Bag") (.str "990.00") = false ∧
    normalizeColor .undefined = some "" ∧
    (executeAddToCart twoOfTop1 (.str "bag2") (.str "Crossbody Bag") (.str "990.00")
      (.str "b.jpg") (.str "1") .undefined (.str "") 3000).cartItems =
      twoOfTop1.cartItems ++
        [{ cart_item_id := .int 3000, productId := .str "bag2", name := .str "Crossbody Bag",
           price := JSVal.ofNum (cleanPrice (.str "990.00")), image := .str "b.jpg",
           quantity := .int (validQuantity (.str "1")), color := .str "", size := .str "",
           id := .undefined }] ∧
    (executeAddToCart twoOfTop1 (.str "top1") (.str "BOXY FIT OVERSHIRT") (.str "2400.00")
      (.str "a.jpg") (.str "3") (.str " rgb(0, 0, 0) ") (.str "M") 4000).cartItems.map
        Line.quantity = [.int 5] :=
  ⟨by decide, by decide,
    (executeAddToCart_list_effect twoOfTop1 (.str "bag2") (.str "Crossbody Bag")
      (.str "990.00") (.str "b.jpg") (.str "1") .undefined (.str "") 3000 ""
      (by decide) (by decide)).2.2.1 (by decide),
    by decide⟩

/-! ## C21: the figures of the summary -/

/-- C21, counterexample: the cart holds two of an item outside the catalog
whose own price is -5. The line is counted (count 2), the claimed total is
-5 * 2 = -10, and `displayCartItems` publishes the total 0. -/
theorem displayCartItems_zeroes_negative_price :
    negativePriceCart.cartItems.map Line.price = [.int (-5)] ∧
    negativePriceCart.cartItems.map specCounted = [true] ∧
    negativePriceCart.cartItems.map specPrice = [.int (-5)] ∧
    claimedDisplayTotal negativePriceCart.cartItems = some (Dec.ofInt (-10)) ∧
    displayCartItems negativePriceCart.cartItems = (2, some (Dec.ofInt 0)) ∧
    (displayCartItems negativePriceCart.cartItems).2 ≠
      claimedDisplayTotal negativePriceCart.cartItems := by
  decide

/-- C21, amended: for every non-empty cart in which no `productId` is the
name of a property inherited from `Object.prototype` and whose counted
quantities sum to less than `2 ^ 53`, `displayCartItems` publishes the pair
whose item count is the sum of the quantities and whose total is the sum of
price times quantity over exactly the lines with `productId`, `name`, `price`
and `quantity` present (name and price not null) and a positive parsed
quantity; the price of a line is read from the catalog price of its
`productId` when the catalog has it and from the line's own price otherwise,
keeping only digits, `.` and `-`, and is 0 when that does not parse or is
negative. -/
theorem displayCartItems_publishes (items : List Line) (hne : items ≠ [])
    (hkeys : ∀ l ∈ items, l.productId.toStr ∉ inheritedKeys)
    (_hsum : specDisplayCount items < 2 ^ 53) :
    displayCartItems items = (specDisplayCount items, specDisplayTotal items) := by
  have hlen : ¬ items.length = 0 := fun h => hne (List.length_eq_zero.1 h)
  unfold displayCartItems
  rw [if_neg hlen, foldl_displayItem items _ hkeys]
  simp [specDisplayTotal]

/-- C21 at the cart with three of `top1` and one `bag2`: count 4 and total
3 * 2400 + 990. -/
theorem displayCartItems_publishes_witness :
    threeAndOne.cartItems ≠ [] ∧
    (∀ l ∈ threeAndOne.cartItems, l.productId.toStr ∉ inheritedKeys) ∧
    specDisplayCount threeAndOne.cartItems < 2 ^ 53 ∧
    displayCartItems threeAndOne.cartItems =
      (specDisplayCount threeAndOne.cartItems, specDisplayTotal threeAndOne.cartItems) ∧
    specDisplayCount threeAndOne.cartItems = 4 ∧
    specDisplayTotal threeAndOne.cartItems = some (Dec.ofInt 8190) :=
  ⟨by decide, by decide, by decide,
    displayCartItems_publishes threeAndOne.cartItems (by decide) (by decide) (by decide),
    by decide, by decide⟩

/-! ## C22: totals and `NaN` -/

/-- C22, at the failing input: the cart holds one item outside the catalog
added with the price text `free`, so the price of the line is `NaN`. The
summary total of `displayCartItems` is the number 0; the `totalAmount` of the
order `placeOrderAndClearCart` creates is `NaN`, stored as `null`. -/
theorem order_total_nan_for_unparsable_price :
    freePriceCart.cartItems.map Line.price = [.nan] ∧
    displayCartItems freePriceCart.cartItems = (1, some (Dec.ofInt 0)) ∧
    (checkoutOrder freePriceCart none 5000 "2025-01-01T00:00:00.000Z").totalAmount = .nan ∧
    (checkoutOrder freePriceCart none 5000 "2025-01-01T00:00:00.000Z").toJSON.totalAmount =
      .null ∧
    (placeOrderAndClearCart freePriceCart none 5000
      "2025-01-01T00:00:00.000Z").storage.userOrders =
      some (.array [OrderEntry.order
        (checkoutOrder freePriceCart none 5000 "2025-01-01T00:00:00.000Z").toJSON]) := by
  decide

/-! ## C27: the summary count and the badge count -/

set_option maxRecDepth 100000 in
/-- C27, counterexample: from the empty cart, `executeAddToCart` with the
quantity text `9007199254740992` (`2 ^ 53`), `executeAddToCart` of one more
item and `removeFromCart` of the first line. The cart holds one line of
quantity 1, which `displayCartItems` counts, and `cartCount` is 0: the
summary shows 1 item and the badge 0. -/
theorem summary_count_differs_beyond_two_pow_53 :
    (Ieee.run Ieee.State.empty roundingOps).cartItems.map Ieee.Line.quantity =
      [.val (.int 1)] ∧
    Ieee.displayCount (Ieee.run Ieee.State.empty roundingOps).cartItems = .fin 1 ∧
    (Ieee.run Ieee.State.empty roundingOps).cartCount = .fin 0 ∧
    Ieee.displayCount (Ieee.run Ieee.State.empty roundingOps).cartItems ≠
      (Ieee.run Ieee.State.empty roundingOps).cartCount := by
  decide

/-- C27, amended: in every state reached from the empty cart by
`executeAddToCart`, `updateCartItemQuantity` and `removeFromCart` calls in
which the validated quantities of the `executeAddToCart` calls and the number
of `updateCartItemQuantity` calls add up to less than `2 ^ 53`, the item
count that `displayCartItems` publishes equals `cartCount`. -/
theorem summary_count_eq_cartCount (ops : List Op) (h : Ieee.budget ops < 2 ^ 53) :
    Ieee.displayCount (Ieee.run Ieee.State.empty ops).cartItems =
      (Ieee.run Ieee.State.empty ops).cartCount := by
  obtain ⟨⟨hp, hb⟩, hs, hc⟩ := ieee_run_within ops Ieee.State.empty 0 (le_refl 0)
    (ieee_within_empty _ (by omega))
  rw [hc rfl]
  exact ieee_displayCount_exact _ hp (hs (by intro l hl; cases hl)) (by omega)

set_option maxRecDepth 100000 in
/-- C27 at the two adds that build the cart with one `top1` and one `bag2`:
both counts are 2. -/
theorem summary_count_eq_cartCount_witness :
    Ieee.budget oneEachOps < 2 ^ 53 ∧
    Ieee.displayCount (Ieee.run Ieee.State.empty oneEachOps).cartItems =
      (Ieee.run Ieee.State.empty oneEachOps).cartCount ∧
    (Ieee.run Ieee.State.empty oneEachOps).cartCount = .fin 2 :=
  ⟨by decide, summary_count_eq_cartCount oneEachOps (by decide), by decide⟩

/-! ## C28: the summary total and the order total -/

/-- C28, counterexample: the cart loaded from storage holds two of `top1`
with `price` null (what an add with an unparsable price leaves in storage).
The quantity is a positive integer and the catalog has `top1`; the summary
skips the line and shows the total 0, the order records 4800. -/
theorem summary_total_differs_for_null_price :
    (initCart (State.init nullPriceStore)).cartItems = [nullPriceLine] ∧
    parseInt nullPriceLine.quantity = some 2 ∧
    (products.lookup nullPriceLine.productId.toStr).isSome = true ∧
    (displayCartItems (initCart (State.init nullPriceStore)).cartItems).2 =
      some (Dec.ofInt 0) ∧
    (checkoutOrder (initCart (State.init nullPriceStore)) none 5000
      "2025-01-01T00:00:00.000Z").totalAmount = .int 4800 ∧
    JSVal.ofNum (displayCartItems (initCart (State.init nullPriceStore)).cartItems).2 ≠
      (checkoutOrder (initCart (State.init nullPriceStore)) none 5000
        "2025-01-01T00:00:00.000Z").totalAmount := by
  decide

/-- C28, amended: for every non-empty cart whose lines all have `productId`,
`name`, `price` and `quantity` present (name and price not null), a positive
integer quantity and a `productId` present in the catalog, the total amount
shown by `displayCartItems` equals the `totalAmount` of the order
`placeOrderAndClearCart` creates from that cart. -/
theorem summary_total_eq_order_total (s : State) (selectedPayment : Option String)
    (now : Int) (isoDate : String) (hne : s.cartItems ≠ [])
    (h : ∀ l ∈ s.cartItems, displaySkips l = false ∧
      (∃ q, parseInt l.quantity = some q ∧ 0 < q) ∧
      ∃ p, products.lookup l.productId.toStr = some p) :
    JSVal.ofNum (displayCartItems s.cartItems).2 =
      (checkoutOrder s selectedPayment now isoDate).totalAmount := by
  have hlen : ¬ s.cartItems.length = 0 := fun h0 => hne (List.length_eq_zero.1 h0)
  unfold displayCartItems checkoutOrder
  rw [if_neg hlen, foldl_displayItem_in_catalog s.cartItems _ h]

/-- C28 at the cart with three of `top1` and one `bag2`: both totals are
8190. -/
theorem summary_total_eq_order_total_witness :
    threeAndOne.cartItems ≠ [] ∧
    (∀ l ∈ threeAndOne.cartItems, displaySkips l = false ∧
      (∃ q, parseInt l.quantity = some q ∧ 0 < q) ∧
      ∃ p, products.lookup l.productId.toStr = some p) ∧
    JSVal.ofNum (displayCartItems threeAndOne.cartItems).2 =
      (checkoutOrder threeAndOne none 5000 "2025-01-01T00:00:00.000Z").totalAmount ∧
    (checkoutOrder threeAndOne none 5000 "2025-01-01T00:00:00.000Z").totalAmount =
      .int 8190 :=
  have hlines : ∀ l ∈ threeAndOne.cartItems, displaySkips l = false ∧
      (∃ q, parseInt l.quantity = some q ∧ 0 < q) ∧
      ∃ p, products.lookup l.productId.toStr = some p := by
    intro l hl
    have hl' : l = top1Line ∨ l = bag2Line := by
      have : threeAndOne.cartItems = [top1Line, bag2Line] := by decide
      rw [this] at hl
      simpa using hl
    rcases hl' with rfl | rfl
    · exact ⟨by decide, ⟨3, by decide, by decide⟩,
        ⟨⟨.str "BOXY FIT OVERSHIRT", .str "2400.00"⟩, by decide⟩⟩
    · exact ⟨by decide, ⟨1, by decide, by decide⟩,
        ⟨⟨.str "Crossbody Bag", .str "990.00"⟩, by decide⟩⟩
  ⟨by decide, hlines,
    summary_total_eq_order_total threeAndOne none 5000 "2025-01-01T00:00:00.000Z" (by decide)
      hlines,
    by decide⟩

/-! ## C23: the round trip through storage -/

/-- C23, counterexample: the cart built by one `executeAddToCart` call with
the price text `free` holds a line whose price is `NaN`. Serialized and
loaded back with `initCart`, the line has the price `null`: the reloaded
lines are not the originals. -/
theorem reload_turns_nan_price_into_null :
    freePriceCart.cartItems.map Line.price = [.nan] ∧
    freePriceCart.cartItems.map Line.quantity = [.int 1] ∧
    freePriceCart.cartCount = quantitySum freePriceCart.cartItems ∧
    (reload freePriceCart).cartItems.map Line.price = [.null] ∧
    (reload freePriceCart).cartItems ≠ freePriceCart.cartItems := by
  decide

/-- C23, amended: for every cart of lines with `productId`, `name` and
`price` present and a positive integer quantity, whose count is the sum of
its quantities, below `2 ^ 53`: after serializing `cartItems` and `cartCount`
to storage and loading them back with `initCart`, the count is the original,
serializing again gives the stored values of the first serialization, and
the lines are the originals with every `NaN` field read back as `null`; they
are the originals when no field is `NaN` or an object. -/
theorem cart_round_trip (s : State) (hb : ∀ l ∈ s.cartItems, BuiltLine l)
    (hcount : s.cartCount = quantitySum s.cartItems)
    (_hsum : quantitySum s.cartItems < 2 ^ 53) :
    (reload s).cartItems = s.cartItems.map Line.toJSON ∧
    (reload s).cartCount = s.cartCount ∧
    persistCart (reload s).storage (reload s).cartItems (reload s).cartCount =
      persistCart s.storage s.cartItems s.cartCount ∧
    ((∀ l ∈ s.cartItems, l.jsonExact = true) → (reload s).cartItems = s.cartItems) := by
  obtain ⟨h1, h2, _⟩ := reload_built s hb
  refine ⟨h1, by rw [h2, hcount], reserialize_built s hb hcount, ?_⟩
  intro hx
  rw [h1]
  conv_rhs => rw [← List.map_id s.cartItems]
  apply List.map_congr_left
  intro l hl
  exact toJSON_of_jsonExact l (hx l hl)

/-- C23 at the cart with three of `top1` and one `bag2`. -/
theorem cart_round_trip_witness :
    (∀ l ∈ threeAndOne.cartItems, BuiltLine l) ∧
    threeAndOne.cartCount = quantitySum threeAndOne.cartItems ∧
    quantitySum threeAndOne.cartItems < 2 ^ 53 ∧
    (∀ l ∈ threeAndOne.cartItems, l.jsonExact = true) ∧
    (reload threeAndOne).cartItems = threeAndOne.cartItems ∧
    (reload threeAndOne).cartCount = 4 :=
  have hlines : ∀ l ∈ threeAndOne.cartItems, BuiltLine l := by
    intro l hl
    have hl' : l = top1Line ∨ l = bag2Line := by
      have : threeAndOne.cartItems = [top1Line, bag2Line] := by decide
      rw [this] at hl
      simpa using hl
    rcases hl' with rfl | rfl
    · exact ⟨by decide, by decide, by decide, 3, by decide, by decide⟩
    · exact ⟨by decide, by decide, by decide, 1, by decide, by decide⟩
  ⟨hlines, by decide, by decide, by decide,
    (cart_round_trip threeAndOne hlines (by decide) (by decide)).2.2.2 (by decide),
    by decide⟩

/-! ## C30: the legacy `addToCart` -/

/-- C30: the legacy `addToCart`, called with a price text, appends exactly
one line and increases `cartCount` by exactly 1 whatever quantity the line
carries; from a state where `cartCount` is the sum of the quantities, the new
`cartCount` is the new sum exactly when the page quantity parses to 1. -/
theorem addToCart_counts_one (s : State) (productName : JSVal) (price : String)
    (textContent : Option String) (now : Int)
    (hcount : s.cartCount = quantitySum s.cartItems) :
    (addToCart s productName (.str price) textContent now).cartItems =
      s.cartItems ++ [legacyItem productName price textContent now] ∧
    (addToCart s productName (.str price) textContent now).cartCount = s.cartCount + 1 ∧
    ((addToCart s productName (.str price) textContent now).cartCount =
        quantitySum (addToCart s productName (.str price) textContent now).cartItems ↔
      parseIntChars (pageQuantityText textContent).toList = some 1) := by
  refine ⟨rfl, rfl, ?_⟩
  show s.cartCount + 1 = quantitySum (s.cartItems ++ [legacyItem productName price textContent now])
    ↔ _
  rw [quantitySum_append, quantitySum_cons, hcount]
  have hnil : quantitySum [] = 0 := rfl
  rw [hnil]
  have hnan : parseInt .nan = none := by decide
  cases hq : parseIntChars (pageQuantityText textContent).toList with
  | none =>
    simp only [legacyItem, hq, Num.ofParsed, JSVal.ofNum, sanitizedQuantity, hnan]
    constructor
    · intro h; omega
    · intro h; cases h
  | some q =>
    have hparse : parseInt (JSVal.ofNum (Num.ofParsed (some q))) = some q := parseInt_int q
    simp only [legacyItem, hq, sanitizedQuantity, hparse]
    constructor
    · intro h
      split at h
      · omega
      · congr 1; omega
    · intro h
      cases h
      simp

/-- C30 at the cart holding two of `top1` (count 2): with the page quantity
3 the count becomes 3 and the sum 5; with the page quantity 1 both are 3. -/
theorem addToCart_counts_one_witness :
    twoOfTop1.cartCount = quantitySum twoOfTop1.cartItems ∧
    (addToCart twoOfTop1 (.str "Crossbody Bag") (.str "$990.00") (some "3") 3000).cartCount =
      twoOfTop1.cartCount + 1 ∧
    quantitySum (addToCart twoOfTop1 (.str "Crossbody Bag") (.str "$990.00") (some "3")
      3000).cartItems = 5 ∧
    quantitySum (addToCart twoOfTop1 (.str "Crossbody Bag") (.str "$990.00") none
      3000).cartItems = 3 :=
  ⟨by decide,
    (addToCart_counts_one twoOfTop1 (.str "Crossbody Bag") "$990.00" (some "3") 3000
      (by decide)).2.1,
    by decide, by decide⟩

/-! ## C25: the price stored in a new line -/

/-- C25, counterexample: the numeral `12.50` preceded by two `$`, or by
`PHP` twice, is stored as `NaN`: only the first occurrence of each symbol is
removed before `parseFloat`. -/
theorem cleanPrice_nan_for_repeated_symbol :
    parseFloat (.str "12.50") = some ⟨125, 1⟩ ∧
    cleanPrice (.str "$$12.50") = none ∧
    cleanPrice (.str "PHP PHP 12.50") = none ∧
    (executeAddToCart State.empty (.str "custom1") (.str "Custom item") (.str "$$12.50")
      (.str "c.jpg") (.int 1) (.str "") (.str "") 1000).cartItems.map Line.price = [.nan] := by
  decide

/-- C25, amended: for every price text made of a decimal numeral with white
space around it and at most one `$` and at most one `PHP` put in anywhere, an
accepted `executeAddToCart` call that matches no line stores in the new line
the numeric value of the numeral; and for every product of the catalog the
price stored from its catalog price string is that decimal value. -/
theorem executeAddToCart_stores_numeral_value (s : State)
    (productId productName productImage quantity color size : JSVal) (now : Int)
    (nc : String) (ip fp w1 w2 t1 t : List Char)
    (hip : AllDigits ip) (hfp : AllDigits fp) (hne : ip ≠ [])
    (h1 : ∀ c ∈ w1, isJSSpace c = true) (h2 : ∀ c ∈ w2, isJSSpace c = true)
    (hphp : WithSymbol "PHP".toList (w1 ++ numeralText ip fp ++ w2) t1)
    (hdollar : WithSymbol "$".toList t1 t)
    (hm : missingData productId productName (.str (String.mk t)) = false)
    (hc : normalizeColor color = some nc)
    (hno : ∀ x ∈ s.cartItems, sameItem productId (.str nc) size x = false) :
    (∃ line : Line,
      (executeAddToCart s productId productName (.str (String.mk t)) productImage quantity
        color size now).cartItems = s.cartItems ++ [line] ∧
      line.price = .num (numeralValue ip fp)) ∧
    products.map (fun e => cleanPrice e.2.price) =
      [some ⟨2400, 0⟩, some ⟨6000, 0⟩, some ⟨6000, 0⟩, some ⟨1490, 0⟩, some ⟨1990, 0⟩,
        some ⟨1990, 0⟩, some ⟨1990, 0⟩, some ⟨1990, 0⟩, some ⟨1990, 0⟩, some ⟨790, 0⟩,
        some ⟨1290, 0⟩, some ⟨1290, 0⟩, some ⟨1490, 0⟩, some ⟨1490, 0⟩, some ⟨990, 0⟩,
        some ⟨990, 0⟩, some ⟨990, 0⟩, some ⟨990, 0⟩, some ⟨1490, 0⟩, some ⟨990, 0⟩,
        some ⟨1490, 0⟩, some ⟨990, 0⟩, some ⟨1490, 0⟩] := by
  refine ⟨⟨newLine productId productName (.str (String.mk t)) productImage quantity size nc now,
    ?_, ?_⟩, by decide⟩
  · rw [executeAddToCart_append s _ _ _ _ _ _ _ _ nc hm hc hno]
    rfl
  · show JSVal.ofNum (cleanPrice (.str (String.mk t))) = _
    rw [cleanPrice_numeral ip fp w1 w2 t1 t hip hfp hne h1 h2 hphp hdollar]
    rfl

/-- C25 at the price text `PHP $2400.50` with a trailing blank, added to the
empty cart: the line stores 2400.5. -/
theorem executeAddToCart_stores_numeral_value_witness :
    AllDigits "2400".toList ∧ AllDigits "50".toList ∧
    WithSymbol "PHP".toList ([' '] ++ numeralText "2400".toList "50".toList ++ [' '])
      "PHP 2400.50 ".toList ∧
    WithSymbol "$".toList "PHP 2400.50 ".toList "PHP $2400.50 ".toList ∧
    numeralValue "2400".toList "50".toList = ⟨24005, 1⟩ ∧
    ∃ line : Line,
      (executeAddToCart State.empty (.str "top1") (.str "BOXY FIT OVERSHIRT")
        (.str (String.mk "PHP $2400.50 ".toList)) (.str "a.jpg") (.str "1") (.str "")
        (.str "M") 1000).cartItems = State.empty.cartItems ++ [line] ∧
      line.price = .num (numeralValue "2400".toList "50".toList) :=
  have hip : AllDigits "2400".toList := by unfold AllDigits; decide
  have hfp : AllDigits "50".toList := by unfold AllDigits; decide
  have hphp : WithSymbol "PHP".toList ([' '] ++ numeralText "2400".toList "50".toList ++ [' '])
      "PHP 2400.50 ".toList := Or.inr ⟨[], " 2400.50 ".toList, by decide, by decide⟩
  have hdollar : WithSymbol "$".toList "PHP 2400.50 ".toList "PHP $2400.50 ".toList :=
    Or.inr ⟨"PHP ".toList, "2400.50 ".toList, by decide, by decide⟩
  ⟨hip, hfp, hphp, hdollar, by decide,
    (executeAddToCart_stores_numeral_value State.empty (.str "top1")
      (.str "BOXY FIT OVERSHIRT") (.str "a.jpg") (.str "1") (.str "") (.str "M") 1000 ""
      "2400".toList "50".toList [' '] [' '] "PHP 2400.50 ".toList "PHP $2400.50 ".toList
      hip hfp (by decide) (by decide) (by decide) hphp hdollar
      (by decide) (by decide) (by intro x hx; cases hx)).1⟩

/-- C29: `isValidEmail` accepts a text exactly when it has no white space,
exactly one `@` with at least one character before it, and after the `@` a
`.` that is neither the first nor the last character of that part; and
`validateContactForm` records the error 'Please enter a valid email address'
exactly when the trimmed email is not empty and `isValidEmail` rejects it. -/
theorem isValidEmail_iff_shape (s : String)
    (stored : Option (Stored (LogEntry ContactMessage)))
    (nameValue emailValue messageValue isoDate : String) :
    (isValidEmail s = true ↔ EmailShape s.toList) ∧
    ("Please enter a valid email address" ∈
        (validateContactForm stored nameValue emailValue messageValue isoDate).errors ↔
      jsTrim emailValue ≠ "" ∧ isValidEmail (jsTrim emailValue) = false) := by
  refine ⟨emailRegexTest_iff_shape _, ?_⟩
  rw [validateContactForm_errors, mem_contactErrors]
  rfl

/-- C24, counterexample: with one submission already stored under
`form_<formId>`, `handleFormSubmit` leaves only the new submission under the
key, and it replaces a stored array of two submissions by the new one alone:
the earlier entries are gone. -/
theorem handleFormSubmit_overwrites :
    handleFormSubmit (some [("email", "b@x.org")]) (some (.object [("email", "a@x.org")])) =
      some (.object [("email", "b@x.org")]) ∧
    formEntries (handleFormSubmit (some [("email", "b@x.org")])
        (some (.object [("email", "a@x.org")]))) ≠
      formEntries (some (.object [("email", "a@x.org")])) ++ [[("email", "b@x.org")]] ∧
    formEntries (handleFormSubmit (some [("email", "c@x.org")])
        (some (.array [[("email", "a@x.org")], [("email", "b@x.org")]]))) =
      [[("email", "c@x.org")]] := by
  decide

/-- C24, amended: `contactMessages` and `productReviews` are append-only
logs, a submission that passes validation is written after the entries the
key held, which stay as they were and in order (and alone when the key was
absent); `form_<formId>` is not a log, `handleFormSubmit` replaces whatever
the key held by the one new submission. -/
theorem submissions_appended (prev : List (LogEntry ContactMessage))
    (prevReviews : List (LogEntry Review))
    (nameValue emailValue messageValue isoDate usernameValue reviewValue rating : String)
    (data : FormData) (stored : Option FormValue)
    (hn : jsTrim nameValue ≠ "") (he : isValidEmail (jsTrim emailValue) = true)
    (hm : jsTrim messageValue ≠ "") (hu : jsTrim usernameValue ≠ "")
    (hr : jsTrim reviewValue ≠ "") (hrating : rating ≠ "") :
    validateContactForm (some (.array prev)) nameValue emailValue messageValue isoDate =
      .stored (prev ++ [.item ⟨jsTrim nameValue, jsTrim emailValue, jsTrim messageValue,
        isoDate⟩]) ∧
    validateContactForm none nameValue emailValue messageValue isoDate =
      .stored [.item ⟨jsTrim nameValue, jsTrim emailValue, jsTrim messageValue, isoDate⟩] ∧
    submitReview (some (.array prevReviews)) usernameValue reviewValue (some rating) isoDate =
      .stored (prevReviews ++ [.item ⟨jsTrim usernameValue, jsTrim reviewValue,
        jsonField (JSVal.ofNum (Num.ofParsed (parseIntChars rating.toList))), isoDate⟩]) ∧
    submitReview none usernameValue reviewValue (some rating) isoDate =
      .stored [.item ⟨jsTrim usernameValue, jsTrim reviewValue,
        jsonField (JSVal.ofNum (Num.ofParsed (parseIntChars rating.toList))), isoDate⟩] ∧
    handleFormSubmit (some data) stored = some (.object data) ∧
    formEntries (handleFormSubmit (some data) stored) = [data] := by
  have hc := contactErrors_nil _ _ _ hn he hm
  refine ⟨?_, ?_, ?_, ?_, rfl, rfl⟩
  · simp [validateContactForm, hc, appendToLog]
  · simp [validateContactForm, hc, appendToLog]
  · simp [submitReview, hu, hr, hrating, appendToLog]
  · simp [submitReview, hu, hr, hrating, appendToLog]

/-- C24, amended, at two submissions: a second contact message and a second
review of rating 4 are stored after the first ones, and a form submission
stands alone under its key. -/
theorem submissions_appended_witness :
    validateContactForm
        (some (.array [.item ⟨"Ann", "ann@x.org", "hello", "2024-01-01T00:00:00.000Z"⟩]))
        " Bob " "bob@x.org" "hi" "2024-01-02T00:00:00.000Z" =
      .stored [.item ⟨"Ann", "ann@x.org", "hello", "2024-01-01T00:00:00.000Z"⟩,
        .item ⟨"Bob", "bob@x.org", "hi", "2024-01-02T00:00:00.000Z"⟩] ∧
    submitReview (some (.array [.item ⟨"Ann", "fine", .num ⟨5, 0⟩, "2024-01-01T00:00:00.000Z"⟩]))
        "Bob" "good" (some "4") "2024-01-02T00:00:00.000Z" =
      .stored [.item ⟨"Ann", "fine", .num ⟨5, 0⟩, "2024-01-01T00:00:00.000Z"⟩,
        .item ⟨"Bob", "good", .num ⟨4, 0⟩, "2024-01-02T00:00:00.000Z"⟩] ∧
    handleFormSubmit (some [("email", "b@x.org")]) (some (.object [("email", "a@x.org")])) =
      some (.object [("email", "b@x.org")]) := by
  have h := submissions_appended
    [.item ⟨"Ann", "ann@x.org", "hello", "2024-01-01T00:00:00.000Z"⟩]
    [.item ⟨"Ann", "fine", .num ⟨5, 0⟩, "2024-01-01T00:00:00.000Z"⟩]
    " Bob " "bob@x.org" "hi" "2024-01-02T00:00:00.000Z" "Bob" "good" "4"
    [("email", "b@x.org")] (some (.object [("email", "a@x.org")]))
    (by decide) (by decide) (by decide) (by decide) (by decide) (by decide)
  exact ⟨h.1.trans (by decide), h.2.2.1.trans (by decide), h.2.2.2.2.1⟩

/-- C26: `colorToDisplay` handles the two `rgb` formats alike. For non-empty
strings of decimal digits `r`, `g`, `b`, the texts `rgb(r,g,b)` and
`rgb(r, g, b)` get the same result, and so do any two texts that become one of
these two once lower-cased and trimmed: the result depends neither on the
letter case nor on the white space around the text. -/
theorem colorToDisplay_rgb_formats_alike (r g b : List Char) (x y : String)
    (hr : r ≠ []) (hg : g ≠ []) (hb : b ≠ [])
    (dr : AllDigits r) (dg : AllDigits g) (db : AllDigits b)
    (hx : normalizedColor (.str x) = String.mk (rgbFormat [','] r g b) ∨
      normalizedColor (.str x) = String.mk (rgbFormat [',', ' '] r g b))
    (hy : normalizedColor (.str y) = String.mk (rgbFormat [','] r g b) ∨
      normalizedColor (.str y) = String.mk (rgbFormat [',', ' '] r g b)) :
    colorToDisplay (.str (String.mk (rgbFormat [','] r g b))) =
      colorToDisplay (.str (String.mk (rgbFormat [',', ' '] r g b))) ∧
    colorToDisplay (.str x) = colorToDisplay (.str y) := by
  have key : ∀ z : String,
      (normalizedColor (.str z) = String.mk (rgbFormat [','] r g b) ∨
        normalizedColor (.str z) = String.mk (rgbFormat [',', ' '] r g b)) →
      colorToDisplay (.str z) =
        if (colorMapAt (String.mk (rgbFormat [',', ' '] r g b))).truthy then
          colorMapAt (String.mk (rgbFormat [',', ' '] r g b))
        else if (colorMapAt (String.mk (rgbFormat [','] r g b))).truthy then
          colorMapAt (String.mk (rgbFormat [','] r g b))
        else .str "Custom Color" := by
    intro z hz
    have agree := colorMapAt_formats_agree r g b dr dg db
    rcases hz with hz | hz
    · rw [colorToDisplay_format z r g b _ hr hg hb dr dg db (Or.inl rfl) hz]
      by_cases hU : (colorMapAt (String.mk (rgbFormat [','] r g b))).truthy = true <;>
        by_cases hS : (colorMapAt (String.mk (rgbFormat [',', ' '] r g b))).truthy = true
      · simp [hU, hS, agree hU hS]
      · simp [hU, hS]
      · simp [hU, hS, rgbLookup]
      · simp [hU, hS, rgbLookup]
    · rw [colorToDisplay_format z r g b _ hr hg hb dr dg db (Or.inr rfl) hz]
      by_cases hU : (colorMapAt (String.mk (rgbFormat [','] r g b))).truthy = true <;>
        by_cases hS : (colorMapAt (String.mk (rgbFormat [',', ' '] r g b))).truthy = true
      · simp [hS]
      · simp [hU, hS, rgbLookup]
      · simp [hS]
      · simp [hU, hS, rgbLookup]
  refine ⟨?_, ?_⟩
  · rw [key _ (Or.inl (normalizedColor_format r g b _ dr dg db (Or.inl rfl))),
      key _ (Or.inr (normalizedColor_format r g b _ dr dg db (Or.inr rfl)))]
  · rw [key x hx, key y hy]

/-- C26 at black: `rgb(0,0,0)`, `rgb(0, 0, 0)` and the upper-case text with
blanks around it all give `Black`, and a triple that is not in the map gives
`Custom Color` in both formats. -/
theorem colorToDisplay_rgb_formats_alike_witness :
    colorToDisplay (.str "rgb(0,0,0)") = .str "Black" ∧
    colorToDisplay (.str "rgb(0, 0, 0)") = .str "Black" ∧
    colorToDisplay (.str " RGB(0, 0, 0) ") = .str "Black" ∧
    colorToDisplay (.str " RGB(0, 0, 0) ") = colorToDisplay (.str "rgb(0,0,0)") ∧
    colorToDisplay (.str "rgb(1,2,3)") = .str "Custom Color" ∧
    colorToDisplay (.str "rgb(1, 2, 3)") = .str "Custom Color" :=
  have hd : AllDigits ['0'] := by unfold AllDigits; decide
  ⟨by decide, by decide, by decide,
    (colorToDisplay_rgb_formats_alike ['0'] ['0'] ['0'] " RGB(0, 0, 0) " "rgb(0,0,0)"
      (by decide) (by decide) (by decide) hd hd hd
      (Or.inr (by decide)) (Or.inl (by decide))).2,
    by decide, by decide⟩

end Aevera
